import Mathlib

/-!
Shallow embedding of the game engine in src/backend/server.py: the session
state, the pickup placement helpers, the role-based visibility filter, turn
processing and the websocket action handlers, together with theorems checking
the specification claims against these definitions.

Randomness in the source (random.choice, random.sample, random.randint,
random.shuffle) is modelled by an explicit oracle argument.  IO (websocket
sends, broadcasts, logging) is dropped.  The events log keeps only the event
type tags; event message texts are presentation data.
-/

namespace YK

/-- Association-list lookup, mirroring Python dict access (first match). -/
def lookupA {α : Type} (k : String) : List (String × α) → Option α
  | [] => none
  | p :: t => if p.1 = k then some p.2 else lookupA k t

/-- Update the value bound to key k, mirroring a Python dict write to an
existing key (the binding keeps its slot). -/
def updA {α : Type} (k : String) (f : α → α) (l : List (String × α)) : List (String × α) :=
  l.map (fun p => if p.1 = k then (p.1, f p.2) else p)

/-- Insert-or-update, mirroring Python d[k] = v (an existing key keeps its
slot, a new key is appended at the end, as dicts preserve insertion order). -/
def setA {α : Type} (k : String) (v : α) (l : List (String × α)) : List (String × α) :=
  if (lookupA k l).isSome then updA k (fun _ => v) l else l ++ [(k, v)]

/-- Deduplication keeping first occurrences; stands in for Python set(...)
iteration, whose order is irrelevant to the state reached here. -/
def dedupFirst (l : List String) : List String :=
  l.foldl (fun acc x => if acc.contains x then acc else acc ++ [x]) []

/-- Per-room state, one entry of game_state["rooms"] (server.py lines 103-116).
The trap_triggered key is absent until first set in the source; reading an
absent key yields the falsy default, which Bool false models. -/
structure Room where
  floor : String
  has_key : Bool
  has_medikit : Bool
  locked : Bool
  eliminated_players : List String
  trapped : Bool
  highlighted : Bool
  has_quest : Bool
  quest_class : Option String
  poisoned_turns_remaining : Nat
  has_mimic : Bool
  has_crystal : Bool
  trap_triggered : Bool
deriving DecidableEq

/-- Per-player state, one entry of game_state["players"] (lines 125-138). -/
structure Player where
  id : String
  name : String
  avatar : String
  character_class : Option String
  is_host : Bool
  eliminated : Bool
  current_room : Option String
  has_medikit : Bool
  role : String
  immobilized_next_turn : Bool
  poisoned_countdown : Nat
  gold : Nat
deriving DecidableEq

/-- One quest of game_state["quests"] (generate_quests, lines 162-175). -/
structure Quest where
  qclass : String
  player_id : String
  player_name : String
deriving DecidableEq

/-- game_state["active_quest"] (lines 1493-1498). -/
structure ActiveQuest where
  qclass : String
  room : String
  player_id : String
  player_name : String
deriving DecidableEq

/-- One entry of game_state["rage_second_chances"] (lines 914-918). -/
structure RageChance where
  can_select : Bool
  room_selected : Option String
deriving DecidableEq

/-- Per-killer record in active_powers["rage"]["data"] (lines 603-606). -/
structure RageEntry where
  has_second_chance : Bool
  used_second_chance : Bool
deriving DecidableEq

/-- Client payload of a power_action message: the source stores the raw dict
and later reads action_data.get("rooms", []), .get("room") or .get("floor"). -/
structure ActionData where
  rooms : List String
  room : Option String
  floor : Option String
deriving DecidableEq

/-- One entry of game_state["pending_power_selections"] (lines 1791-1796). -/
structure PowerSelection where
  options : List String
  selected_power : Option String
  action_data : Option ActionData
  action_complete : Bool
deriving DecidableEq

/-- game_state["active_powers"]: one optional slot per power name; isSome
models key presence.  The used_by lists of the source are dropped: they are
written in apply_powers and never read anywhere.  For secousse the payload is
data.get("should_relocate_key", False); for piege/barricade/mimic the room
lists; for toxine the poisoned room; for rage the per-killer record map. -/
structure ActivePowers where
  vision : Option Unit
  secousse : Option Bool
  piege : Option (List String)
  toxine : Option (Option String)
  traque : Option Unit
  barricade : Option (List String)
  rage : Option (List (String × RageEntry))
  mimic : Option (List String)
deriving DecidableEq

/-- active_powers after game["active_powers"] = {} . -/
def emptyActivePowers : ActivePowers :=
  { vision := none, secousse := none, piege := none, toxine := none,
    traque := none, barricade := none, rage := none, mimic := none }

/-- The session state (create_game_state, lines 121-160).  session_id,
host_id, conspiracy_mode and created_at are lobby bookkeeping carried along
unchanged.  pending_actions maps a player id to the selected room (the source
stores an action-kind tag that is always select_room plus the room).  events
keeps event type tags only.  winner is absent until set, hence Option. -/
structure Game where
  session_id : String
  host_id : String
  players : List (String × Player)
  rooms : List (String × Room)
  keys_collected : Nat
  keys_needed : Nat
  game_started : Bool
  turn : Nat
  phase : String
  events : List String
  pending_actions : List (String × String)
  should_place_next_key : Bool
  conspiracy_mode : Bool
  active_powers : ActivePowers
  pending_power_selections : List (String × PowerSelection)
  rooms_searched_this_key : List String
  quests : List Quest
  active_quest : Option ActiveQuest
  completed_quests : List String
  rage_second_chances : List (String × RageChance)
  crystal_spawned : Bool
  crystal_destroyed : Bool
  winner : Option String
deriving DecidableEq

/-- Randomness oracle: pick models random.choice on a nonempty list (with its
membership guarantee), highlightPick the randomized Vision room selection
(apply_powers lines 464-522), drawPowers the per-killer random.sample of
get_random_powers, gold one random.randint(15, 200) draw. -/
structure Oracle where
  pick : List String → String
  pick_mem : ∀ l : List String, l ≠ [] → pick l ∈ l
  highlightPick : List String → List String
  drawPowers : String → List String
  gold : Nat

/-- Update one room of the state. -/
def updRoom (rn : String) (f : Room → Room) (g : Game) : Game :=
  { g with rooms := updA rn f g.rooms }

/-- Update one player of the state. -/
def updPlayer (pid : String) (f : Player → Player) (g : Game) : Game :=
  { g with players := updA pid f g.players }

/-- Update one pending power selection. -/
def updSel (pid : String) (f : PowerSelection → PowerSelection) (g : Game) : Game :=
  { g with pending_power_selections := updA pid f g.pending_power_selections }

/-- Current rooms of killers (the killer_positions list computed by each
placement helper, e.g. lines 182-183): truthy current_room values of players
whose role is killer. -/
def killerPositions (g : Game) : List String :=
  g.players.filterMap (fun pp => if pp.2.role = "killer" then pp.2.current_room else none)

/-- Rooms available for a quest marker (place_quest, lines 185-190):
not locked, no quest already, not a killer position. -/
def availForQuest (g : Game) : List String :=
  (g.rooms.filter (fun nr =>
    nr.2.locked = false ∧ nr.2.has_quest = false ∧ ¬ nr.1 ∈ killerPositions g)).map Prod.fst

/-- Rooms available for the crystal (place_crystal, lines 209-214). -/
def availForCrystal (g : Game) : List String :=
  (g.rooms.filter (fun nr =>
    nr.2.locked = false ∧ nr.2.has_crystal = false ∧ ¬ nr.1 ∈ killerPositions g)).map Prod.fst

/-- Rooms available for a key (place_next_key, lines 233-238). -/
def availForKey (g : Game) : List String :=
  (g.rooms.filter (fun nr =>
    nr.2.locked = false ∧ nr.2.has_key = false ∧ ¬ nr.1 ∈ killerPositions g)).map Prod.fst

/-- Rooms available for the medikit (respawn_medikit, lines 256-262): note the
additional has_key exclusion present only in this placement helper. -/
def availForMedikit (g : Game) : List String :=
  (g.rooms.filter (fun nr =>
    nr.2.locked = false ∧ nr.2.has_medikit = false ∧ nr.2.has_key = false ∧
      ¬ nr.1 ∈ killerPositions g)).map Prod.fst

/-- place_quest (lines 177-199): place a quest in a random available room,
returning the chosen room, or None leaving the state untouched. -/
def place_quest (o : Oracle) (qc : String) (g : Game) : Option String × Game :=
  let avail := availForQuest g
  if avail = [] then (none, g)
  else
    let rn := o.pick avail
    (some rn, updRoom rn (fun r => { r with has_quest := true, quest_class := some qc }) g)

/-- place_crystal (lines 201-223). -/
def place_crystal (o : Oracle) (g : Game) : Option String × Game :=
  let avail := availForCrystal g
  if avail = [] then (none, g)
  else
    let rn := o.pick avail
    (some rn, { updRoom rn (fun r => { r with has_crystal := true }) g with crystal_spawned := true })

/-- place_next_key (lines 225-246). -/
def place_next_key (o : Oracle) (g : Game) : Option String × Game :=
  let avail := availForKey g
  if avail = [] then (none, g)
  else
    let rn := o.pick avail
    (some rn, updRoom rn (fun r => { r with has_key := true }) g)

/-- respawn_medikit (lines 248-270). -/
def respawn_medikit (o : Oracle) (g : Game) : Option String × Game :=
  let avail := availForMedikit g
  if avail = [] then (none, g)
  else
    let rn := o.pick avail
    (some rn, updRoom rn (fun r => { r with has_medikit := true }) g)

/-- Living survivors (the alive_survivors list computations). -/
def aliveSurvivors (g : Game) : List (String × Player) :=
  g.players.filter (fun pp => pp.2.role = "survivor" ∧ pp.2.eliminated = false)

/-- Living killers (the alive_killers list computations). -/
def aliveKillers (g : Game) : List (String × Player) :=
  g.players.filter (fun pp => pp.2.role = "killer" ∧ pp.2.eliminated = false)

/-- survivors_selected (lines 1772-1773 / 2055-2056): pending-action keys
whose player has role survivor (eliminated is not checked in the source). -/
def survivorsSelected (g : Game) : List String :=
  (g.pending_actions.filter (fun pa =>
    match lookupA pa.1 g.players with
    | some p => p.role = "survivor"
    | none => False)).map Prod.fst

/-- killers_selected (lines 2091-2092). -/
def killersSelected (g : Game) : List String :=
  (g.pending_actions.filter (fun pa =>
    match lookupA pa.1 g.players with
    | some p => p.role = "killer"
    | none => False)).map Prod.fst

/-- The survivors_actions / killers_actions split of process_turn
(lines 770-779): pending actions of living players of the given role. -/
def roleActions (g : Game) (role : String) : List (String × String) :=
  g.pending_actions.filter (fun pa =>
    match lookupA pa.1 g.players with
    | some p => p.role = role ∧ p.eliminated = false
    | none => False)

/-- Room part of filter_game_state (lines 640-652): survivors keep the
triggered flag and see trapped only when triggered, and never highlighted;
killers see trapped and highlighted but the trap_triggered key is popped
(reading it afterwards yields the falsy default). -/
def filterRoom (role : String) (r : Room) : Room :=
  if role = "survivor" then
    let r := { r with highlighted := false }
    if r.trap_triggered = false then { r with trapped := false } else r
  else if role = "killer" then
    { r with trap_triggered := false }
  else r

/-- Player part of filter_game_state (lines 654-674): positions of the other
role are withheld unless eliminated; killers additionally see survivor gold
as 0. -/
def filterPlayer (role : String) (p : Player) : Player :=
  if role = "survivor" then
    if p.role = "survivor" ∨ p.eliminated = true then p
    else { p with current_room := none }
  else
    if p.role = "killer" ∨ p.eliminated = true then p
    else { p with current_room := none, gold := 0 }

/-- filter_game_state (lines 627-689).  For a role other than survivor or
killer neither player branch fires, so the filtered players dict stays empty;
pending actions are kept only for players sharing the viewer role, and
pending power selections only for killers. -/
def filter_game_state (g : Game) (role : String) : Game :=
  { g with
    rooms := g.rooms.map (fun nr => (nr.1, filterRoom role nr.2)),
    players :=
      if role = "survivor" ∨ role = "killer" then
        g.players.map (fun pp => (pp.1, filterPlayer role pp.2))
      else [],
    pending_actions := g.pending_actions.filter (fun pa =>
      match lookupA pa.1 g.players with
      | some p => p.role = role
      | none => False),
    pending_power_selections :=
      if role = "killer" then g.pending_power_selections else [] }

/-- requires_action flags of the POWERS catalog (lines 311-367). -/
def powerRequiresAction : String → Bool
  | "piege" => true
  | "toxine" => true
  | "traque" => true
  | "barricade" => true
  | "mimic" => true
  | _ => false

/-- Apply one killer's selected power (one iteration of the apply_powers loop,
lines 445-625).  The randomized Vision highlight selection among rooms not
searched since the last objective is delegated to the oracle; Traque only
emits events (its two message variants share the sound_clue event type). -/
def applyOnePower (o : Oracle) (g : Game) (pidsel : String × PowerSelection) : Game :=
  match pidsel.2.selected_power with
  | none => g
  | some pw =>
    if pw = "vision" then
      let unsearched := (g.rooms.filter (fun nr =>
        ¬ nr.1 ∈ g.rooms_searched_this_key)).map Prod.fst
      let picked := o.highlightPick unsearched
      let g := picked.foldl (fun g rn =>
        updRoom rn (fun r => { r with highlighted := true }) g) g
      { g with active_powers := { g.active_powers with vision := some () },
               events := g.events ++ ["power_used"] }
    else if pw = "secousse" then
      { g with active_powers := { g.active_powers with secousse := some true },
               events := g.events ++ ["power_used"] }
    else if pw = "piege" then
      let trooms := ((pidsel.2.action_data).map ActionData.rooms).getD []
      let g := trooms.foldl (fun g rn =>
        match lookupA rn g.rooms with
        | some _ => updRoom rn (fun r => { r with trapped := true }) g
        | none => g) g
      { g with active_powers := { g.active_powers with piege := some trooms },
               events := g.events ++ ["power_used"] }
    else if pw = "toxine" then
      let proom := (pidsel.2.action_data).bind ActionData.room
      let g :=
        match proom with
        | some rn =>
          match lookupA rn g.rooms with
          | some _ => updRoom rn (fun r => { r with poisoned_turns_remaining := 3 }) g
          | none => g
        | none => g
      { g with active_powers := { g.active_powers with toxine := some proom },
               events := g.events ++ ["power_used"] }
    else if pw = "traque" then
      let pfloor := (pidsel.2.action_data).bind ActionData.floor
      let g :=
        match pfloor with
        | some _ => { g with events := g.events ++ ["sound_clue"] }
        | none => g
      { g with active_powers := { g.active_powers with traque := some () },
               events := g.events ++ ["power_used"] }
    else if pw = "barricade" then
      let brooms := ((pidsel.2.action_data).map ActionData.rooms).getD []
      { g with active_powers := { g.active_powers with barricade := some brooms },
               events := g.events ++ ["power_used"] }
    else if pw = "rage" then
      let entries := (g.active_powers.rage).getD []
      let entries := setA pidsel.1 { has_second_chance := false, used_second_chance := false } entries
      { g with active_powers := { g.active_powers with rage := some entries },
               events := g.events ++ ["power_used"] }
    else if pw = "mimic" then
      let mrooms := ((pidsel.2.action_data).map ActionData.rooms).getD []
      let g := mrooms.foldl (fun g rn =>
        match lookupA rn g.rooms with
        | some _ => updRoom rn (fun r => { r with has_mimic := true }) g
        | none => g) g
      { g with active_powers := { g.active_powers with mimic := some mrooms },
               events := g.events ++ ["power_used"] }
    else g

/-- apply_powers (lines 434-625): reset active_powers and fold the pending
selections in order. -/
def apply_powers (o : Oracle) (g : Game) : Game :=
  g.pending_power_selections.foldl (applyOnePower o) { g with active_powers := emptyActivePowers }

/-- The all_complete loop of check_power_selection_complete (lines 409-420):
every living killer has a pending power selection entry (keyed by the player
id field) whose action_complete flag is set. -/
def powerSelectionComplete (g : Game) : Bool :=
  (aliveKillers g).all (fun kp =>
    match lookupA kp.2.id g.pending_power_selections with
    | some sel => sel.action_complete
    | none => false)

/-- check_power_selection_complete (lines 405-432): when complete, apply the
powers and advance to killer_selection. -/
def check_power_selection_complete (o : Oracle) (g : Game) : Game :=
  if powerSelectionComplete g then
    { apply_powers o g with phase := "killer_selection" }
  else g

/-- Clearing of traps and mimics once every survivor has selected
(lines 1776-1780 / 2059-2064). -/
def clearTrapsAndMimics (g : Game) : Game :=
  { g with rooms := g.rooms.map (fun nr =>
      (nr.1, { nr.2 with trapped := false, trap_triggered := false, has_mimic := false })) }

/-- Dealing of three random powers to every living killer (lines 1786-1796 /
2070-2080); the source keys the fresh selections by killer["id"]. -/
def assignPowerOptions (o : Oracle) (g : Game) : Game :=
  { g with pending_power_selections := (aliveKillers g).map (fun kp =>
      (kp.2.id, ({ options := o.drawPowers kp.2.id, selected_power := none,
                   action_data := none, action_complete := false } : PowerSelection))) }

/-- Advance out of survivor_selection once every living survivor has a pending
action (lines 1769-1802 / 2052-2086): clear traps and mimics from the previous
turn, move to killer_power_selection and deal power options. -/
def survAdvanceCore (o : Oracle) (g : Game) : Game :=
  if (survivorsSelected g).length = (aliveSurvivors g).length then
    assignPowerOptions o { clearTrapsAndMimics g with phase := "killer_power_selection" }
  else g

/-- Lazy key placement at the start of process_turn (lines 740-743). -/
def stagePlaceKey (o : Oracle) (g : Game) : Game :=
  if g.should_place_next_key then
    let pr := place_next_key o g
    match pr.1 with
    | some _ => { pr.2 with should_place_next_key := false }
    | none => pr.2
  else g

/-- Unlock rooms locked last turn except barricaded ones, then (re)lock the
barricade targets (lines 745-760). -/
def stageUnlock (g : Game) : Game :=
  let br := (g.active_powers.barricade).getD []
  let g := { g with rooms := g.rooms.map (fun nr =>
    if nr.2.locked = true ∧ ¬ nr.1 ∈ br then (nr.1, { nr.2 with locked := false }) else nr) }
  br.foldl (fun g rn =>
    match lookupA rn g.rooms with
    | some _ =>
      let g := updRoom rn (fun r => { r with locked := true }) g
      { g with events := g.events ++ ["room_locked"] }
    | none => g) g

/-- Clear vision highlights (lines 762-764); traps and mimics persist. -/
def stageClearHighlights (g : Game) : Game :=
  { g with rooms := g.rooms.map (fun nr => (nr.1, { nr.2 with highlighted := false })) }

/-- Move players with pending actions of a role to their selected rooms
(lines 786-787 / 831-832). -/
def stageMove (acts : List (String × String)) (g : Game) : Game :=
  acts.foldl (fun g pa => updPlayer pa.1 (fun p => { p with current_room := some pa.2 }) g) g

/-- One survivor's room interaction during processing (lines 791-824): medikit
pickup, then auto-revival of the first eliminated occupant when the survivor
carries the medikit (reviving resets the poison countdown and respawns the
medikit).  Quest handling is done at selection time, not here. -/
def survInteractOne (o : Oracle) (g : Game) (pa : String × String) : Game :=
  match lookupA pa.1 g.players, lookupA pa.2 g.rooms with
  | some _, some room =>
    let g :=
      if room.has_medikit then
        let g := updRoom pa.2 (fun r => { r with has_medikit := false }) g
        let g := updPlayer pa.1 (fun p => { p with has_medikit := true }) g
        { g with events := g.events ++ ["medikit_found"] }
      else g
    match lookupA pa.1 g.players, lookupA pa.2 g.rooms with
    | some p, some room =>
      if p.has_medikit = true ∧ room.eliminated_players ≠ [] then
        match room.eliminated_players with
        | [] => g
        | tid :: _ =>
          match lookupA tid g.players with
          | some tp =>
            if tp.eliminated then
              let g := updPlayer tid (fun q =>
                { q with eliminated := false, poisoned_countdown := 0 }) g
              let g := updPlayer pa.1 (fun q => { q with has_medikit := false }) g
              let g := updRoom pa.2 (fun r =>
                { r with eliminated_players := r.eliminated_players.erase tid }) g
              let g := { g with events := g.events ++ ["revival"] }
              let pr := respawn_medikit o g
              match pr.1 with
              | some _ => { pr.2 with events := pr.2.events ++ ["medikit_respawn"] }
              | none => pr.2
            else g
          | none => g
      else g
    | _, _ => g
  | _, _ => g

/-- Survivor interactions for all pending survivor actions (lines 791-824). -/
def stageSurvivorInteract (o : Oracle) (acts : List (String × String)) (g : Game) : Game :=
  acts.foldl (survInteractOne o) g

/-- One step of the elimination scan over all players for a killer standing in
room kr (lines 844-883): a living survivor in kr is eliminated, their gold is
zeroed, they are appended to the room's eliminated_players, and a carried
medikit is destroyed and respawned elsewhere. -/
def elimScanOne (o : Oracle) (kr : String) (acc : Game × Bool) (sid : String) : Game × Bool :=
  match lookupA sid acc.1.players with
  | none => acc
  | some s =>
    if s.role = "survivor" ∧ s.eliminated = false ∧ s.current_room = some kr then
      let g := updPlayer sid (fun q => { q with eliminated := true, gold := 0 }) acc.1
      let g := updRoom kr (fun r =>
        { r with eliminated_players := r.eliminated_players ++ [sid] }) g
      let g := { g with events := g.events ++ ["elimination"] }
      let g :=
        if s.has_medikit then
          let g := updPlayer sid (fun q => { q with has_medikit := false }) g
          let pr := respawn_medikit o g
          match pr.1 with
          | some _ => { pr.2 with events := pr.2.events ++ ["medikit_respawn"] }
          | none => pr.2
        else g
      (g, true)
    else acc

/-- One killer's elimination pass (lines 838-901): scan all players for living
survivors in the killer's room; on a find, record the room for locking and,
when the rage power is active for this killer and unused, grant a second
chance.  The source appends the killer's room to eliminated_rooms once per
eliminated survivor; only set membership of the room is consumed (line 904),
which one entry per finding killer preserves. -/
def elimOneKiller (o : Oracle) (acc : Game × List String × List String)
    (ka : String × String) : Game × List String × List String :=
  match lookupA ka.1 acc.1.players with
  | none => acc
  | some killer =>
    match killer.current_room with
    | none => acc
    | some kr =>
      let pids := acc.1.players.map Prod.fst
      let gf := pids.foldl (elimScanOne o kr) (acc.1, false)
      let er := if gf.2 then acc.2.1 ++ [kr] else acc.2.1
      if gf.2 = true ∧ gf.1.active_powers.rage.isSome then
        match lookupA ka.1 ((gf.1.active_powers.rage).getD []) with
        | some rd =>
          if rd.used_second_chance = false then
            let entries := updA ka.1 (fun e => { e with has_second_chance := true })
              ((gf.1.active_powers.rage).getD [])
            let g := { gf.1 with active_powers := { gf.1.active_powers with rage := some entries } }
            (g, er, acc.2.2 ++ [ka.1])
          else (gf.1, er, acc.2.2)
        | none => (gf.1, er, acc.2.2)
      else (gf.1, er, acc.2.2)

/-- Lock a room where an elimination occurred (lines 903-908). -/
def lockElimRoom (g : Game) (rn : String) : Game :=
  let g := updRoom rn (fun r => { r with locked := true }) g
  { g with events := g.events ++ ["room_locked"] }

/-- Lock every room of the elimination set (lines 903-908). -/
def stageLockElim (er : List String) (g : Game) : Game :=
  (dedupFirst er).foldl lockElimRoom g

/-- Enter the rage second-selection sub-phase (lines 911-927). -/
def enterRagePhase (grants : List String) (g : Game) : Game :=
  { g with
    rage_second_chances := grants.map (fun kid =>
      (kid, ({ can_select := true, room_selected := none } : RageChance))),
    phase := "rage_second_selection" }

/-- Secousse resolution (lines 929-946): key_found_this_turn is initialized
False at line 737 and never set anywhere, so the relocation always runs when
the power is active; it clears the first room holding the legacy has_key flag
and, only if one existed, places a key elsewhere. -/
def stageSecousse (o : Oracle) (g : Game) : Game :=
  if (g.active_powers.secousse).getD false then
    match (g.rooms.find? (fun nr => nr.2.has_key)).map Prod.fst with
    | some kr =>
      let g := updRoom kr (fun r => { r with has_key := false }) g
      let pr := place_next_key o g
      match pr.1 with
      | some _ => { pr.2 with events := pr.2.events ++ ["key_relocated"] }
      | none => pr.2
    | none => g
  else g

/-- Crystal spawn check (lines 951-975): when all quests are completed, at
least one survivor is alive and the crystal has not yet spawned, place it. -/
def stageCrystalSpawn (o : Oracle) (alive : Nat) (g : Game) : Game :=
  if g.quests.length ≤ g.completed_quests.length ∧ 0 < alive ∧ g.crystal_spawned = false then
    let pr := place_crystal o g
    match pr.1 with
    | some _ => { pr.2 with events := pr.2.events ++ ["crystal_spawned", "crystal_spawned"] }
    | none => pr.2
  else g

/-- Decrement room poison durations (lines 1004-1006). -/
def stageRoomPoisonDec (g : Game) : Game :=
  { g with rooms := g.rooms.map (fun nr =>
      if 0 < nr.2.poisoned_turns_remaining then
        (nr.1, { nr.2 with poisoned_turns_remaining := nr.2.poisoned_turns_remaining - 1 })
      else nr) }

/-- One step of the player poison countdown decrement (lines 1013-1033):
living survivors with a positive countdown tick down; reaching zero marks
them for elimination. -/
def poisonDecOne (acc : Game × List String) (pid : String) : Game × List String :=
  match lookupA pid acc.1.players with
  | none => acc
  | some p =>
    if p.role = "survivor" ∧ p.eliminated = false ∧ 0 < p.poisoned_countdown then
      let g := updPlayer pid (fun q =>
        { q with poisoned_countdown := q.poisoned_countdown - 1 }) acc.1
      if p.poisoned_countdown - 1 = 0 then (g, acc.2 ++ [pid]) else (g, acc.2)
    else acc

/-- Player poison countdowns for all players (lines 1013-1033). -/
def stagePlayerPoisonDec (g : Game) : Game × List String :=
  (g.players.map Prod.fst).foldl poisonDecOne (g, [])

/-- Eliminate one suffocated player (lines 1036-1059). -/
def stagePoisonEliminateOne (g : Game) (pid : String) : Game :=
  let g := updPlayer pid (fun q =>
    { q with eliminated := true, poisoned_countdown := 0, gold := 0 }) g
  { g with events := g.events ++ ["player_eliminated"] }

/-- Start the next turn (lines 1086-1097): bump the counter, reset the phase
to survivor_selection and clear pending actions and per-turn power state. -/
def nextTurn (g : Game) : Game :=
  { g with turn := g.turn + 1, phase := "survivor_selection", pending_actions := [],
           active_powers := emptyActivePowers, pending_power_selections := [] }

/-- The shared tail of process_turn and process_rage_second_selections
(lines 948-1097 / 1166-1315): victory evaluation, crystal spawning, poison
countdowns and the transition to the next turn.  alive_survivors is computed
once (line 949) before the crystal spawn and reused by both victory checks. -/
def resolutionTail (o : Oracle) (g : Game) : Game :=
  let alive := (aliveSurvivors g).length
  let g := stageCrystalSpawn o alive g
  if g.crystal_destroyed = true ∧ 0 < alive then
    { g with phase := "game_over", winner := some ("survivors") }
  else if alive = 0 then
    { g with phase := "game_over", winner := some ("killers"),
             events := g.events ++ ["game_over", "game_over"] }
  else
    let g := stageRoomPoisonDec g
    let pe := stagePlayerPoisonDec g
    let g := pe.2.foldl stagePoisonEliminateOne pe.1
    if (aliveSurvivors g).length = 0 then
      { g with phase := "game_over", winner := some ("killers"),
               events := g.events ++ ["game_over", "game_over"] }
    else nextTurn g

/-- process_turn (lines 733-1097): lazy key placement, unlock/barricade,
highlight clearing, survivor moves and interactions, killer moves and
eliminations, locking, then either the rage sub-phase or the shared tail
(preceded by the secousse relocation). -/
def process_turn (o : Oracle) (g : Game) : Game :=
  let g := stagePlaceKey o g
  let g := stageUnlock g
  let g := stageClearHighlights g
  let sacts := roleActions g ("survivor")
  let kacts := roleActions g ("killer")
  let g := stageMove sacts g
  let g := stageSurvivorInteract o sacts g
  let g := stageMove kacts g
  let egr := kacts.foldl (elimOneKiller o) (g, ([] : List String), ([] : List String))
  let g := stageLockElim egr.2.1 egr.1
  if egr.2.2 = [] then resolutionTail o (stageSecousse o g)
  else enterRagePhase egr.2.2 g

/-- One killer's rage second selection resolution (lines 1104-1161): move to
the second room, eliminate living survivors found there, lock the room when
an elimination occurred. -/
def rageElimOne (o : Oracle) (g : Game) (krc : String × RageChance) : Game :=
  match krc.2.room_selected with
  | none => g
  | some rn =>
    match lookupA krc.1 g.players with
    | none => g
    | some _ =>
      let g := updPlayer krc.1 (fun p => { p with current_room := some rn }) g
      let pids := g.players.map Prod.fst
      let gf := pids.foldl (elimScanOne o rn) (g, false)
      if gf.2 then lockElimRoom gf.1 rn else gf.1

/-- process_rage_second_selections (lines 1099-1315). -/
def process_rage_second_selections (o : Oracle) (g : Game) : Game :=
  let g := g.rage_second_chances.foldl (rageElimOne o) g
  resolutionTail o { g with rage_second_chances := [] }

/-- Record a pending room selection (lines 1746-1749 / 1846-1849). -/
def recordPending (pid rn : String) (g : Game) : Game :=
  { g with pending_actions := setA pid rn g.pending_actions }

/-- Role of a player as read live from the state. -/
def playerRole (g : Game) (pid : String) : String :=
  ((lookupA pid g.players).map Player.role).getD ""

/-- Track rooms searched since the last completed objective, for the Vision
power (lines 1863-1866): survivors only, no duplicates. -/
def trackSearched (pid rn : String) (g : Game) : Game :=
  if playerRole g pid = "survivor" ∧ ¬ rn ∈ g.rooms_searched_this_key then
    { g with rooms_searched_this_key := g.rooms_searched_this_key ++ [rn] }
  else g

/-- Trap check on room selection (lines 1868-1883): a survivor selecting an
armed room is immobilized for the next turn and the room is marked triggered
(the armed flag is not cleared here). -/
def trapStep (pid rn : String) (g : Game) : Game :=
  match lookupA pid g.players, lookupA rn g.rooms with
  | some p, some r =>
    if p.role = "survivor" ∧ r.trapped = true then
      let g := updPlayer pid (fun q => { q with immobilized_next_turn := true }) g
      updRoom rn (fun q => { q with trap_triggered := true }) g
    else g
  | _, _ => g

/-- Poison check on room selection (lines 1885-1896): a survivor entering a
poisoned room starts a personal 10-turn countdown unless already poisoned. -/
def poisonStep (pid rn : String) (g : Game) : Game :=
  match lookupA pid g.players, lookupA rn g.rooms with
  | some p, some r =>
    if p.role = "survivor" ∧ 0 < r.poisoned_turns_remaining ∧ p.poisoned_countdown = 0 then
      updPlayer pid (fun q => { q with poisoned_countdown := 10 }) g
    else g
  | _, _ => g

/-- The state updates of a quest completion before the next placement
(lines 1908-1933): clear the room's quest, append the class to the completed
list, mirror it into keys_collected, reset the searched-rooms tracker and
clear the active quest. -/
def questClearState (rn qc : String) (g : Game) : Game :=
  let g := updRoom rn (fun r => { r with has_quest := false, quest_class := none }) g
  let g := { g with completed_quests := g.completed_quests ++ [qc] }
  let g := { g with keys_collected := g.completed_quests.length }
  { g with events := g.events ++ ["quest_completed"],
           rooms_searched_this_key := [], active_quest := none }

/-- The quest-completion branch of the selection-time quest check
(lines 1907-1948): clear via questClearState, then place the next queued
quest (indexed by the completed count after appending) if any remain. -/
def questCompleteCore (o : Oracle) (rn qc : String) (g : Game) : Game :=
  let g := questClearState rn qc g
  if g.completed_quests.length < g.quests.length then
    match g.quests[g.completed_quests.length]? with
    | some nq =>
      let pr := place_quest o nq.qclass g
      match pr.1 with
      | some r2 =>
        let aq : ActiveQuest :=
          { qclass := nq.qclass, room := r2,
            player_id := nq.player_id, player_name := nq.player_name }
        { pr.2 with active_quest := some aq }
      | none => pr.2
    | none => g
  else g

/-- Quest check at selection time (lines 1898-1972): on a class match the
quest is completed and cleared immediately via questCompleteCore; otherwise
only an event is logged. -/
def questStep (o : Oracle) (pid rn : String) (g : Game) : Game :=
  match lookupA pid g.players, lookupA rn g.rooms with
  | some p, some room =>
    if room.has_quest = true ∧ room.quest_class.isSome then
      match room.quest_class with
      | none => g
      | some qc =>
        if p.character_class = some qc then questCompleteCore o rn qc g
        else { g with events := g.events ++ ["search_wrong_class"] }
    else { g with events := g.events ++ ["search_no_quest"] }
  | _, _ => g

/-- Crystal check at selection time (lines 1974-2007): any survivor reaching
the spawned crystal destroys it and the game ends at once with the survivors
as winner; killers are not consulted. -/
def crystalStep (rn : String) (g : Game) : Game :=
  match lookupA rn g.rooms with
  | some room =>
    if room.has_crystal = true ∧ g.crystal_spawned = true then
      let g := updRoom rn (fun r => { r with has_crystal := false }) g
      { g with crystal_destroyed := true, phase := "game_over",
               winner := some ("survivors"), events := g.events ++ ["game_over", "game_over"] }
    else g
  | none => g

/-- Quest then crystal checks, both gated on the survivor role (line 1899). -/
def questCrystalStep (o : Oracle) (pid rn : String) (g : Game) : Game :=
  if playerRole g pid = "survivor" then crystalStep rn (questStep o pid rn g) else g

/-- Gold reward on room selection (lines 2009-2025): survivors gain a random
amount unless the room is in the (possibly just set) triggered state. -/
def goldStep (o : Oracle) (pid rn : String) (g : Game) : Game :=
  match lookupA pid g.players, lookupA rn g.rooms with
  | some p, some r =>
    if p.role = "survivor" ∧ r.trap_triggered = false then
      updPlayer pid (fun q => { q with gold := q.gold + o.gold }) g
    else g
  | _, _ => g

/-- Mimic check on room selection (lines 2027-2041): a survivor entering a
mimic room loses all gold and the mimic clears. -/
def mimicStep (pid rn : String) (g : Game) : Game :=
  match lookupA pid g.players, lookupA rn g.rooms with
  | some p, some r =>
    if p.role = "survivor" ∧ r.has_mimic = true then
      let g := updPlayer pid (fun q => { q with gold := 0 }) g
      updRoom rn (fun q => { q with has_mimic := false }) g
    else g
  | _, _ => g

/-- killers_selected completeness guard of the killer_selection phase
(lines 2088-2097). -/
def killersSelectionComplete (g : Game) : Bool :=
  (killersSelected g).length = (aliveKillers g).length

/-- Advance out of killer_selection once every pending-killer count matches
the living-killer count: set phase processing and run the turn
(lines 2094-2097). -/
def killerSelectionAdvance (o : Oracle) (g : Game) : Game :=
  if killersSelectionComplete g then process_turn o { g with phase := "processing" }
  else g

/-- The phase-completion checks at the end of an accepted room selection
(lines 2051-2097). -/
def phaseAdvance (o : Oracle) (g : Game) : Game :=
  if g.phase = "survivor_selection" then survAdvanceCore o g
  else if g.phase = "killer_selection" then killerSelectionAdvance o g
  else g

/-- The sequence of room interactions behind an accepted room selection
(lines 1846-2041), in source order: record the pending action, track searched
rooms, trap, poison, quest and crystal, gold, mimic. -/
def selPipeline (o : Oracle) (pid rn : String) (g : Game) : Game :=
  mimicStep pid rn (goldStep o pid rn (questCrystalStep o pid rn
    (poisonStep pid rn (trapStep pid rn (trackSearched pid rn (recordPending pid rn g))))))

/-- The accepted room-selection path behind the guard of line 1845: record
the action and run the survivor-only room interactions, then the phase
checks. -/
def normalSelect (o : Oracle) (pid rn : String) (g : Game) : Game :=
  match lookupA rn g.rooms with
  | none => g
  | some room =>
    if room.locked then g
    else phaseAdvance o (selPipeline o pid rn g)

/-- The select_room message handler (lines 1724-2097).  An unknown player id
would raise in the source (line 1722); pending actions only exist for
registered players.  The immobilized-survivor branch runs before any phase
check: selecting a different room is refused with a notice, selecting the
current room passes the turn, clears the immobilization, records the action
and runs only the survivor-phase completion check.  In the
rage_second_selection branch an invalid room falls through to the standard
room guard of line 1845, which fails for the same reason, leaving the state
unchanged. -/
def handle_select_room (o : Oracle) (pid rn : String) (g : Game) : Game :=
  match lookupA pid g.players with
  | none => g
  | some player =>
    if player.role = "survivor" ∧ player.immobilized_next_turn = true then
      if player.current_room ≠ some rn then g
      else
        let g := updPlayer pid (fun p => { p with immobilized_next_turn := false }) g
        let g := recordPending pid rn g
        if g.phase = "survivor_selection" then survAdvanceCore o g else g
    else if player.role = "survivor" ∧ g.phase ≠ "survivor_selection" then g
    else if player.role = "killer" ∧ g.phase ≠ "killer_selection" ∧
        g.phase ≠ "rage_second_selection" then g
    else if g.phase = "rage_second_selection" then
      match lookupA pid g.rage_second_chances with
      | none => g
      | some _ =>
        match lookupA rn g.rooms with
        | some room =>
          if room.locked = false then
            let rcs := updA pid (fun rc => { rc with room_selected := some rn, can_select := false })
              g.rage_second_chances
            let g := { g with rage_second_chances := rcs }
            if g.rage_second_chances.all (fun rc => rc.2.can_select = false) then
              process_rage_second_selections o { g with phase := "processing" }
            else g
          else g
        | none => g
    else normalSelect o pid rn g

/-- The select_power message handler (lines 2099-2133): killers only, during
killer_power_selection, the power must be among the dealt options; a power
that needs no follow-up action completes the selection and runs the
completeness check. -/
def handle_select_power (o : Oracle) (pid pw : String) (g : Game) : Game :=
  match lookupA pid g.players with
  | none => g
  | some player =>
    if player.role ≠ "killer" ∨ g.phase ≠ "killer_power_selection" then g
    else
      match lookupA pid g.pending_power_selections with
      | none => g
      | some sel =>
        if ¬ pw ∈ sel.options then g
        else
          let g := updSel pid (fun s => { s with selected_power := some pw }) g
          if powerRequiresAction pw then
            updSel pid (fun s => { s with action_complete := false }) g
          else
            check_power_selection_complete o
              (updSel pid (fun s => { s with action_complete := true }) g)

/-- The power_action message handler (lines 2135-2158): killers only, during
killer_power_selection, with a selected power; the payload itself is stored
without validation and the selection is marked complete. -/
def handle_power_action (o : Oracle) (pid : String) (ad : ActionData) (g : Game) : Game :=
  match lookupA pid g.players with
  | none => g
  | some player =>
    if player.role ≠ "killer" ∨ g.phase ≠ "killer_power_selection" then g
    else
      match lookupA pid g.pending_power_selections with
      | none => g
      | some sel =>
        if sel.selected_power.isNone then g
        else
          check_power_selection_complete o
            (updSel pid (fun s => { s with action_data := some ad, action_complete := true }) g)

/-- The use_medikit message handler (lines 2160-2193): a survivor carrying
the medikit revives a co-located eliminated player, resetting their poison
countdown, and the medikit respawns elsewhere.  The room-list removal is
guarded on membership; an eliminated player always occupies a room (a None
room would fault in the source at line 2181, after the player updates). -/
def handle_use_medikit (o : Oracle) (pid tid : String) (g : Game) : Game :=
  match lookupA pid g.players with
  | none => g
  | some player =>
    if player.role ≠ "survivor" then g
    else if player.has_medikit = false then g
    else
      match lookupA tid g.players with
      | none => g
      | some target =>
        if target.eliminated = false then g
        else if target.current_room ≠ player.current_room then g
        else
          let g := updPlayer tid (fun q =>
            { q with eliminated := false, poisoned_countdown := 0 }) g
          let g := updPlayer pid (fun q => { q with has_medikit := false }) g
          let g :=
            match target.current_room with
            | some tr => updRoom tr (fun r =>
                { r with eliminated_players := r.eliminated_players.erase tid }) g
            | none => g
          let g := { g with events := g.events ++ ["revival"] }
          let pr := respawn_medikit o g
          match pr.1 with
          | some _ => { pr.2 with events := pr.2.events ++ ["medikit_respawn"] }
          | none => pr.2

/-- The inbound websocket message kinds handled by the game loop
(lines 1724, 2099, 2135, 2160). -/
inductive ClientAction where
  | select_room (room : String)
  | select_power (power : String)
  | power_action (data : ActionData)
  | use_medikit (target : String)
deriving DecidableEq

/-- Dispatch one inbound message (the receive loop, lines 1719-2199). -/
def handle (o : Oracle) (pid : String) (a : ClientAction) (g : Game) : Game :=
  match a with
  | .select_room rn => handle_select_room o pid rn g
  | .select_power pw => handle_select_power o pid pw g
  | .power_action ad => handle_power_action o pid ad g
  | .use_medikit tid => handle_use_medikit o pid tid g

/-- A concrete oracle for witnesses: random.choice resolves to the head of
the candidate list, Vision highlights nothing, every killer is dealt the
three no-follow-up powers, and the gold draw is 20. -/
def headOracle : Oracle where
  pick := fun l => l.headD ""
  pick_mem := by
    intro l h
    cases l with
    | nil => exact absurd rfl h
    | cons a t => simp [List.headD]
  highlightPick := fun _ => []
  drawPowers := fun _ => ["vision", "secousse", "rage"]
  gold := 20

/-- A room with every flag clear (matching the initialization of
lines 103-116). -/
def baseRoom : Room where
  floor := "ground_floor"
  has_key := false
  has_medikit := false
  locked := false
  eliminated_players := []
  trapped := false
  highlighted := false
  has_quest := false
  quest_class := none
  poisoned_turns_remaining := 0
  has_mimic := false
  has_crystal := false
  trap_triggered := false

/-- A freshly joined player (lines 125-138). -/
def basePlayer : Player where
  id := "p"
  name := "p"
  avatar := ""
  character_class := none
  is_host := false
  eliminated := false
  current_room := none
  has_medikit := false
  role := "survivor"
  immobilized_next_turn := false
  poisoned_countdown := 0
  gold := 0

/-- An in-progress session shell used to build concrete test states. -/
def baseGame : Game where
  session_id := "S"
  host_id := "s1"
  players := []
  rooms := []
  keys_collected := 0
  keys_needed := 1
  game_started := true
  turn := 1
  phase := "survivor_selection"
  events := []
  pending_actions := []
  should_place_next_key := false
  conspiracy_mode := false
  active_powers := emptyActivePowers
  pending_power_selections := []
  rooms_searched_this_key := []
  quests := []
  active_quest := none
  completed_quests := []
  rage_second_chances := []
  crystal_spawned := false
  crystal_destroyed := false
  winner := none

/-! ### Association-list lemmas -/

theorem lookupA_map_of_keyPreserving {α β : Type} (k : String)
    (h : String × α → String × β) (hk : ∀ p, (h p).1 = p.1) (l : List (String × α)) :
    lookupA k (l.map h) = (lookupA k l).map (fun v => (h (k, v)).2) := by
  induction l with
  | nil => rfl
  | cons p t ih =>
    simp only [List.map_cons, lookupA, hk p]
    by_cases hp : p.1 = k
    · subst hp
      simp [Prod.mk.eta]
    · simp [hp, ih]

theorem lookupA_mapVal {α β : Type} (k : String) (f : α → β) (l : List (String × α)) :
    lookupA k (l.map (fun p => (p.1, f p.2))) = (lookupA k l).map f :=
  lookupA_map_of_keyPreserving k (fun p => (p.1, f p.2)) (fun _ => rfl) l

theorem lookupA_updA {α : Type} (k k2 : String) (f : α → α) (l : List (String × α)) :
    lookupA k2 (updA k f l) = if k2 = k then (lookupA k2 l).map f else lookupA k2 l := by
  unfold updA
  rw [lookupA_map_of_keyPreserving k2 _ (fun p => by by_cases hp : p.1 = k <;> simp [hp])]
  by_cases h : k2 = k
  · simp [h]
  · simp only [if_neg h]
    cases lookupA k2 l <;> simp [Ne.symm h]

theorem lookupA_append {α : Type} (k : String) (l1 l2 : List (String × α)) :
    lookupA k (l1 ++ l2) = ((lookupA k l1).rec (lookupA k l2) fun v => some v : Option α) := by
  induction l1 with
  | nil => rfl
  | cons p t ih =>
    simp only [List.cons_append, lookupA]
    by_cases hp : p.1 = k <;> simp [hp, ih]

theorem lookupA_setA_self {α : Type} (k : String) (v : α) (l : List (String × α)) :
    lookupA k (setA k v l) = some v := by
  unfold setA
  split
  · next h =>
    rw [lookupA_updA]
    obtain ⟨w, hw⟩ := Option.isSome_iff_exists.mp h
    simp [hw]
  · next h =>
    rw [lookupA_append]
    rw [Option.not_isSome_iff_eq_none.mp h]
    simp [lookupA]

theorem lookupA_setA_ne {α : Type} (k k2 : String) (v : α) (l : List (String × α))
    (h : k2 ≠ k) : lookupA k2 (setA k v l) = lookupA k2 l := by
  unfold setA
  split
  · rw [lookupA_updA, if_neg h]
  · rw [lookupA_append]
    cases hc : lookupA k2 l <;> simp [hc, lookupA, h, Ne.symm h]

theorem updA_of_notMem {α : Type} (k : String) (f : α → α) (l : List (String × α))
    (h : ¬ k ∈ l.map Prod.fst) : updA k f l = l := by
  induction l with
  | nil => rfl
  | cons p t ih =>
    simp only [List.map_cons, List.mem_cons] at h
    push_neg at h
    simp only [updA, List.map_cons]
    rw [if_neg (by simpa using (Ne.symm h.1))]
    have := ih h.2
    simp only [updA] at this
    rw [this]

theorem lookupA_mem_keys {α : Type} (k : String) (l : List (String × α)) (v : α)
    (h : lookupA k l = some v) : k ∈ l.map Prod.fst := by
  induction l with
  | nil => simp [lookupA] at h
  | cons p t ih =>
    simp only [lookupA] at h
    by_cases hp : p.1 = k
    · simp [hp]
    · rw [if_neg hp] at h
      simp [ih h]

theorem lookupA_of_mem_nodup {α : Type} (k : String) (v : α) (l : List (String × α))
    (hm : (k, v) ∈ l) (hn : (l.map Prod.fst).Nodup) : lookupA k l = some v := by
  induction l with
  | nil => simp at hm
  | cons p t ih =>
    simp only [List.map_cons, List.nodup_cons] at hn
    rcases List.mem_cons.mp hm with h | h
    · subst h; simp [lookupA]
    · have hk : p.1 ≠ k := by
        intro he
        exact hn.1 (he ▸ (List.mem_map.mpr ⟨(k, v), h, rfl⟩))
      simp only [lookupA, if_neg hk]
      exact ih h hn.2

theorem mem_dedupFirst_aux (l acc : List String) (x : String) :
    x ∈ l.foldl (fun acc y => if acc.contains y then acc else acc ++ [y]) acc ↔
      x ∈ acc ∨ x ∈ l := by
  induction l generalizing acc with
  | nil => simp
  | cons a t ih =>
    simp only [List.foldl_cons]
    by_cases h : acc.contains a
    · rw [if_pos h, ih]
      constructor
      · rintro (hx | hx)
        · exact Or.inl hx
        · exact Or.inr (List.mem_cons_of_mem a hx)
      · rintro (hx | hx)
        · exact Or.inl hx
        · rcases List.mem_cons.mp hx with rfl | hx
          · exact Or.inl (by simpa using h)
          · exact Or.inr hx
    · rw [if_neg h, ih]
      simp only [List.mem_append, List.mem_singleton, List.mem_cons]
      tauto

theorem mem_dedupFirst (l : List String) (x : String) : x ∈ dedupFirst l ↔ x ∈ l := by
  unfold dedupFirst
  rw [mem_dedupFirst_aux]
  simp

/-! ### Availability characterizations -/

theorem mem_availForQuest (g : Game) (rn : String) :
    rn ∈ availForQuest g ↔ ∃ r : Room, (rn, r) ∈ g.rooms ∧ r.locked = false ∧
      r.has_quest = false ∧ ¬ rn ∈ killerPositions g := by
  unfold availForQuest
  simp only [List.mem_map, List.mem_filter, decide_eq_true_eq]
  constructor
  · rintro ⟨⟨n, r⟩, ⟨hm, h1, h2, h3⟩, rfl⟩
    exact ⟨r, hm, h1, h2, h3⟩
  · rintro ⟨r, hm, h1, h2, h3⟩
    exact ⟨(rn, r), ⟨hm, h1, h2, h3⟩, rfl⟩

theorem mem_availForCrystal (g : Game) (rn : String) :
    rn ∈ availForCrystal g ↔ ∃ r : Room, (rn, r) ∈ g.rooms ∧ r.locked = false ∧
      r.has_crystal = false ∧ ¬ rn ∈ killerPositions g := by
  unfold availForCrystal
  simp only [List.mem_map, List.mem_filter, decide_eq_true_eq]
  constructor
  · rintro ⟨⟨n, r⟩, ⟨hm, h1, h2, h3⟩, rfl⟩
    exact ⟨r, hm, h1, h2, h3⟩
  · rintro ⟨r, hm, h1, h2, h3⟩
    exact ⟨(rn, r), ⟨hm, h1, h2, h3⟩, rfl⟩

theorem mem_availForKey (g : Game) (rn : String) :
    rn ∈ availForKey g ↔ ∃ r : Room, (rn, r) ∈ g.rooms ∧ r.locked = false ∧
      r.has_key = false ∧ ¬ rn ∈ killerPositions g := by
  unfold availForKey
  simp only [List.mem_map, List.mem_filter, decide_eq_true_eq]
  constructor
  · rintro ⟨⟨n, r⟩, ⟨hm, h1, h2, h3⟩, rfl⟩
    exact ⟨r, hm, h1, h2, h3⟩
  · rintro ⟨r, hm, h1, h2, h3⟩
    exact ⟨(rn, r), ⟨hm, h1, h2, h3⟩, rfl⟩

theorem mem_availForMedikit (g : Game) (rn : String) :
    rn ∈ availForMedikit g ↔ ∃ r : Room, (rn, r) ∈ g.rooms ∧ r.locked = false ∧
      r.has_medikit = false ∧ r.has_key = false ∧ ¬ rn ∈ killerPositions g := by
  unfold availForMedikit
  simp only [List.mem_map, List.mem_filter, decide_eq_true_eq]
  constructor
  · rintro ⟨⟨n, r⟩, ⟨hm, h1, h2, h3, h4⟩, rfl⟩
    exact ⟨r, hm, h1, h2, h3, h4⟩
  · rintro ⟨r, hm, h1, h2, h3, h4⟩
    exact ⟨(rn, r), ⟨hm, h1, h2, h3, h4⟩, rfl⟩

/-! ### Claim C5 -/

/-- The availability condition C5 states for the medikit, following the
spec's words only: not locked, not already holding that pickup type, not a
killer's current position.  (Comparison definition for the refutation; the
source's respawn_medikit additionally excludes rooms holding the key.) -/
def claimAvailMedikit (g : Game) : List String :=
  (g.rooms.filter (fun nr =>
    nr.2.locked = false ∧ nr.2.has_medikit = false ∧ ¬ nr.1 ∈ killerPositions g)).map Prod.fst

/-- A state whose only room is unlocked, medikit-free and killer-free (so it
qualifies under the claim's three conditions) but holds the key. -/
def gC5 : Game :=
  { baseGame with rooms := [("A", { baseRoom with has_key := true })] }

/-- C5, counterexample: in gC5 the room A satisfies all three availability
conditions stated by the claim, yet respawn_medikit places nothing (and
leaves the state unchanged), because the source additionally excludes rooms
holding the key — refuting the claimed dichotomy at this input. -/
theorem C5_counterexample :
    claimAvailMedikit gC5 = ["A"] ∧ (respawn_medikit headOracle gC5).1 = none ∧
      (respawn_medikit headOracle gC5).2 = gC5 := by decide

/-- C5, amended: each single-instance pickup placement either picks a room
from its availability list — exactly the unlocked rooms not already holding
that pickup type and not a killer's current position, except that the
medikit placement additionally excludes rooms holding the key — or, when
that list is empty, returns None and leaves the state completely unchanged. -/
theorem C5_amended (o : Oracle) (qc : String) (g : Game) :
    (availForQuest g = [] → place_quest o qc g = (none, g)) ∧
    (availForQuest g ≠ [] → (place_quest o qc g).1 = some (o.pick (availForQuest g)) ∧
      o.pick (availForQuest g) ∈ availForQuest g) ∧
    (∀ rn, rn ∈ availForQuest g ↔ ∃ r : Room, (rn, r) ∈ g.rooms ∧ r.locked = false ∧
      r.has_quest = false ∧ ¬ rn ∈ killerPositions g) ∧
    (availForCrystal g = [] → place_crystal o g = (none, g)) ∧
    (availForCrystal g ≠ [] → (place_crystal o g).1 = some (o.pick (availForCrystal g)) ∧
      o.pick (availForCrystal g) ∈ availForCrystal g) ∧
    (∀ rn, rn ∈ availForCrystal g ↔ ∃ r : Room, (rn, r) ∈ g.rooms ∧ r.locked = false ∧
      r.has_crystal = false ∧ ¬ rn ∈ killerPositions g) ∧
    (availForKey g = [] → place_next_key o g = (none, g)) ∧
    (availForKey g ≠ [] → (place_next_key o g).1 = some (o.pick (availForKey g)) ∧
      o.pick (availForKey g) ∈ availForKey g) ∧
    (∀ rn, rn ∈ availForKey g ↔ ∃ r : Room, (rn, r) ∈ g.rooms ∧ r.locked = false ∧
      r.has_key = false ∧ ¬ rn ∈ killerPositions g) ∧
    (availForMedikit g = [] → respawn_medikit o g = (none, g)) ∧
    (availForMedikit g ≠ [] → (respawn_medikit o g).1 = some (o.pick (availForMedikit g)) ∧
      o.pick (availForMedikit g) ∈ availForMedikit g) ∧
    (∀ rn, rn ∈ availForMedikit g ↔ ∃ r : Room, (rn, r) ∈ g.rooms ∧ r.locked = false ∧
      r.has_medikit = false ∧ r.has_key = false ∧ ¬ rn ∈ killerPositions g) := by
  refine ⟨?_, ?_, mem_availForQuest g, ?_, ?_, mem_availForCrystal g,
    ?_, ?_, mem_availForKey g, ?_, ?_, mem_availForMedikit g⟩
  · intro h; simp [place_quest, h]
  · intro h; exact ⟨by simp [place_quest, h], o.pick_mem _ h⟩
  · intro h; simp [place_crystal, h]
  · intro h; exact ⟨by simp [place_crystal, h], o.pick_mem _ h⟩
  · intro h; simp [place_next_key, h]
  · intro h; exact ⟨by simp [place_next_key, h], o.pick_mem _ h⟩
  · intro h; simp [respawn_medikit, h]
  · intro h; exact ⟨by simp [respawn_medikit, h], o.pick_mem _ h⟩

/-- A state with one available room and one locked room. -/
def gW5 : Game :=
  { baseGame with rooms := [("A", baseRoom), ("B", { baseRoom with locked := true })] }

/-- Witness for C5_amended at the concrete state gW5. -/
theorem C5_amended_witness :
    (place_quest headOracle ("Mage") gW5).1 = some (headOracle.pick (availForQuest gW5)) ∧
      headOracle.pick (availForQuest gW5) ∈ availForQuest gW5 :=
  (C5_amended headOracle ("Mage") gW5).2.1 (by decide)

/-! ### Claim C9 -/

theorem mapVal_updA {α β : Type} (k : String) (f : α → α) (h : α → β)
    (l : List (String × α)) (hn : (l.map Prod.fst).Nodup)
    (hc : ∀ v, lookupA k l = some v → h (f v) = h v) :
    (updA k f l).map (fun p => (p.1, h p.2)) = l.map (fun p => (p.1, h p.2)) := by
  induction l with
  | nil => rfl
  | cons p t ih =>
    simp only [List.map_cons, List.nodup_cons] at hn
    rw [show updA k f (p :: t) = (if p.1 = k then (p.1, f p.2) else p) :: updA k f t from rfl]
    by_cases hp : p.1 = k
    · rw [if_pos hp, List.map_cons, List.map_cons]
      have hkt : ¬ k ∈ t.map Prod.fst := hp ▸ hn.1
      rw [updA_of_notMem k f t hkt]
      have hv : lookupA k (p :: t) = some p.2 := by simp [lookupA, hp]
      rw [hc p.2 hv]
    · rw [if_neg hp, List.map_cons, List.map_cons,
        ih hn.2 (fun v hv => hc v (by simp [lookupA, hp, hv]))]

/-- C9: the visibility filter is a pure function (applying it twice to the
same state and role yields identical views), the survivor view withholds the
current_room of every non-eliminated killer, and two states differing only in
a non-eliminated killer's current_room produce identical survivor views. -/
theorem C9_filter_hiding (g : Game) (role : String) (kid : String) (p : Player)
    (v : Option String)
    (hn : (g.players.map Prod.fst).Nodup)
    (hk : lookupA kid g.players = some p)
    (hr : p.role = "killer") (he : p.eliminated = false) :
    filter_game_state g role = filter_game_state g role ∧
    (∃ q, lookupA kid (filter_game_state g ("survivor")).players = some q ∧
      q.current_room = none) ∧
    filter_game_state (updPlayer kid (fun q => { q with current_room := v }) g) ("survivor") =
      filter_game_state g ("survivor") := by
  refine ⟨rfl, ?_, ?_⟩
  · have hplayers : (filter_game_state g ("survivor")).players =
        g.players.map (fun pp => (pp.1, filterPlayer ("survivor") pp.2)) := by
      simp [filter_game_state]
    rw [hplayers, lookupA_mapVal, hk]
    refine ⟨filterPlayer ("survivor") p, rfl, ?_⟩
    simp [filterPlayer, hr, he]
  · have hpl : (updA kid (fun q => { q with current_room := v }) g.players).map
        (fun pp => (pp.1, filterPlayer ("survivor") pp.2)) =
        g.players.map (fun pp => (pp.1, filterPlayer ("survivor") pp.2)) := by
      refine mapVal_updA kid _ (filterPlayer ("survivor")) g.players hn ?_
      intro w hw
      rw [hk] at hw
      cases hw
      cases p
      simp only [filterPlayer] at *
      simp_all
    have hpe : (List.filter (fun pa =>
        match lookupA pa.1 (updA kid (fun q => { q with current_room := v }) g.players) with
        | some p => decide (p.role = "survivor")
        | none => decide False) g.pending_actions) = List.filter (fun pa =>
        match lookupA pa.1 g.players with
        | some p => decide (p.role = "survivor")
        | none => decide False) g.pending_actions := by
      refine List.filter_congr ?_
      intro pa _
      rw [lookupA_updA]
      by_cases hpa : pa.1 = kid
      · rw [if_pos hpa, hpa, hk]
        simp
      · rw [if_neg hpa]
    unfold filter_game_state updPlayer
    dsimp only
    rw [hpl, hpe]

/-- A state with a survivor and a non-eliminated killer standing in room B. -/
def gW9 : Game :=
  { baseGame with players :=
      [("s1", { basePlayer with id := "s1", character_class := some ("Mage") }),
       ("k1", { basePlayer with id := "k1", role := "killer", current_room := some ("B") })] }

/-- Witness for C9_filter_hiding at the concrete state gW9: the survivor view
of gW9 withholds the killer position, and moving the killer to room A does not
change the survivor view. -/
theorem C9_witness :
    (∃ q, lookupA ("k1") (filter_game_state gW9 ("survivor")).players = some q ∧
      q.current_room = none) ∧
    filter_game_state
        (updPlayer ("k1") (fun q => { q with current_room := some ("A") }) gW9) ("survivor") =
      filter_game_state gW9 ("survivor") := by
  have h := C9_filter_hiding gW9 ("survivor") ("k1")
    { basePlayer with id := "k1", role := "killer", current_room := some ("B") }
    (some ("A")) (by decide) (by decide) (by decide) (by decide)
  exact ⟨h.2.1, h.2.2⟩

/-! ### Effect-shape lemmas for the room-selection pipeline -/

theorem mapProj_updA {α β : Type} (k : String) (f : α → α) (proj : α → β)
    (l : List (String × α)) (hf : ∀ v, proj (f v) = proj v) :
    (updA k f l).map (fun p => (p.1, proj p.2)) = l.map (fun p => (p.1, proj p.2)) := by
  induction l with
  | nil => rfl
  | cons p t ih =>
    rw [show updA k f (p :: t) = (if p.1 = k then (p.1, f p.2) else p) :: updA k f t from rfl]
    rw [List.map_cons, List.map_cons, ih]
    by_cases hp : p.1 = k
    · rw [if_pos hp]
      simp [hf]
    · rw [if_neg hp]

theorem lookupA_updRoom_proj {β : Type} (proj : Room → β) (x rn : String) (f : Room → Room)
    (hf : ∀ r, proj (f r) = proj r) (g : Game) :
    (lookupA x (updRoom rn f g).rooms).map proj = (lookupA x g.rooms).map proj := by
  show (lookupA x (updA rn f g.rooms)).map proj = _
  rw [lookupA_updA]
  split
  · cases lookupA x g.rooms <;> simp [hf]
  · rfl

theorem lookupA_updPlayer_proj {β : Type} (proj : Player → β) (x pid : String)
    (f : Player → Player) (hf : ∀ p, proj (f p) = proj p) (g : Game) :
    (lookupA x (updPlayer pid f g).players).map proj = (lookupA x g.players).map proj := by
  show (lookupA x (updA pid f g.players)).map proj = _
  rw [lookupA_updA]
  split
  · cases lookupA x g.players <;> simp [hf]
  · rfl

theorem trackSearched_shape (pid rn : String) (g : Game) :
    ∃ y, trackSearched pid rn g = { g with rooms_searched_this_key := y } := by
  unfold trackSearched
  split
  · exact ⟨g.rooms_searched_this_key ++ [rn], rfl⟩
  · exact ⟨g.rooms_searched_this_key, rfl⟩

theorem trapStep_shape (pid rn : String) (g : Game) :
    trapStep pid rn g = updRoom rn (fun q => { q with trap_triggered := true })
      (updPlayer pid (fun q => { q with immobilized_next_turn := true }) g) ∨
    trapStep pid rn g = g := by
  unfold trapStep
  split
  · split
    · exact Or.inl rfl
    · exact Or.inr rfl
  · exact Or.inr rfl

theorem poisonStep_shape (pid rn : String) (g : Game) :
    poisonStep pid rn g = updPlayer pid (fun q => { q with poisoned_countdown := 10 }) g ∨
    poisonStep pid rn g = g := by
  unfold poisonStep
  split
  · split
    · exact Or.inl rfl
    · exact Or.inr rfl
  · exact Or.inr rfl

theorem goldStep_shape (o : Oracle) (pid rn : String) (g : Game) :
    goldStep o pid rn g = updPlayer pid (fun q => { q with gold := q.gold + o.gold }) g ∨
    goldStep o pid rn g = g := by
  unfold goldStep
  split
  · split
    · exact Or.inl rfl
    · exact Or.inr rfl
  · exact Or.inr rfl

theorem mimicStep_shape (pid rn : String) (g : Game) :
    mimicStep pid rn g = updRoom rn (fun q => { q with has_mimic := false })
      (updPlayer pid (fun q => { q with gold := 0 }) g) ∨
    mimicStep pid rn g = g := by
  unfold mimicStep
  split
  · split
    · exact Or.inl rfl
    · exact Or.inr rfl
  · exact Or.inr rfl

theorem crystalStep_shape (rn : String) (g : Game) :
    crystalStep rn g = { updRoom rn (fun r => { r with has_crystal := false }) g with
      crystal_destroyed := true, phase := "game_over", winner := some ("survivors"),
      events := g.events ++ ["game_over", "game_over"] } ∨
    crystalStep rn g = g := by
  unfold crystalStep
  split
  · split
    · exact Or.inl rfl
    · exact Or.inr rfl
  · exact Or.inr rfl

theorem questStep_shape (o : Oracle) (pid rn : String) (g : Game) :
    questStep o pid rn g = g ∨
    (∃ e, questStep o pid rn g = { g with events := g.events ++ [e] }) ∨
    (∃ qc, questStep o pid rn g = questCompleteCore o rn qc g) := by
  unfold questStep
  split
  · split
    · split
      · exact Or.inl rfl
      · split
        · exact Or.inr (Or.inr ⟨_, rfl⟩)
        · exact Or.inr (Or.inl ⟨_, rfl⟩)
    · exact Or.inr (Or.inl ⟨_, rfl⟩)
  · exact Or.inl rfl

theorem place_quest_shape (o : Oracle) (qc : String) (g : Game) :
    (∃ rn2, place_quest o qc g = (some rn2,
      updRoom rn2 (fun r => { r with has_quest := true, quest_class := some qc }) g)) ∨
    place_quest o qc g = (none, g) := by
  unfold place_quest
  dsimp only
  split
  · exact Or.inr rfl
  · exact Or.inl ⟨_, rfl⟩

theorem questClearState_view (rn qc x : String) (g : Game) :
    (lookupA x (questClearState rn qc g).rooms).map
        (fun r => (r.trapped, r.trap_triggered, r.has_crystal)) =
      (lookupA x g.rooms).map (fun r => (r.trapped, r.trap_triggered, r.has_crystal)) ∧
    (questClearState rn qc g).players = g.players ∧
    (questClearState rn qc g).pending_actions = g.pending_actions ∧
    (questClearState rn qc g).phase = g.phase ∧
    (questClearState rn qc g).crystal_spawned = g.crystal_spawned ∧
    (questClearState rn qc g).crystal_destroyed = g.crystal_destroyed ∧
    (questClearState rn qc g).winner = g.winner := by
  refine ⟨?_, rfl, rfl, rfl, rfl, rfl, rfl⟩
  show (lookupA x (updA rn (fun r =>
      { r with has_quest := false, quest_class := none }) g.rooms)).map
      (fun r => (r.trapped, r.trap_triggered, r.has_crystal)) =
    (lookupA x g.rooms).map (fun r => (r.trapped, r.trap_triggered, r.has_crystal))
  rw [lookupA_updA]
  split
  · cases lookupA x g.rooms <;> simp
  · rfl

theorem questCompleteCore_view (o : Oracle) (rn qc x : String) (g : Game) :
    (lookupA x (questCompleteCore o rn qc g).rooms).map
        (fun r => (r.trapped, r.trap_triggered, r.has_crystal)) =
      (lookupA x g.rooms).map (fun r => (r.trapped, r.trap_triggered, r.has_crystal)) ∧
    (questCompleteCore o rn qc g).players = g.players ∧
    (questCompleteCore o rn qc g).pending_actions = g.pending_actions ∧
    (questCompleteCore o rn qc g).phase = g.phase ∧
    (questCompleteCore o rn qc g).crystal_spawned = g.crystal_spawned ∧
    (questCompleteCore o rn qc g).crystal_destroyed = g.crystal_destroyed ∧
    (questCompleteCore o rn qc g).winner = g.winner := by
  obtain ⟨h1, h2, h3, h4, h5, h6, h7⟩ := questClearState_view rn qc x g
  unfold questCompleteCore
  dsimp only
  split
  · split
    · next nq _ =>
      rcases place_quest_shape o nq.qclass (questClearState rn qc g) with ⟨rn2, hpq⟩ | hpq <;>
        rw [hpq] <;> dsimp only
      · refine ⟨?_, h2, h3, h4, h5, h6, h7⟩
        show (lookupA x (updA rn2 (fun r =>
            { r with has_quest := true, quest_class := some nq.qclass })
            (questClearState rn qc g).rooms)).map
            (fun r => (r.trapped, r.trap_triggered, r.has_crystal)) =
          (lookupA x g.rooms).map (fun r => (r.trapped, r.trap_triggered, r.has_crystal))
        rw [lookupA_updA]
        split
        · rw [← h1]
          cases lookupA x (questClearState rn qc g).rooms <;> simp
        · exact h1
      · exact ⟨h1, h2, h3, h4, h5, h6, h7⟩
    · exact ⟨h1, h2, h3, h4, h5, h6, h7⟩
  · exact ⟨h1, h2, h3, h4, h5, h6, h7⟩

/-! ### Frame lemmas for the selection pipeline -/

/-- Key, role and eliminated flag of every player, in order; the projection
consumed by the phase-gate counts. -/
def rolesView (g : Game) : List (String × String × Bool) :=
  g.players.map (fun pp => (pp.1, pp.2.role, pp.2.eliminated))

theorem rolesView_updPlayer (pid : String) (f : Player → Player) (g : Game)
    (h1 : ∀ p, (f p).role = p.role) (h2 : ∀ p, (f p).eliminated = p.eliminated) :
    rolesView (updPlayer pid f g) = rolesView g :=
  mapProj_updA pid f (fun p => (p.role, p.eliminated)) g.players (fun v => by simp [h1, h2])

theorem questCrystalStep_shape (o : Oracle) (pid rn : String) (g : Game) :
    questCrystalStep o pid rn g = crystalStep rn (questStep o pid rn g) ∨
    questCrystalStep o pid rn g = g := by
  unfold questCrystalStep
  split
  · exact Or.inl rfl
  · exact Or.inr rfl

/-- Frame relation between two states along the selection pipeline: pending
actions, roles and eliminated flags are unchanged, and the phase either
stays or has moved to game_over (crystal destruction). -/
def FrameOK (g0 gx : Game) : Prop :=
  gx.pending_actions = g0.pending_actions ∧ rolesView gx = rolesView g0 ∧
    (gx.phase = g0.phase ∨ gx.phase = "game_over")

theorem FrameOK_refl (g : Game) : FrameOK g g := ⟨rfl, rfl, Or.inl rfl⟩

theorem FrameOK_trans {g0 g1 g2 : Game} (h1 : FrameOK g0 g1) (h2 : FrameOK g1 g2) :
    FrameOK g0 g2 := by
  obtain ⟨p1, r1, f1⟩ := h1
  obtain ⟨p2, r2, f2⟩ := h2
  refine ⟨p2.trans p1, r2.trans r1, ?_⟩
  rcases f1 with f1 | f1 <;> rcases f2 with f2 | f2 <;> simp [f1, f2]

theorem FrameOK_trackSearched (pid rn : String) (g : Game) :
    FrameOK g (trackSearched pid rn g) := by
  obtain ⟨y, h⟩ := trackSearched_shape pid rn g
  rw [h]
  exact ⟨rfl, rfl, Or.inl rfl⟩

theorem rolesView_updRoom (rn : String) (f : Room → Room) (g : Game) :
    rolesView (updRoom rn f g) = rolesView g := rfl

theorem FrameOK_trapStep (pid rn : String) (g : Game) :
    FrameOK g (trapStep pid rn g) := by
  rcases trapStep_shape pid rn g with h | h <;> rw [h]
  · refine ⟨rfl, ?_, Or.inl rfl⟩
    rw [rolesView_updRoom]
    exact rolesView_updPlayer pid _ g (fun p => rfl) (fun p => rfl)
  · exact FrameOK_refl g

theorem FrameOK_poisonStep (pid rn : String) (g : Game) :
    FrameOK g (poisonStep pid rn g) := by
  rcases poisonStep_shape pid rn g with h | h <;> rw [h]
  · exact ⟨rfl, rolesView_updPlayer pid _ g (fun p => rfl) (fun p => rfl), Or.inl rfl⟩
  · exact FrameOK_refl g

theorem FrameOK_goldStep (o : Oracle) (pid rn : String) (g : Game) :
    FrameOK g (goldStep o pid rn g) := by
  rcases goldStep_shape o pid rn g with h | h <;> rw [h]
  · exact ⟨rfl, rolesView_updPlayer pid _ g (fun p => rfl) (fun p => rfl), Or.inl rfl⟩
  · exact FrameOK_refl g

theorem FrameOK_mimicStep (pid rn : String) (g : Game) :
    FrameOK g (mimicStep pid rn g) := by
  rcases mimicStep_shape pid rn g with h | h <;> rw [h]
  · refine ⟨rfl, ?_, Or.inl rfl⟩
    rw [rolesView_updRoom]
    exact rolesView_updPlayer pid _ g (fun p => rfl) (fun p => rfl)
  · exact FrameOK_refl g

theorem FrameOK_questStep (o : Oracle) (pid rn : String) (g : Game) :
    FrameOK g (questStep o pid rn g) := by
  rcases questStep_shape o pid rn g with h | ⟨e, h⟩ | ⟨qc, h⟩ <;> rw [h]
  · exact FrameOK_refl g
  · exact ⟨rfl, rfl, Or.inl rfl⟩
  · obtain ⟨hr, hp, hpe, hph, h5, h6, h7⟩ := questCompleteCore_view o rn qc rn g
    refine ⟨hpe, ?_, Or.inl hph⟩
    unfold rolesView
    rw [hp]

theorem FrameOK_crystalStep (rn : String) (g : Game) :
    FrameOK g (crystalStep rn g) := by
  rcases crystalStep_shape rn g with h | h <;> rw [h]
  · exact ⟨rfl, rfl, Or.inr rfl⟩
  · exact FrameOK_refl g

theorem FrameOK_questCrystalStep (o : Oracle) (pid rn : String) (g : Game) :
    FrameOK g (questCrystalStep o pid rn g) := by
  rcases questCrystalStep_shape o pid rn g with h | h <;> rw [h]
  · exact FrameOK_trans (FrameOK_questStep o pid rn g)
      (FrameOK_crystalStep rn (questStep o pid rn g))
  · exact FrameOK_refl g

/-- The whole selection pipeline is a frame extension of the recorded state. -/
theorem selPipeline_frame (o : Oracle) (pid rn : String) (g : Game) :
    FrameOK (recordPending pid rn g) (selPipeline o pid rn g) := by
  unfold selPipeline
  refine FrameOK_trans (FrameOK_trackSearched pid rn _) ?_
  refine FrameOK_trans (FrameOK_trapStep pid rn _) ?_
  refine FrameOK_trans (FrameOK_poisonStep pid rn _) ?_
  refine FrameOK_trans (FrameOK_questCrystalStep o pid rn _) ?_
  exact FrameOK_trans (FrameOK_goldStep o pid rn _) (FrameOK_mimicStep pid rn _)

theorem lookupA_rolesView (g : Game) (k : String) :
    lookupA k (rolesView g) = (lookupA k g.players).map (fun p => (p.role, p.eliminated)) := by
  unfold rolesView
  induction g.players with
  | nil => rfl
  | cons p t ih =>
    simp only [List.map_cons, lookupA]
    by_cases hp : p.1 = k <;> simp [hp, ih]

theorem filter_length_proj {α β : Type} (f : α → β) (p : β → Bool) (l1 l2 : List α)
    (h : l1.map f = l2.map f) :
    (l1.filter (fun a => p (f a))).length = (l2.filter (fun a => p (f a))).length := by
  induction l1 generalizing l2 with
  | nil => cases l2 <;> simp_all
  | cons a t ih =>
    cases l2 with
    | nil => simp at h
    | cons b t2 =>
      simp only [List.map_cons, List.cons.injEq] at h
      simp only [List.filter_cons, h.1]
      split <;> simp [ih t2 h.2]

theorem survivorsSelected_frame (g0 gx : Game)
    (hp : gx.pending_actions = g0.pending_actions) (hr : rolesView gx = rolesView g0) :
    survivorsSelected gx = survivorsSelected g0 := by
  have hrole : ∀ k, (lookupA k gx.players).map (fun p => (p.role, p.eliminated)) =
      (lookupA k g0.players).map (fun p => (p.role, p.eliminated)) := by
    intro k
    have := congrArg (lookupA k) hr
    rwa [lookupA_rolesView, lookupA_rolesView] at this
  unfold survivorsSelected
  rw [hp]
  refine congrArg _ (List.filter_congr ?_)
  intro pa _
  have hk := hrole pa.1
  cases h1 : lookupA pa.1 gx.players <;> cases h2 : lookupA pa.1 g0.players <;>
    rw [h1, h2] at hk <;> simp_all

theorem aliveSurvivors_length_frame (g0 gx : Game) (hr : rolesView gx = rolesView g0) :
    (aliveSurvivors gx).length = (aliveSurvivors g0).length :=
  filter_length_proj (fun pp : String × Player => (pp.1, pp.2.role, pp.2.eliminated))
    (fun t => decide (t.2.1 = "survivor" ∧ t.2.2 = false)) gx.players g0.players hr

theorem phaseAdvance_gameOver (o : Oracle) (g : Game) (h : g.phase = "game_over") :
    phaseAdvance o g = g := by
  unfold phaseAdvance
  rw [if_neg (by rw [h]; decide), if_neg (by rw [h]; decide)]

theorem phaseAdvance_noFire (o : Oracle) (g : Game) (hph : g.phase = "survivor_selection")
    (h : (survivorsSelected g).length ≠ (aliveSurvivors g).length) :
    phaseAdvance o g = g := by
  unfold phaseAdvance survAdvanceCore
  rw [if_pos hph, if_neg h]

/-! ### Gate-opening lemmas for the select_room handler -/

theorem recordPending_players (pid rn : String) (g : Game) :
    (recordPending pid rn g).players = g.players := rfl

theorem recordPending_rooms (pid rn : String) (g : Game) :
    (recordPending pid rn g).rooms = g.rooms := rfl

theorem trackSearched_players (pid rn : String) (g : Game) :
    (trackSearched pid rn g).players = g.players := by
  obtain ⟨y, h⟩ := trackSearched_shape pid rn g
  rw [h]

theorem trackSearched_rooms (pid rn : String) (g : Game) :
    (trackSearched pid rn g).rooms = g.rooms := by
  obtain ⟨y, h⟩ := trackSearched_shape pid rn g
  rw [h]

/-- A non-immobilized survivor selecting during survivor_selection reaches
the standard room guard. -/
theorem handle_select_room_normalSurvivor (o : Oracle) (pid rn : String) (g : Game)
    (p : Player) (hp : lookupA pid g.players = some p) (hrole : p.role = "survivor")
    (him : p.immobilized_next_turn = false) (hph : g.phase = "survivor_selection") :
    handle_select_room o pid rn g = normalSelect o pid rn g := by
  unfold handle_select_room
  simp only [hp]
  rw [if_neg (by simp [him]), if_neg (by simp [hph]), if_neg (by simp [hrole]),
    if_neg (by rw [hph]; decide)]

/-- An unlocked known room opens the selection pipeline. -/
theorem normalSelect_open (o : Oracle) (pid rn : String) (g : Game) (room : Room)
    (hr : lookupA rn g.rooms = some room) (hlock : room.locked = false) :
    normalSelect o pid rn g = phaseAdvance o (selPipeline o pid rn g) := by
  unfold normalSelect
  simp only [hr]
  rw [if_neg (by simp [hlock])]

theorem trapStep_fires (pid rn : String) (g : Game) (p : Player) (r : Room)
    (hp : lookupA pid g.players = some p) (hr : lookupA rn g.rooms = some r)
    (hrole : p.role = "survivor") (htrap : r.trapped = true) :
    trapStep pid rn g = updRoom rn (fun q => { q with trap_triggered := true })
      (updPlayer pid (fun q => { q with immobilized_next_turn := true }) g) := by
  unfold trapStep
  simp only [hp, hr]
  rw [if_pos ⟨hrole, htrap⟩]

/-- The observation of claim C6: armed and triggered flags of the selected
room together with the selector's immobilization flag. -/
def trapView (pid rn : String) (g : Game) : Option (Bool × Bool) × Option Bool :=
  ((lookupA rn g.rooms).map (fun r => (r.trapped, r.trap_triggered)),
   (lookupA pid g.players).map (fun p => p.immobilized_next_turn))

theorem map_pair_of_triple {l1 l2 : Option Room}
    (h : l1.map (fun r => (r.trapped, r.trap_triggered, r.has_crystal)) =
         l2.map (fun r => (r.trapped, r.trap_triggered, r.has_crystal))) :
    l1.map (fun r => (r.trapped, r.trap_triggered)) =
      l2.map (fun r => (r.trapped, r.trap_triggered)) := by
  cases l1 <;> cases l2 <;> simp_all

theorem trapView_poisonStep (pid rn pid2 rn2 : String) (g : Game) :
    trapView pid rn (poisonStep pid2 rn2 g) = trapView pid rn g := by
  rcases poisonStep_shape pid2 rn2 g with h | h <;> rw [h]
  unfold trapView
  simp only [Prod.mk.injEq]
  refine ⟨rfl, ?_⟩
  exact lookupA_updPlayer_proj (fun p => p.immobilized_next_turn) pid pid2
    (fun q => { q with poisoned_countdown := 10 }) (fun p => rfl) g

theorem trapView_goldStep (o : Oracle) (pid rn pid2 rn2 : String) (g : Game) :
    trapView pid rn (goldStep o pid2 rn2 g) = trapView pid rn g := by
  rcases goldStep_shape o pid2 rn2 g with h | h <;> rw [h]
  unfold trapView
  simp only [Prod.mk.injEq]
  refine ⟨rfl, ?_⟩
  exact lookupA_updPlayer_proj (fun p => p.immobilized_next_turn) pid pid2
    (fun q => { q with gold := q.gold + o.gold }) (fun p => rfl) g

theorem trapView_mimicStep (pid rn pid2 rn2 : String) (g : Game) :
    trapView pid rn (mimicStep pid2 rn2 g) = trapView pid rn g := by
  rcases mimicStep_shape pid2 rn2 g with h | h <;> rw [h]
  unfold trapView
  simp only [Prod.mk.injEq]
  refine ⟨?_, ?_⟩
  · show (lookupA rn (updA rn2 (fun q => { q with has_mimic := false }) g.rooms)).map
      (fun r => (r.trapped, r.trap_triggered)) =
      (lookupA rn g.rooms).map (fun r => (r.trapped, r.trap_triggered))
    rw [lookupA_updA]
    split <;> (cases lookupA rn g.rooms <;> simp)
  · exact lookupA_updPlayer_proj (fun p => p.immobilized_next_turn) pid pid2
      (fun q => { q with gold := 0 }) (fun p => rfl) g

theorem trapView_crystalStep (pid rn rn2 : String) (g : Game) :
    trapView pid rn (crystalStep rn2 g) = trapView pid rn g := by
  rcases crystalStep_shape rn2 g with h | h <;> rw [h]
  unfold trapView
  simp only [Prod.mk.injEq]
  refine ⟨?_, rfl⟩
  show (lookupA rn (updA rn2 (fun r => { r with has_crystal := false }) g.rooms)).map
      (fun r => (r.trapped, r.trap_triggered)) =
    (lookupA rn g.rooms).map (fun r => (r.trapped, r.trap_triggered))
  rw [lookupA_updA]
  split <;> (cases lookupA rn g.rooms <;> simp)

theorem trapView_questStep (o : Oracle) (pid rn pid2 rn2 : String) (g : Game) :
    trapView pid rn (questStep o pid2 rn2 g) = trapView pid rn g := by
  rcases questStep_shape o pid2 rn2 g with h | ⟨e, h⟩ | ⟨qc, h⟩ <;> rw [h]
  · rfl
  · obtain ⟨h1, h2, _, _, _, _, _⟩ := questCompleteCore_view o rn2 qc rn g
    unfold trapView
    simp only [Prod.mk.injEq]
    exact ⟨map_pair_of_triple h1, by rw [h2]⟩

theorem trapView_questCrystalStep (o : Oracle) (pid rn pid2 rn2 : String) (g : Game) :
    trapView pid rn (questCrystalStep o pid2 rn2 g) = trapView pid rn g := by
  rcases questCrystalStep_shape o pid2 rn2 g with h | h <;> rw [h]
  rw [trapView_crystalStep, trapView_questStep]

/-! ### Claim C6 -/

/-- Survivor s1 of the concrete test sessions, a Mage. -/
def pS1 : Player := { basePlayer with id := "s1", name := "s1", character_class := some ("Mage") }

/-- Survivor s2 of the concrete test sessions, an Elfe. -/
def pS2 : Player := { basePlayer with id := "s2", name := "s2", character_class := some ("Elfe") }

/-- Killer k1 of the concrete test sessions. -/
def pK1 : Player := { basePlayer with id := "k1", name := "k1", role := "killer" }

/-- An armed room. -/
def rTrap : Room := { baseRoom with trapped := true }

/-- A session with two survivors, a killer and an armed (trapped) room A. -/
def gC6 : Game :=
  { baseGame with
    players := [("s1", pS1), ("s2", pS2), ("k1", pK1)],
    rooms := [("A", rTrap), ("B", baseRoom)] }

/-- C6, counterexample: after survivor s1 selects the armed room A, the room
is simultaneously armed (trapped) and triggered (trap_triggered) in the
canonical state, and the survivor-role view still shows it as armed — the
source never clears the armed flag when the trap fires (line 1872), and the
survivor room filter keeps the armed flag whenever the room is triggered
(lines 645-647).  This refutes both the claimed state invariant and the
claimed mutual exclusivity of the views. -/
theorem C6_counterexample :
    ((lookupA ("A") (handle_select_room headOracle ("s1") ("A") gC6).rooms).map
      (fun r => (r.trapped, r.trap_triggered))) = some (true, true) ∧
    ((lookupA ("A") (filter_game_state (handle_select_room headOracle ("s1") ("A") gC6)
      ("survivor")).rooms).map (fun r => (r.trapped, r.trap_triggered))) = some (true, true) := by
  decide

/-- C6, amended: the killer-role view never shows a room as triggered, the
survivor-role view shows a room as armed only when it is also triggered (so
survivors never see an untriggered armed trap), and a non-immobilized
survivor selecting an unlocked armed room leaves the room both armed and
triggered and the survivor immobilized for the next turn — the room does not
flip from armed to triggered, it becomes both at once. -/
theorem C6_amended (o : Oracle) (g : Game) (pid rn : String) (p : Player) (room : Room)
    (hp : lookupA pid g.players = some p) (hrole : p.role = "survivor")
    (him : p.immobilized_next_turn = false) (hph : g.phase = "survivor_selection")
    (hr : lookupA rn g.rooms = some room) (hlock : room.locked = false)
    (htrap : room.trapped = true)
    (hlast : (survivorsSelected (recordPending pid rn g)).length ≠
      (aliveSurvivors g).length) :
    (∀ g2 rn2 r2, lookupA rn2 (filter_game_state g2 ("killer")).rooms = some r2 →
      r2.trap_triggered = false) ∧
    (∀ g2 rn2 r2, lookupA rn2 (filter_game_state g2 ("survivor")).rooms = some r2 →
      r2.trapped = true → r2.trap_triggered = true) ∧
    trapView pid rn (handle_select_room o pid rn g) = (some (true, true), some true) := by
  refine ⟨?_, ?_, ?_⟩
  · intro g2 rn2 r2 h
    have hm : lookupA rn2 (filter_game_state g2 ("killer")).rooms =
        (lookupA rn2 g2.rooms).map (filterRoom ("killer")) :=
      lookupA_mapVal rn2 (filterRoom ("killer")) g2.rooms
    rw [hm] at h
    obtain ⟨r0, hr0, hre⟩ := Option.map_eq_some'.mp h
    rw [← hre]
    unfold filterRoom
    rw [if_neg (by decide), if_pos rfl]
  · intro g2 rn2 r2 h htr
    have hm : lookupA rn2 (filter_game_state g2 ("survivor")).rooms =
        (lookupA rn2 g2.rooms).map (filterRoom ("survivor")) :=
      lookupA_mapVal rn2 (filterRoom ("survivor")) g2.rooms
    rw [hm] at h
    obtain ⟨r0, hr0, hre⟩ := Option.map_eq_some'.mp h
    by_cases hb : r0.trap_triggered = true
    · rw [← hre]
      unfold filterRoom
      rw [if_pos rfl]
      dsimp only
      rw [if_neg (by simp [hb])]
      simpa using hb
    · rw [← hre] at htr
      unfold filterRoom at htr
      rw [if_pos rfl] at htr
      dsimp only at htr
      rw [if_pos (by simpa using hb)] at htr
      simp at htr
  · rw [handle_select_room_normalSurvivor o pid rn g p hp hrole him hph,
      normalSelect_open o pid rn g room hr hlock]
    have hp1 : lookupA pid (trackSearched pid rn (recordPending pid rn g)).players = some p := by
      rw [trackSearched_players]
      exact hp
    have hr1 : lookupA rn (trackSearched pid rn (recordPending pid rn g)).rooms = some room := by
      rw [trackSearched_rooms]
      exact hr
    have htfire := trapStep_fires pid rn _ p room hp1 hr1 hrole htrap
    have hTV2 : trapView pid rn
        (trapStep pid rn (trackSearched pid rn (recordPending pid rn g))) =
        (some (true, true), some true) := by
      rw [htfire]
      unfold trapView
      simp only [Prod.mk.injEq]
      constructor
      · show (lookupA rn (updA rn (fun q => { q with trap_triggered := true })
          (trackSearched pid rn (recordPending pid rn g)).rooms)).map
          (fun r => (r.trapped, r.trap_triggered)) = some (true, true)
        rw [lookupA_updA, if_pos rfl, hr1]
        simp [htrap]
      · show (lookupA pid (updA pid (fun q => { q with immobilized_next_turn := true })
          (trackSearched pid rn (recordPending pid rn g)).players)).map
          (fun p => p.immobilized_next_turn) = some true
        rw [lookupA_updA, if_pos rfl, hp1]
        simp
    have hTV : trapView pid rn (selPipeline o pid rn g) = (some (true, true), some true) := by
      unfold selPipeline
      rw [trapView_mimicStep, trapView_goldStep, trapView_questCrystalStep,
        trapView_poisonStep, hTV2]
    obtain ⟨hfp, hfr, hff⟩ := selPipeline_frame o pid rn g
    rcases hff with hphase | hphase
    · rw [phaseAdvance_noFire o _ (by rw [hphase]; exact hph) ?_]
      · exact hTV
      · rw [survivorsSelected_frame _ _ hfp hfr,
          aliveSurvivors_length_frame _ _ hfr]
        exact hlast
    · rw [phaseAdvance_gameOver o _ hphase]
      exact hTV

/-- Witness for C6_amended at the concrete state gC6. -/
theorem C6_amended_witness :
    trapView ("s1") ("A") (handle_select_room headOracle ("s1") ("A") gC6) =
      (some (true, true), some true) :=
  (C6_amended headOracle gC6 ("s1") ("A") pS1 rTrap
    (by decide) (by decide) (by decide) (by decide) (by decide) (by decide) (by decide)
    (by decide)).2.2

/-! ### Quest-view machinery for claim C1 -/

theorem lookupA_isSome_of_mem {α : Type} {k : String} {v : α} {l : List (String × α)}
    (h : (k, v) ∈ l) : (lookupA k l).isSome := by
  induction l with
  | nil => simp at h
  | cons p t ih =>
    rcases List.mem_cons.mp h with he | ht
    · subst he
      simp [lookupA]
    · by_cases hp : p.1 = k <;> simp [lookupA, hp, ih ht]

theorem filterMap_updA_proj {α β : Type} (k : String) (f : α → α)
    (sel : String × α → Option β) (hsel : ∀ p, sel (p.1, f p.2) = sel p)
    (l : List (String × α)) :
    (updA k f l).filterMap sel = l.filterMap sel := by
  induction l with
  | nil => rfl
  | cons p t ih =>
    rw [show updA k f (p :: t) = (if p.1 = k then (p.1, f p.2) else p) :: updA k f t from rfl]
    rw [List.filterMap_cons, List.filterMap_cons, ih]
    by_cases hp : p.1 = k
    · rw [if_pos hp, hsel p]
    · rw [if_neg hp]

theorem killerPositions_updPlayer (pid : String) (f : Player → Player) (g : Game)
    (h1 : ∀ p, (f p).role = p.role) (h2 : ∀ p, (f p).current_room = p.current_room) :
    killerPositions (updPlayer pid f g) = killerPositions g := by
  show (updA pid f g.players).filterMap _ = g.players.filterMap _
  exact filterMap_updA_proj pid f _ (fun p => by simp [h1, h2]) g.players

/-- The observation of claim C1 at a room x: its quest marker pair, the
completed list and the active quest. -/
def questView (x : String) (g : Game) :
    Option (Bool × Option String) × List String × Option ActiveQuest :=
  ((lookupA x g.rooms).map (fun r => (r.has_quest, r.quest_class)),
   g.completed_quests, g.active_quest)

theorem questView_crystalStep (x rn2 : String) (g : Game) :
    questView x (crystalStep rn2 g) = questView x g := by
  rcases crystalStep_shape rn2 g with h | h <;> rw [h]
  unfold questView
  simp only [Prod.mk.injEq]
  refine ⟨?_, rfl, rfl⟩
  show (lookupA x (updA rn2 (fun r => { r with has_crystal := false }) g.rooms)).map
      (fun r => (r.has_quest, r.quest_class)) =
    (lookupA x g.rooms).map (fun r => (r.has_quest, r.quest_class))
  rw [lookupA_updA]
  split <;> (cases lookupA x g.rooms <;> simp)

theorem questView_goldStep (o : Oracle) (x pid2 rn2 : String) (g : Game) :
    questView x (goldStep o pid2 rn2 g) = questView x g := by
  rcases goldStep_shape o pid2 rn2 g with h | h <;> rw [h] <;> rfl

theorem questView_mimicStep (x pid2 rn2 : String) (g : Game) :
    questView x (mimicStep pid2 rn2 g) = questView x g := by
  rcases mimicStep_shape pid2 rn2 g with h | h <;> rw [h]
  unfold questView
  simp only [Prod.mk.injEq]
  refine ⟨?_, rfl, rfl⟩
  show (lookupA x (updA rn2 (fun q => { q with has_mimic := false }) g.rooms)).map
      (fun r => (r.has_quest, r.quest_class)) =
    (lookupA x g.rooms).map (fun r => (r.has_quest, r.quest_class))
  rw [lookupA_updA]
  split <;> (cases lookupA x g.rooms <;> simp)

theorem questView_clearTrapsAndMimics (x : String) (g : Game) :
    questView x (clearTrapsAndMimics g) = questView x g := by
  have h1 : (lookupA x (g.rooms.map (fun nr =>
      (nr.1, { nr.2 with trapped := false, trap_triggered := false, has_mimic := false })))).map
      (fun r => (r.has_quest, r.quest_class)) =
      (lookupA x g.rooms).map (fun r => (r.has_quest, r.quest_class)) := by
    have base := lookupA_map_of_keyPreserving x (fun nr =>
      (nr.1, { nr.2 with trapped := false, trap_triggered := false, has_mimic := false }))
      (fun p => rfl) g.rooms
    rw [base]
    cases lookupA x g.rooms <;> simp
  exact Prod.ext h1 rfl

theorem questView_phaseAdvance (o : Oracle) (x : String) (g : Game)
    (h : g.phase = "survivor_selection" ∨ g.phase = "game_over") :
    questView x (phaseAdvance o g) = questView x g := by
  rcases h with h | h
  · unfold phaseAdvance
    rw [if_pos h]
    unfold survAdvanceCore
    split
    · show questView x (assignPowerOptions o
        { clearTrapsAndMimics g with phase := "killer_power_selection" }) = questView x g
      have h1 : questView x (assignPowerOptions o
          { clearTrapsAndMimics g with phase := "killer_power_selection" }) =
          questView x (clearTrapsAndMimics g) := rfl
      rw [h1, questView_clearTrapsAndMimics]
    · rfl
  · rw [phaseAdvance_gameOver o g h]

/-- The observations consumed by the quest check, tracked through the
pipeline steps that precede it: the selector's role and class, the selected
room's quest pair, and the quest bookkeeping fields. -/
def preView (pid rn : String) (g : Game) :
    Option (String × Option String) × Option (Bool × Option String) ×
      List String × List Quest × String :=
  ((lookupA pid g.players).map (fun q => (q.role, q.character_class)),
   (lookupA rn g.rooms).map (fun r => (r.has_quest, r.quest_class)),
   g.completed_quests, g.quests, g.phase)

theorem preView_trackSearched (pid rn pid2 rn2 : String) (g : Game) :
    preView pid rn (trackSearched pid2 rn2 g) = preView pid rn g := by
  obtain ⟨y, h⟩ := trackSearched_shape pid2 rn2 g
  rw [h]
  rfl

theorem preView_trapStep (pid rn pid2 rn2 : String) (g : Game) :
    preView pid rn (trapStep pid2 rn2 g) = preView pid rn g := by
  rcases trapStep_shape pid2 rn2 g with h | h <;> rw [h]
  have h1 : (lookupA pid (updRoom rn2 (fun q => { q with trap_triggered := true })
      (updPlayer pid2 (fun q => { q with immobilized_next_turn := true }) g)).players).map
      (fun q => (q.role, q.character_class)) =
      (lookupA pid g.players).map (fun q => (q.role, q.character_class)) :=
    lookupA_updPlayer_proj (fun q => (q.role, q.character_class)) pid pid2
      (fun q => { q with immobilized_next_turn := true }) (fun p => rfl) g
  have h2 : (lookupA rn (updA rn2 (fun q => { q with trap_triggered := true }) g.rooms)).map
      (fun r => (r.has_quest, r.quest_class)) =
      (lookupA rn g.rooms).map (fun r => (r.has_quest, r.quest_class)) := by
    rw [lookupA_updA]
    split <;> (cases lookupA rn g.rooms <;> simp)
  exact Prod.ext h1 (Prod.ext h2 rfl)

theorem preView_poisonStep (pid rn pid2 rn2 : String) (g : Game) :
    preView pid rn (poisonStep pid2 rn2 g) = preView pid rn g := by
  rcases poisonStep_shape pid2 rn2 g with h | h <;> rw [h]
  have h1 : (lookupA pid (updPlayer pid2
      (fun q => { q with poisoned_countdown := 10 }) g).players).map
      (fun q => (q.role, q.character_class)) =
      (lookupA pid g.players).map (fun q => (q.role, q.character_class)) :=
    lookupA_updPlayer_proj (fun q => (q.role, q.character_class)) pid pid2
      (fun q => { q with poisoned_countdown := 10 }) (fun p => rfl) g
  exact Prod.ext h1 rfl

/-- The pipeline prefix before the quest check. -/
def preQuest (pid rn : String) (g : Game) : Game :=
  poisonStep pid rn (trapStep pid rn (trackSearched pid rn (recordPending pid rn g)))

theorem preView_preQuest (pid rn : String) (g : Game) :
    preView pid rn (preQuest pid rn g) = preView pid rn g := by
  unfold preQuest
  rw [preView_poisonStep, preView_trapStep, preView_trackSearched]
  rfl

/-! ### Availability congruence -/

theorem availForQuest_congr (g1 g2 : Game)
    (hr : g1.rooms.map (fun nr => (nr.1, nr.2.locked, nr.2.has_quest)) =
          g2.rooms.map (fun nr => (nr.1, nr.2.locked, nr.2.has_quest)))
    (hp : killerPositions g1 = killerPositions g2) :
    availForQuest g1 = availForQuest g2 := by
  unfold availForQuest
  rw [hp]
  revert hr
  generalize g1.rooms = l1
  generalize g2.rooms = l2
  intro hr
  induction l1 generalizing l2 with
  | nil => cases l2 <;> simp_all
  | cons a t ih =>
    cases l2 with
    | nil => simp at hr
    | cons b t2 =>
      simp only [List.map_cons, List.cons.injEq, Prod.mk.injEq] at hr
      obtain ⟨⟨hn, hl, hq⟩, ht⟩ := hr
      simp only [List.filter_cons]
      have hd : (decide (a.2.locked = false ∧ a.2.has_quest = false ∧
          ¬ a.1 ∈ killerPositions g2)) = (decide (b.2.locked = false ∧ b.2.has_quest = false ∧
          ¬ b.1 ∈ killerPositions g2)) := by rw [hn, hl, hq]
      rw [hd]
      split
      · simp only [List.map_cons]
        rw [hn, ih t2 ht]
      · exact ih t2 ht

theorem place_quest_fires (o : Oracle) (qc : String) (g : Game)
    (h : availForQuest g ≠ []) :
    place_quest o qc g = (some (o.pick (availForQuest g)),
      updRoom (o.pick (availForQuest g))
        (fun r => { r with has_quest := true, quest_class := some qc }) g) := by
  unfold place_quest
  dsimp only
  rw [if_neg h]

theorem place_quest_empty (o : Oracle) (qc : String) (g : Game)
    (h : availForQuest g = []) : place_quest o qc g = (none, g) := by
  unfold place_quest
  dsimp only
  rw [if_pos h]

theorem questStep_fires (o : Oracle) (pid rn qc : String) (g : Game) (p : Player) (room : Room)
    (hp : lookupA pid g.players = some p) (hr : lookupA rn g.rooms = some room)
    (hq : room.has_quest = true) (hqc : room.quest_class = some qc)
    (hclass : p.character_class = some qc) :
    questStep o pid rn g = questCompleteCore o rn qc g := by
  unfold questStep
  simp only [hp, hr]
  rw [if_pos ⟨hq, by rw [hqc]; rfl⟩]
  simp only [hqc]
  rw [if_pos hclass]

theorem questCrystalStep_fires (o : Oracle) (pid rn : String) (g : Game) (p : Player)
    (hp : lookupA pid g.players = some p) (hrole : p.role = "survivor") :
    questCrystalStep o pid rn g = crystalStep rn (questStep o pid rn g) := by
  unfold questCrystalStep
  rw [if_pos ?_]
  unfold playerRole
  rw [hp]
  simpa using hrole

theorem questClearState_completedLen (rn qc : String) (g : Game) :
    (questClearState rn qc g).completed_quests.length = g.completed_quests.length + 1 := by
  show (g.completed_quests ++ [qc]).length = _
  simp

theorem questCompleteCore_done (o : Oracle) (rn qc : String) (g : Game)
    (h : g.quests.length ≤ g.completed_quests.length + 1) :
    questCompleteCore o rn qc g = questClearState rn qc g := by
  have hcond : ¬((questClearState rn qc g).completed_quests.length <
      (questClearState rn qc g).quests.length) := by
    rw [questClearState_completedLen]
    show ¬(g.completed_quests.length + 1 < g.quests.length)
    omega
  unfold questCompleteCore
  dsimp only
  rw [if_neg hcond]

theorem questClearState_getNext (rn qc : String) (g : Game) (nq : Quest)
    (h : g.quests[g.completed_quests.length + 1]? = some nq) :
    (questClearState rn qc g).quests[(questClearState rn qc g).completed_quests.length]? =
      some nq := by
  show g.quests[(g.completed_quests ++ [qc]).length]? = _
  have hlen : (g.completed_quests ++ [qc]).length = g.completed_quests.length + 1 := by simp
  rw [hlen]
  exact h

theorem questCompleteCore_noavail (o : Oracle) (rn qc : String) (g : Game) (nq : Quest)
    (h1 : g.completed_quests.length + 1 < g.quests.length)
    (hnq : g.quests[g.completed_quests.length + 1]? = some nq)
    (h2 : availForQuest (questClearState rn qc g) = []) :
    questCompleteCore o rn qc g = questClearState rn qc g := by
  have hcond : (questClearState rn qc g).completed_quests.length <
      (questClearState rn qc g).quests.length := by
    rw [questClearState_completedLen]
    exact h1
  unfold questCompleteCore
  dsimp only
  rw [if_pos hcond]
  simp only [questClearState_getNext rn qc g nq hnq]
  rw [place_quest_empty o _ _ h2]

theorem questCompleteCore_places (o : Oracle) (rn qc : String) (g : Game) (nq : Quest)
    (hnq : g.quests[g.completed_quests.length + 1]? = some nq)
    (h1 : g.completed_quests.length + 1 < g.quests.length)
    (h2 : availForQuest (questClearState rn qc g) ≠ []) :
    questCompleteCore o rn qc g =
      { updRoom (o.pick (availForQuest (questClearState rn qc g)))
          (fun r => { r with has_quest := true, quest_class := some nq.qclass })
          (questClearState rn qc g) with
        active_quest := some
          { qclass := nq.qclass,
            room := o.pick (availForQuest (questClearState rn qc g)),
            player_id := nq.player_id,
            player_name := nq.player_name } } := by
  have hcond : (questClearState rn qc g).completed_quests.length <
      (questClearState rn qc g).quests.length := by
    rw [questClearState_completedLen]
    exact h1
  unfold questCompleteCore
  dsimp only
  rw [if_pos hcond]
  simp only [questClearState_getNext rn qc g nq hnq]
  rw [place_quest_fires o _ _ h2]

theorem updA_proj_congr {α β : Type} (k : String) (f : α → α) (proj : α → β)
    (hcong : ∀ v1 v2, proj v1 = proj v2 → proj (f v1) = proj (f v2))
    (l1 l2 : List (String × α))
    (h : l1.map (fun p => (p.1, proj p.2)) = l2.map (fun p => (p.1, proj p.2))) :
    (updA k f l1).map (fun p => (p.1, proj p.2)) =
      (updA k f l2).map (fun p => (p.1, proj p.2)) := by
  induction l1 generalizing l2 with
  | nil => cases l2 <;> simp_all [updA]
  | cons a t ih =>
    cases l2 with
    | nil => simp at h
    | cons b t2 =>
      simp only [List.map_cons, List.cons.injEq, Prod.mk.injEq] at h
      obtain ⟨⟨hn, hv⟩, ht⟩ := h
      rw [show updA k f (a :: t) = (if a.1 = k then (a.1, f a.2) else a) :: updA k f t from rfl,
        show updA k f (b :: t2) = (if b.1 = k then (b.1, f b.2) else b) :: updA k f t2 from rfl]
      simp only [List.map_cons]
      rw [ih t2 ht]
      by_cases hak : a.1 = k
      · rw [if_pos hak, if_pos (hn ▸ hak)]
        simp [hn, hcong a.2 b.2 hv]
      · rw [if_neg hak, if_neg (hn ▸ hak)]
        simp [hn, hv]


/-! ### Transfer of quest-placement inputs across the pipeline prefix -/

theorem killerPositions_eq_of_players {g1 g2 : Game} (h : g1.players = g2.players) :
    killerPositions g1 = killerPositions g2 := by
  unfold killerPositions
  rw [h]

theorem killerPositions_trackSearched (pid rn : String) (g : Game) :
    killerPositions (trackSearched pid rn g) = killerPositions g := by
  obtain ⟨y, h⟩ := trackSearched_shape pid rn g
  rw [h]
  rfl

theorem killerPositions_trapStep (pid rn : String) (g : Game) :
    killerPositions (trapStep pid rn g) = killerPositions g := by
  rcases trapStep_shape pid rn g with h | h <;> rw [h]
  have h1 : killerPositions (updRoom rn (fun q => { q with trap_triggered := true })
      (updPlayer pid (fun q => { q with immobilized_next_turn := true }) g)) =
      killerPositions (updPlayer pid (fun q => { q with immobilized_next_turn := true }) g) :=
    killerPositions_eq_of_players rfl
  rw [h1]
  exact killerPositions_updPlayer pid (fun q => { q with immobilized_next_turn := true }) g
    (fun p => rfl) (fun p => rfl)

theorem killerPositions_poisonStep (pid rn : String) (g : Game) :
    killerPositions (poisonStep pid rn g) = killerPositions g := by
  rcases poisonStep_shape pid rn g with h | h <;> rw [h]
  exact killerPositions_updPlayer pid (fun q => { q with poisoned_countdown := 10 }) g
    (fun p => rfl) (fun p => rfl)

theorem killerPositions_preQuest (pid rn : String) (g : Game) :
    killerPositions (preQuest pid rn g) = killerPositions g := by
  unfold preQuest
  rw [killerPositions_poisonStep, killerPositions_trapStep, killerPositions_trackSearched]
  rfl

/-- The room observation feeding quest placement: name, locked and quest
flags of every room, in order. -/
def roomsLQ (g : Game) : List (String × Bool × Bool) :=
  g.rooms.map (fun nr => (nr.1, nr.2.locked, nr.2.has_quest))

theorem roomsLQ_trackSearched (pid rn : String) (g : Game) :
    roomsLQ (trackSearched pid rn g) = roomsLQ g := by
  obtain ⟨y, h⟩ := trackSearched_shape pid rn g
  rw [h]
  rfl

theorem roomsLQ_trapStep (pid rn : String) (g : Game) :
    roomsLQ (trapStep pid rn g) = roomsLQ g := by
  rcases trapStep_shape pid rn g with h | h <;> rw [h]
  exact mapProj_updA rn (fun q => { q with trap_triggered := true })
    (fun r => (r.locked, r.has_quest)) g.rooms (fun v => rfl)

theorem roomsLQ_poisonStep (pid rn : String) (g : Game) :
    roomsLQ (poisonStep pid rn g) = roomsLQ g := by
  rcases poisonStep_shape pid rn g with h | h <;> rw [h]
  rfl

theorem roomsLQ_preQuest (pid rn : String) (g : Game) :
    roomsLQ (preQuest pid rn g) = roomsLQ g := by
  unfold preQuest
  rw [roomsLQ_poisonStep, roomsLQ_trapStep, roomsLQ_trackSearched]
  rfl

/-- The rooms available for the next quest marker after clearing the solved
one are the same whether computed before or after the pipeline prefix. -/
theorem availQuestClear_preQuest (pid rn qc : String) (g : Game) :
    availForQuest (questClearState rn qc (preQuest pid rn g)) =
      availForQuest (questClearState rn qc g) := by
  have hlq := roomsLQ_preQuest pid rn g
  unfold roomsLQ at hlq
  apply availForQuest_congr
  · exact updA_proj_congr rn (fun r => { r with has_quest := false, quest_class := none })
      (fun r => (r.locked, r.has_quest))
      (fun v1 v2 hv => by
        show (v1.locked, (false : Bool)) = (v2.locked, (false : Bool))
        rw [show v1.locked = v2.locked from congrArg Prod.fst hv])
      (preQuest pid rn g).rooms g.rooms hlq
  · exact killerPositions_preQuest pid rn g


/-! ### Claim C1 -/

def pS1im : Player := { pS1 with immobilized_next_turn := true, current_room := some ("A") }

def rQMage : Room := { baseRoom with has_quest := true, quest_class := some ("Mage") }

def gC1 : Game :=
  { baseGame with
    players := [("s1", pS1im), ("k1", pK1)],
    rooms := [("A", rQMage), ("B", baseRoom)],
    quests := [{ qclass := "Mage", player_id := "s1", player_name := "s1" }],
    active_quest := some { qclass := "Mage", room := "A", player_id := "s1", player_name := "s1" } }

/-- C1, counterexample: an immobilized Mage survivor standing in the room
that holds the Mage quest submits select_room for that room.  The action is
accepted (the immobilization flag is consumed by the pass branch of
lines 1727-1809) yet the quest is not resolved: nothing is completed, the
room marker and the active quest survive.  This refutes the claim as
stated, which promises resolution for every living matching-class survivor
selecting the quest room. -/
theorem C1_counterexample :
    (lookupA ("s1") (handle_select_room headOracle ("s1") ("A") gC1).players).map
      Player.immobilized_next_turn = some false ∧
    (handle_select_room headOracle ("s1") ("A") gC1).completed_quests = [] ∧
    (lookupA ("A") (handle_select_room headOracle ("s1") ("A") gC1).rooms).map
      Room.has_quest = some true ∧
    (handle_select_room headOracle ("s1") ("A") gC1).active_quest = gC1.active_quest := by
  decide

/-- C1 (amended): a non-immobilized living survivor of the matching class
selecting the unlocked room holding the quest resolves it at selection
time: the completed list grows by exactly that class, the room marker is
cleared, and when a next quest is queued it is either placed in a room
drawn from the available pool (becoming the active quest) or dropped when
no room is available.  The non-immobilized hypothesis is the correction:
an immobilized survivor passing on their current room never reaches the
quest check. -/
theorem C1_amended (o : Oracle) (g : Game) (pid rn qc : String) (p : Player) (room : Room)
    (hp : lookupA pid g.players = some p) (hrole : p.role = "survivor")
    (him : p.immobilized_next_turn = false) (hclass : p.character_class = some qc)
    (hph : g.phase = "survivor_selection")
    (hr : lookupA rn g.rooms = some room) (hlock : room.locked = false)
    (hq : room.has_quest = true) (hqc : room.quest_class = some qc) :
    (handle_select_room o pid rn g).completed_quests = g.completed_quests ++ [qc] ∧
    (g.quests.length ≤ g.completed_quests.length + 1 →
      (handle_select_room o pid rn g).active_quest = none ∧
      (lookupA rn (handle_select_room o pid rn g).rooms).map
        (fun r => (r.has_quest, r.quest_class)) = some (false, none)) ∧
    (∀ nq : Quest, g.quests[g.completed_quests.length + 1]? = some nq →
      (availForQuest (questClearState rn qc g) = [] →
        (handle_select_room o pid rn g).active_quest = none ∧
        (lookupA rn (handle_select_room o pid rn g).rooms).map
          (fun r => (r.has_quest, r.quest_class)) = some (false, none)) ∧
      (availForQuest (questClearState rn qc g) ≠ [] →
        o.pick (availForQuest (questClearState rn qc g)) ∈
          availForQuest (questClearState rn qc g) ∧
        (handle_select_room o pid rn g).active_quest = some
          { qclass := nq.qclass,
            room := o.pick (availForQuest (questClearState rn qc g)),
            player_id := nq.player_id, player_name := nq.player_name } ∧
        (lookupA (o.pick (availForQuest (questClearState rn qc g)))
            (handle_select_room o pid rn g).rooms).map
          (fun r => (r.has_quest, r.quest_class)) = some (true, some nq.qclass) ∧
        (o.pick (availForQuest (questClearState rn qc g)) ≠ rn →
          (lookupA rn (handle_select_room o pid rn g).rooms).map
            (fun r => (r.has_quest, r.quest_class)) = some (false, none)))) := by
  rw [handle_select_room_normalSurvivor o pid rn g p hp hrole him hph,
    normalSelect_open o pid rn g room hr hlock]
  have hpre := preView_preQuest pid rn g
  unfold preView at hpre
  simp only [Prod.mk.injEq] at hpre
  obtain ⟨hA1, hA2, hA3, hA4, hA5⟩ := hpre
  rw [hp] at hA1
  rw [hr] at hA2
  simp only [Option.map_some'] at hA1 hA2
  obtain ⟨p2, hp2, hp2e⟩ := Option.map_eq_some'.mp hA1
  obtain ⟨room2, hroom2, hroom2e⟩ := Option.map_eq_some'.mp hA2
  simp only [Prod.mk.injEq] at hp2e hroom2e
  obtain ⟨hp2r, hp2c⟩ := hp2e
  obtain ⟨hr2q, hr2c⟩ := hroom2e
  have hrole2 : p2.role = "survivor" := hp2r.trans hrole
  have hclass2 : p2.character_class = some qc := hp2c.trans hclass
  have hq2 : room2.has_quest = true := hr2q.trans hq
  have hqc2 : room2.quest_class = some qc := hr2c.trans hqc
  have hpipe : selPipeline o pid rn g =
      mimicStep pid rn (goldStep o pid rn (questCrystalStep o pid rn (preQuest pid rn g))) := rfl
  have hfire : questCrystalStep o pid rn (preQuest pid rn g) =
      crystalStep rn (questStep o pid rn (preQuest pid rn g)) :=
    questCrystalStep_fires o pid rn (preQuest pid rn g) p2 hp2 hrole2
  have hqfire : questStep o pid rn (preQuest pid rn g) =
      questCompleteCore o rn qc (preQuest pid rn g) :=
    questStep_fires o pid rn qc (preQuest pid rn g) p2 room2 hp2 hroom2 hq2 hqc2 hclass2
  have hphS : (selPipeline o pid rn g).phase = "survivor_selection" ∨
      (selPipeline o pid rn g).phase = "game_over" := by
    rcases (selPipeline_frame o pid rn g).2.2 with h | h
    · exact Or.inl (h.trans (show (recordPending pid rn g).phase = "survivor_selection" from hph))
    · exact Or.inr h
  have hqvx : ∀ x, questView x (phaseAdvance o (selPipeline o pid rn g)) =
      questView x (questCompleteCore o rn qc (preQuest pid rn g)) := by
    intro x
    rw [questView_phaseAdvance o x _ hphS, hpipe, questView_mimicStep, questView_goldStep,
      hfire, questView_crystalStep, hqfire]
  have hAq := availQuestClear_preQuest pid rn qc g
  have hview : ∀ x, (lookupA x (phaseAdvance o (selPipeline o pid rn g)).rooms).map
        (fun r => (r.has_quest, r.quest_class)) =
        (lookupA x (questCompleteCore o rn qc (preQuest pid rn g)).rooms).map
        (fun r => (r.has_quest, r.quest_class)) ∧
      (phaseAdvance o (selPipeline o pid rn g)).completed_quests =
        (questCompleteCore o rn qc (preQuest pid rn g)).completed_quests ∧
      (phaseAdvance o (selPipeline o pid rn g)).active_quest =
        (questCompleteCore o rn qc (preQuest pid rn g)).active_quest := by
    intro x
    have h := hqvx x
    unfold questView at h
    simp only [Prod.mk.injEq] at h
    exact h
  have hclr : (lookupA rn (questClearState rn qc (preQuest pid rn g)).rooms).map
      (fun r => (r.has_quest, r.quest_class)) = some (false, none) := by
    show (lookupA rn (updA rn (fun r => { r with has_quest := false, quest_class := none })
        (preQuest pid rn g).rooms)).map (fun r => (r.has_quest, r.quest_class)) =
      some (false, none)
    rw [lookupA_updA, if_pos rfl, hroom2]
    rfl
  refine ⟨?_, ?_, ?_⟩
  · rw [(hview rn).2.1]
    by_cases hlen : (preQuest pid rn g).quests.length ≤
        (preQuest pid rn g).completed_quests.length + 1
    · rw [questCompleteCore_done o rn qc (preQuest pid rn g) hlen]
      show (preQuest pid rn g).completed_quests ++ [qc] = g.completed_quests ++ [qc]
      rw [hA3]
    · have h1g : (preQuest pid rn g).completed_quests.length + 1 <
          (preQuest pid rn g).quests.length := by omega
      have hnq0 := List.getElem?_eq_getElem h1g
      by_cases hav : availForQuest (questClearState rn qc (preQuest pid rn g)) = []
      · rw [questCompleteCore_noavail o rn qc (preQuest pid rn g) _ h1g hnq0 hav]
        show (preQuest pid rn g).completed_quests ++ [qc] = g.completed_quests ++ [qc]
        rw [hA3]
      · rw [questCompleteCore_places o rn qc (preQuest pid rn g) _ hnq0 h1g hav]
        show (preQuest pid rn g).completed_quests ++ [qc] = g.completed_quests ++ [qc]
        rw [hA3]
  · intro hlen
    have hlen2 : (preQuest pid rn g).quests.length ≤
        (preQuest pid rn g).completed_quests.length + 1 := by
      rw [hA3, hA4]
      exact hlen
    refine ⟨?_, ?_⟩
    · rw [(hview rn).2.2, questCompleteCore_done o rn qc (preQuest pid rn g) hlen2]
      rfl
    · rw [(hview rn).1, questCompleteCore_done o rn qc (preQuest pid rn g) hlen2]
      exact hclr
  · intro nq hnq
    have h1 : g.completed_quests.length + 1 < g.quests.length := by
      by_contra hcon
      push_neg at hcon
      rw [List.getElem?_eq_none hcon] at hnq
      exact Option.noConfusion hnq
    have hnq2 : (preQuest pid rn g).quests[(preQuest pid rn g).completed_quests.length + 1]? =
        some nq := by
      rw [hA3, hA4]
      exact hnq
    have h1g : (preQuest pid rn g).completed_quests.length + 1 <
        (preQuest pid rn g).quests.length := by
      rw [hA3, hA4]
      exact h1
    refine ⟨?_, ?_⟩
    · intro hav
      have hav2 : availForQuest (questClearState rn qc (preQuest pid rn g)) = [] := by
        rw [hAq]
        exact hav
      refine ⟨?_, ?_⟩
      · rw [(hview rn).2.2, questCompleteCore_noavail o rn qc (preQuest pid rn g) nq h1g hnq2 hav2]
        rfl
      · rw [(hview rn).1, questCompleteCore_noavail o rn qc (preQuest pid rn g) nq h1g hnq2 hav2]
        exact hclr
    · intro hne
      have hne2 : availForQuest (questClearState rn qc (preQuest pid rn g)) ≠ [] := by
        rw [hAq]
        exact hne
      have hplaces := questCompleteCore_places o rn qc (preQuest pid rn g) nq hnq2 h1g hne2
      rw [hAq] at hplaces
      refine ⟨o.pick_mem _ hne, ?_, ?_, ?_⟩
      · rw [(hview rn).2.2, hplaces]
      · rw [(hview (o.pick (availForQuest (questClearState rn qc g)))).1, hplaces]
        show (lookupA (o.pick (availForQuest (questClearState rn qc g)))
            (updA (o.pick (availForQuest (questClearState rn qc g)))
              (fun r => { r with has_quest := true, quest_class := some nq.qclass })
              (questClearState rn qc (preQuest pid rn g)).rooms)).map
            (fun r => (r.has_quest, r.quest_class)) = some (true, some nq.qclass)
        rw [lookupA_updA, if_pos rfl]
        have hmem : o.pick (availForQuest (questClearState rn qc g)) ∈
            availForQuest (questClearState rn qc (preQuest pid rn g)) := by
          rw [hAq]
          exact o.pick_mem _ hne
        obtain ⟨r3, hr3, _⟩ := (mem_availForQuest _ _).mp hmem
        obtain ⟨r4, hr4⟩ := Option.isSome_iff_exists.mp (lookupA_isSome_of_mem hr3)
        rw [hr4]
        rfl
      · intro hPrn
        rw [(hview rn).1, hplaces]
        show (lookupA rn (updA (o.pick (availForQuest (questClearState rn qc g)))
            (fun r => { r with has_quest := true, quest_class := some nq.qclass })
            (questClearState rn qc (preQuest pid rn g)).rooms)).map
            (fun r => (r.has_quest, r.quest_class)) = some (false, none)
        rw [lookupA_updA, if_neg (Ne.symm hPrn)]
        exact hclr

def gW1 : Game :=
  { baseGame with
    players := [("s1", pS1), ("k1", pK1)],
    rooms := [("A", rQMage), ("B", baseRoom)],
    quests := [{ qclass := "Mage", player_id := "s1", player_name := "s1" },
               { qclass := "Elfe", player_id := "s1", player_name := "s1" }],
    active_quest := some { qclass := "Mage", room := "A", player_id := "s1", player_name := "s1" } }

/-- C1 witness: the amended theorem applied to a concrete two-quest session. -/
theorem C1_amended_witness :
    (handle_select_room headOracle ("s1") ("A") gW1).completed_quests =
      gW1.completed_quests ++ ["Mage"] ∧
    (handle_select_room headOracle ("s1") ("A") gW1).active_quest = some
      { qclass := "Elfe",
        room := headOracle.pick (availForQuest (questClearState ("A") ("Mage") gW1)),
        player_id := "s1", player_name := "s1" } := by
  have h := C1_amended headOracle gW1 ("s1") ("A") ("Mage") pS1 rQMage (by decide) (by decide)
    (by decide) (by decide) (by decide) (by decide) (by decide) (by decide) (by decide)
  exact ⟨h.1, ((h.2.2 { qclass := "Elfe", player_id := "s1", player_name := "s1" }
    (by decide)).2 (by decide)).2.1⟩


/-! ### Claim C2 -/

theorem place_crystal_fires (o : Oracle) (g : Game) (h : availForCrystal g ≠ []) :
    place_crystal o g = (some (o.pick (availForCrystal g)),
      { updRoom (o.pick (availForCrystal g)) (fun r => { r with has_crystal := true }) g with
          crystal_spawned := true }) := by
  unfold place_crystal
  dsimp only
  rw [if_neg h]

theorem stageCrystalSpawn_fires (o : Oracle) (alive : Nat) (g : Game)
    (hdone : g.quests.length ≤ g.completed_quests.length) (halive : 0 < alive)
    (hcs : g.crystal_spawned = false) (hav : availForCrystal g ≠ []) :
    stageCrystalSpawn o alive g =
      { updRoom (o.pick (availForCrystal g)) (fun r => { r with has_crystal := true }) g with
          crystal_spawned := true,
          events := g.events ++ ["crystal_spawned", "crystal_spawned"] } := by
  unfold stageCrystalSpawn
  rw [if_pos ⟨hdone, halive, hcs⟩]
  dsimp only
  rw [place_crystal_fires o g hav]
  rfl

theorem questStep_noquest (o : Oracle) (pid rn : String) (g : Game) (p : Player) (room : Room)
    (hp : lookupA pid g.players = some p) (hr : lookupA rn g.rooms = some room)
    (hq : room.has_quest = false) :
    questStep o pid rn g = { g with events := g.events ++ ["search_no_quest"] } := by
  unfold questStep
  simp only [hp, hr]
  rw [if_neg (by simp [hq])]

theorem crystalStep_fires (rn : String) (g : Game) (room : Room)
    (hr : lookupA rn g.rooms = some room) (hc : room.has_crystal = true)
    (hcs : g.crystal_spawned = true) :
    crystalStep rn g =
      { updRoom rn (fun r => { r with has_crystal := false }) g with
          crystal_destroyed := true, phase := "game_over", winner := some ("survivors"),
          events := g.events ++ ["game_over", "game_over"] } := by
  unfold crystalStep
  simp only [hr]
  rw [if_pos ⟨hc, hcs⟩]
  rfl

/-- The observation of claim C2 at a room rn: its crystal flag, the spawn
flag, the phase, the winner and the destruction flag. -/
def crysView (rn : String) (g : Game) :
    Option Bool × Bool × String × Option String × Bool :=
  ((lookupA rn g.rooms).map Room.has_crystal, g.crystal_spawned, g.phase, g.winner,
   g.crystal_destroyed)

theorem crysView_trackSearched (rn pid2 rn2 : String) (g : Game) :
    crysView rn (trackSearched pid2 rn2 g) = crysView rn g := by
  obtain ⟨y, h⟩ := trackSearched_shape pid2 rn2 g
  rw [h]
  rfl

theorem crysView_trapStep (rn pid2 rn2 : String) (g : Game) :
    crysView rn (trapStep pid2 rn2 g) = crysView rn g := by
  rcases trapStep_shape pid2 rn2 g with h | h <;> rw [h]
  unfold crysView
  refine Prod.ext ?_ rfl
  show (lookupA rn (updA rn2 (fun q => { q with trap_triggered := true }) g.rooms)).map
      Room.has_crystal = (lookupA rn g.rooms).map Room.has_crystal
  rw [lookupA_updA]
  split <;> (cases lookupA rn g.rooms <;> simp)

theorem crysView_poisonStep (rn pid2 rn2 : String) (g : Game) :
    crysView rn (poisonStep pid2 rn2 g) = crysView rn g := by
  rcases poisonStep_shape pid2 rn2 g with h | h <;> rw [h]
  rfl

theorem crysView_goldStep (o : Oracle) (rn pid2 rn2 : String) (g : Game) :
    crysView rn (goldStep o pid2 rn2 g) = crysView rn g := by
  rcases goldStep_shape o pid2 rn2 g with h | h <;> rw [h]
  rfl

theorem crysView_mimicStep (rn pid2 rn2 : String) (g : Game) :
    crysView rn (mimicStep pid2 rn2 g) = crysView rn g := by
  rcases mimicStep_shape pid2 rn2 g with h | h <;> rw [h]
  unfold crysView
  refine Prod.ext ?_ rfl
  show (lookupA rn (updA rn2 (fun q => { q with has_mimic := false }) g.rooms)).map
      Room.has_crystal = (lookupA rn g.rooms).map Room.has_crystal
  rw [lookupA_updA]
  split <;> (cases lookupA rn g.rooms <;> simp)

theorem crysView_preQuest (pid rn : String) (g : Game) :
    crysView rn (preQuest pid rn g) = crysView rn g := by
  unfold preQuest
  rw [crysView_poisonStep, crysView_trapStep, crysView_trackSearched]
  rfl

def gC2 : Game :=
  { baseGame with
    players := [("s1", pS1im), ("k1", pK1)],
    rooms := [("A", { baseRoom with has_crystal := true }), ("B", baseRoom)],
    crystal_spawned := true }

/-- C2, counterexample: the crystal has spawned in room A and the immobilized
survivor s1, standing in A, submits select_room for A.  The pass branch of
lines 1727-1809 consumes the action without running the crystal check: the
crystal survives, the game does not end and no winner is set — refuting the
claim that ANY living survivor selecting the crystal room ends the game. -/
theorem C2_counterexample :
    (lookupA ("s1") (handle_select_room headOracle ("s1") ("A") gC2).players).map
      Player.immobilized_next_turn = some false ∧
    (lookupA ("A") (handle_select_room headOracle ("s1") ("A") gC2).rooms).map
      Room.has_crystal = some true ∧
    (handle_select_room headOracle ("s1") ("A") gC2).phase ≠ "game_over" ∧
    (handle_select_room headOracle ("s1") ("A") gC2).winner = none := by
  decide

/-- C2 (amended): (1) the crystal-spawn stage of turn processing, when every
quest is completed, some survivor is alive and no crystal exists yet, marks
the crystal as spawned, places it in exactly one room drawn from the
available pool, leaves every other room's crystal flag alone, and changes
neither phase nor winner; (2) a NON-IMMOBILIZED living survivor selecting
the unlocked, quest-free room holding the spawned crystal ends the game at
once: phase game_over, winner survivors, crystal cleared and marked
destroyed.  The non-immobilized hypothesis is the correction: an
immobilized survivor passing on the crystal room never reaches the crystal
check. -/
theorem C2_amended :
    (∀ (o : Oracle) (alive : Nat) (g : Game),
      g.quests.length ≤ g.completed_quests.length → 0 < alive →
      g.crystal_spawned = false → availForCrystal g ≠ [] →
      (stageCrystalSpawn o alive g).crystal_spawned = true ∧
      (stageCrystalSpawn o alive g).phase = g.phase ∧
      (stageCrystalSpawn o alive g).winner = g.winner ∧
      o.pick (availForCrystal g) ∈ availForCrystal g ∧
      (lookupA (o.pick (availForCrystal g)) (stageCrystalSpawn o alive g).rooms).map
        Room.has_crystal = some true ∧
      (∀ x, ¬ x = o.pick (availForCrystal g) →
        (lookupA x (stageCrystalSpawn o alive g).rooms).map Room.has_crystal =
          (lookupA x g.rooms).map Room.has_crystal)) ∧
    (∀ (o : Oracle) (g : Game) (pid rn : String) (p : Player) (room : Room),
      lookupA pid g.players = some p → p.role = "survivor" →
      p.immobilized_next_turn = false → g.phase = "survivor_selection" →
      lookupA rn g.rooms = some room → room.locked = false →
      room.has_quest = false → room.has_crystal = true → g.crystal_spawned = true →
      (handle_select_room o pid rn g).phase = "game_over" ∧
      (handle_select_room o pid rn g).winner = some ("survivors") ∧
      (handle_select_room o pid rn g).crystal_destroyed = true ∧
      (lookupA rn (handle_select_room o pid rn g).rooms).map Room.has_crystal =
        some false) := by
  constructor
  · intro o alive g hdone halive hcs hav
    rw [stageCrystalSpawn_fires o alive g hdone halive hcs hav]
    refine ⟨rfl, rfl, rfl, o.pick_mem _ hav, ?_, ?_⟩
    · show (lookupA (o.pick (availForCrystal g)) (updA (o.pick (availForCrystal g))
          (fun r => { r with has_crystal := true }) g.rooms)).map Room.has_crystal = some true
      rw [lookupA_updA, if_pos rfl]
      obtain ⟨r3, hr3, h3a⟩ := (mem_availForCrystal _ _).mp (o.pick_mem _ hav)
      obtain ⟨r4, hr4⟩ := Option.isSome_iff_exists.mp (lookupA_isSome_of_mem hr3)
      rw [hr4]
      rfl
    · intro x hx
      show (lookupA x (updA (o.pick (availForCrystal g))
          (fun r => { r with has_crystal := true }) g.rooms)).map Room.has_crystal =
        (lookupA x g.rooms).map Room.has_crystal
      rw [lookupA_updA, if_neg hx]
  · intro o g pid rn p room hp hrole him hph hr hlock hq hc hcs
    rw [handle_select_room_normalSurvivor o pid rn g p hp hrole him hph,
      normalSelect_open o pid rn g room hr hlock]
    have hpre := preView_preQuest pid rn g
    unfold preView at hpre
    simp only [Prod.mk.injEq] at hpre
    obtain ⟨hA1, hA2, hA3, hA4, hA5⟩ := hpre
    rw [hp] at hA1
    rw [hr] at hA2
    simp only [Option.map_some'] at hA1 hA2
    obtain ⟨p2, hp2, hp2e⟩ := Option.map_eq_some'.mp hA1
    obtain ⟨room2, hroom2, hroom2e⟩ := Option.map_eq_some'.mp hA2
    simp only [Prod.mk.injEq] at hp2e hroom2e
    obtain ⟨hp2r, hp2c⟩ := hp2e
    obtain ⟨hr2q, hr2c⟩ := hroom2e
    have hrole2 : p2.role = "survivor" := hp2r.trans hrole
    have hq2 : room2.has_quest = false := hr2q.trans hq
    have hcv := crysView_preQuest pid rn g
    unfold crysView at hcv
    simp only [Prod.mk.injEq] at hcv
    obtain ⟨hB1, hB2, hB3, hB4, hB5⟩ := hcv
    rw [hr] at hB1
    simp only [Option.map_some'] at hB1
    rw [hroom2] at hB1
    simp only [Option.map_some', Option.some.injEq] at hB1
    have hc2 : room2.has_crystal = true := hB1.trans hc
    have hcs2 : (preQuest pid rn g).crystal_spawned = true := hB2.trans hcs
    have hpipe : selPipeline o pid rn g =
        mimicStep pid rn (goldStep o pid rn (questCrystalStep o pid rn (preQuest pid rn g))) :=
      rfl
    have hfire : questCrystalStep o pid rn (preQuest pid rn g) =
        crystalStep rn (questStep o pid rn (preQuest pid rn g)) :=
      questCrystalStep_fires o pid rn (preQuest pid rn g) p2 hp2 hrole2
    have hqskip := questStep_noquest o pid rn (preQuest pid rn g) p2 room2 hp2 hroom2 hq2
    have hcf := crystalStep_fires rn
      { preQuest pid rn g with events := (preQuest pid rn g).events ++ ["search_no_quest"] }
      room2 hroom2 hc2 hcs2
    have hvals : crysView rn (crystalStep rn (questStep o pid rn (preQuest pid rn g))) =
        (some false, (preQuest pid rn g).crystal_spawned, "game_over", some ("survivors"),
          true) := by
      rw [hqskip, hcf]
      unfold crysView
      refine Prod.ext ?_ rfl
      show (lookupA rn (updA rn (fun r => { r with has_crystal := false })
          (preQuest pid rn g).rooms)).map Room.has_crystal = some false
      rw [lookupA_updA, if_pos rfl, hroom2]
      rfl
    have hfinal : crysView rn (selPipeline o pid rn g) =
        (some false, (preQuest pid rn g).crystal_spawned, "game_over", some ("survivors"),
          true) := by
      rw [hpipe, crysView_mimicStep, crysView_goldStep, hfire]
      exact hvals
    unfold crysView at hfinal
    simp only [Prod.mk.injEq] at hfinal
    obtain ⟨hx1, hx2, hx3, hx4, hx5⟩ := hfinal
    rw [phaseAdvance_gameOver o (selPipeline o pid rn g) hx3]
    exact ⟨hx3, hx4, hx5, hx1⟩

def gW2a : Game :=
  { baseGame with
    players := [("s1", pS1), ("k1", pK1)],
    rooms := [("A", baseRoom), ("B", baseRoom)] }

def rCryst : Room := { baseRoom with has_crystal := true }

def gW2b : Game :=
  { baseGame with
    players := [("s1", pS1), ("k1", pK1)],
    rooms := [("A", rCryst), ("B", baseRoom)],
    crystal_spawned := true }

/-- C2 witness: the amended theorem applied to concrete spawn and
destruction scenarios. -/
theorem C2_amended_witness :
    ((stageCrystalSpawn headOracle 1 gW2a).crystal_spawned = true ∧
     (stageCrystalSpawn headOracle 1 gW2a).phase = gW2a.phase ∧
     (lookupA (headOracle.pick (availForCrystal gW2a))
       (stageCrystalSpawn headOracle 1 gW2a).rooms).map Room.has_crystal = some true) ∧
    ((handle_select_room headOracle ("s1") ("A") gW2b).phase = "game_over" ∧
     (handle_select_room headOracle ("s1") ("A") gW2b).winner = some ("survivors")) := by
  have hA := C2_amended.1 headOracle 1 gW2a (by decide) (by decide) (by decide) (by decide)
  have hB := C2_amended.2 headOracle gW2b ("s1") ("A") pS1 rCryst (by decide) (by decide)
    (by decide) (by decide) (by decide) (by decide) (by decide) (by decide) (by decide)
  exact ⟨⟨hA.1, hA.2.1, hA.2.2.2.2.1⟩, hB.1, hB.2.1⟩


/-! ### Claim C4 -/

theorem mem_of_lookupA {α : Type} {k : String} {v : α} {l : List (String × α)}
    (h : lookupA k l = some v) : (k, v) ∈ l := by
  induction l with
  | nil => simp [lookupA] at h
  | cons p t ih =>
    unfold lookupA at h
    by_cases hp : p.1 = k
    · rw [if_pos hp] at h
      have hv := Option.some.inj h
      have he : (k, v) = p := Prod.ext hp.symm hv.symm
      rw [he]
      exact List.mem_cons_self p t
    · rw [if_neg hp] at h
      exact List.mem_cons_of_mem p (ih h)

/-- C4: the two killer-phase gates.  (1) the power-selection completeness
predicate holds exactly when every living killer has a selection entry that
is action-complete; (2)-(3) check_power_selection_complete is the identity
while incomplete, and moves the phase to killer_selection exactly when
complete; (4)-(5) the two power handlers either leave the phase unchanged
or advance it through that same gate, with the post-update state complete;
(6)-(7) the killer_selection gate is the identity while the selected count
lags the living-killer count, and runs the turn as phase processing exactly
when the counts match; (8) with well-formed key lists and no eliminated
killers, the count gate holds exactly when every living killer has a
pending room selection. -/
theorem C4_phase_gates :
    (∀ g : Game, powerSelectionComplete g = true ↔
      ∀ kp ∈ aliveKillers g, ∃ sel, lookupA kp.2.id g.pending_power_selections = some sel ∧
        sel.action_complete = true) ∧
    (∀ (o : Oracle) (g : Game), powerSelectionComplete g = false →
      check_power_selection_complete o g = g) ∧
    (∀ (o : Oracle) (g : Game), powerSelectionComplete g = true →
      (check_power_selection_complete o g).phase = "killer_selection") ∧
    (∀ (o : Oracle) (pid pw : String) (g : Game),
      (handle_select_power o pid pw g).phase = g.phase ∨
      (g.phase = "killer_power_selection" ∧
        (handle_select_power o pid pw g).phase = "killer_selection" ∧
        powerSelectionComplete (updSel pid (fun s => { s with action_complete := true })
          (updSel pid (fun s => { s with selected_power := some pw }) g)) = true)) ∧
    (∀ (o : Oracle) (pid : String) (ad : ActionData) (g : Game),
      (handle_power_action o pid ad g).phase = g.phase ∨
      (g.phase = "killer_power_selection" ∧
        (handle_power_action o pid ad g).phase = "killer_selection" ∧
        powerSelectionComplete (updSel pid
          (fun s => { s with action_data := some ad, action_complete := true }) g) = true)) ∧
    (∀ (o : Oracle) (g : Game), killersSelectionComplete g = false →
      killerSelectionAdvance o g = g) ∧
    (∀ (o : Oracle) (g : Game), killersSelectionComplete g = true →
      killerSelectionAdvance o g = process_turn o { g with phase := "processing" }) ∧
    (∀ g : Game, (g.pending_actions.map Prod.fst).Nodup →
      (g.players.map Prod.fst).Nodup →
      (∀ kp ∈ g.players, kp.2.role = "killer" → kp.2.eliminated = false) →
      (killersSelectionComplete g = true ↔
        ∀ kp ∈ aliveKillers g, (lookupA kp.1 g.pending_actions).isSome = true)) := by
  refine ⟨?_, ?_, ?_, ?_, ?_, ?_, ?_, ?_⟩
  · intro g
    unfold powerSelectionComplete
    rw [List.all_eq_true]
    constructor
    · intro h kp hkp
      have h2 := h kp hkp
      revert h2
      cases hsel : lookupA kp.2.id g.pending_power_selections with
      | none => simp
      | some sel =>
        intro h2
        exact ⟨sel, rfl, h2⟩
    · intro h kp hkp
      obtain ⟨sel, hsel, hc⟩ := h kp hkp
      simp only [hsel]
      exact hc
  · intro o g h
    unfold check_power_selection_complete
    rw [if_neg (by simp [h])]
  · intro o g h
    unfold check_power_selection_complete
    rw [if_pos h]
  · intro o pid pw g
    unfold handle_select_power
    cases hpl : lookupA pid g.players with
    | none => exact Or.inl rfl
    | some player =>
      try dsimp only
      by_cases hg1 : player.role ≠ "killer" ∨ g.phase ≠ "killer_power_selection"
      · rw [if_pos hg1]
        exact Or.inl rfl
      · rw [if_neg hg1]
        push_neg at hg1
        cases hps : lookupA pid g.pending_power_selections with
        | none => exact Or.inl rfl
        | some sel =>
          try dsimp only
          by_cases ho : ¬ pw ∈ sel.options
          · rw [if_pos ho]
            exact Or.inl rfl
          · rw [if_neg ho]
            try dsimp only
            by_cases hra : powerRequiresAction pw = true
            · rw [if_pos hra]
              exact Or.inl rfl
            · rw [if_neg hra]
              by_cases hC : powerSelectionComplete (updSel pid
                  (fun s => { s with action_complete := true })
                  (updSel pid (fun s => { s with selected_power := some pw }) g)) = true
              · refine Or.inr ⟨hg1.2, ?_, hC⟩
                unfold check_power_selection_complete
                rw [if_pos hC]
              · left
                unfold check_power_selection_complete
                rw [if_neg hC]
                rfl
  · intro o pid ad g
    unfold handle_power_action
    cases hpl : lookupA pid g.players with
    | none => exact Or.inl rfl
    | some player =>
      try dsimp only
      by_cases hg1 : player.role ≠ "killer" ∨ g.phase ≠ "killer_power_selection"
      · rw [if_pos hg1]
        exact Or.inl rfl
      · rw [if_neg hg1]
        push_neg at hg1
        cases hps : lookupA pid g.pending_power_selections with
        | none => exact Or.inl rfl
        | some sel =>
          try dsimp only
          by_cases hsp : sel.selected_power.isNone = true
          · rw [if_pos hsp]
            exact Or.inl rfl
          · rw [if_neg hsp]
            by_cases hC : powerSelectionComplete (updSel pid
                (fun s => { s with action_data := some ad, action_complete := true }) g) = true
            · refine Or.inr ⟨hg1.2, ?_, hC⟩
              unfold check_power_selection_complete
              rw [if_pos hC]
            · left
              unfold check_power_selection_complete
              rw [if_neg hC]
              rfl
  · intro o g h
    unfold killerSelectionAdvance
    rw [if_neg (by simp [h])]
  · intro o g h
    unfold killerSelectionAdvance
    rw [if_pos h]
  · intro g hPA hPl hKill
    unfold killersSelectionComplete
    have hSnodup : (killersSelected g).Nodup :=
      List.Nodup.sublist (List.Sublist.map Prod.fst (List.filter_sublist g.pending_actions)) hPA
    have hKnodup : ((aliveKillers g).map Prod.fst).Nodup :=
      List.Nodup.sublist (List.Sublist.map Prod.fst (List.filter_sublist g.players)) hPl
    have hSsub : killersSelected g ⊆ (aliveKillers g).map Prod.fst := by
      intro x hx
      unfold killersSelected at hx
      obtain ⟨pa, hpa, hpax⟩ := List.mem_map.mp hx
      have hmem := List.mem_filter.mp hpa
      obtain ⟨hpamem, hpapred⟩ := hmem
      revert hpapred
      cases hlp : lookupA pa.1 g.players with
      | none => simp
      | some p =>
        intro hpapred
        have hrole : p.role = "killer" := by simpa using hpapred
        have hpmem := mem_of_lookupA hlp
        have helim := hKill (pa.1, p) hpmem hrole
        refine List.mem_map.mpr ⟨(pa.1, p), ?_, hpax⟩
        refine List.mem_filter.mpr ⟨hpmem, ?_⟩
        simp only [decide_eq_true_eq]
        exact ⟨hrole, helim⟩
    constructor
    · intro hlen kp hkp
      have hlen2 := of_decide_eq_true hlen
      have hperm : List.Perm (killersSelected g) ((aliveKillers g).map Prod.fst) := by
        refine List.Subperm.perm_of_length_le (List.Nodup.subperm hSnodup hSsub) ?_
        rw [hlen2, List.length_map]
      have hxK : kp.1 ∈ (aliveKillers g).map Prod.fst := List.mem_map.mpr ⟨kp, hkp, rfl⟩
      have hxS : kp.1 ∈ killersSelected g := hperm.mem_iff.mpr hxK
      unfold killersSelected at hxS
      obtain ⟨pa, hpa, hpax⟩ := List.mem_map.mp hxS
      have hpamem := (List.mem_filter.mp hpa).1
      rw [← hpax]
      obtain ⟨pa1, pa2⟩ := pa
      exact lookupA_isSome_of_mem hpamem
    · intro hall
      have hKsub : (aliveKillers g).map Prod.fst ⊆ killersSelected g := by
        intro x hx
        obtain ⟨kp, hkp, hkpx⟩ := List.mem_map.mp hx
        have hsome := hall kp hkp
        obtain ⟨v, hv⟩ := Option.isSome_iff_exists.mp hsome
        have hvmem := mem_of_lookupA hv
        have hka := List.mem_filter.mp hkp
        have hlpk : lookupA kp.1 g.players = some kp.2 := by
          obtain ⟨k1, k2⟩ := kp
          exact lookupA_of_mem_nodup k1 k2 g.players hka.1 hPl
        have hrole : kp.2.role = "killer" := by
          have := hka.2
          simp only [decide_eq_true_eq] at this
          exact this.1
        refine List.mem_map.mpr ⟨(kp.1, v), ?_, hkpx⟩
        refine List.mem_filter.mpr ⟨hvmem, ?_⟩
        simp only [hlpk]
        simpa using hrole
      have h1 := List.Subperm.length_le (List.Nodup.subperm hSnodup hSsub)
      have h2 := List.Subperm.length_le (List.Nodup.subperm hKnodup hKsub)
      have : (killersSelected g).length = (aliveKillers g).length := by
        rw [List.length_map] at h1 h2
        omega
      exact decide_eq_true this


def selDone : PowerSelection :=
  { options := ["vision"], selected_power := some ("vision"), action_data := none,
    action_complete := true }

def gW4 : Game :=
  { baseGame with
    phase := "killer_power_selection",
    players := [("s1", pS1), ("k1", pK1)],
    rooms := [("A", baseRoom), ("B", baseRoom)],
    pending_power_selections := [("k1", selDone)] }

def gW4b : Game :=
  { baseGame with
    phase := "killer_selection",
    players := [("s1", pS1), ("k1", pK1)],
    rooms := [("A", baseRoom), ("B", baseRoom)] }

def gW4c : Game :=
  { baseGame with
    phase := "killer_power_selection",
    players := [("s1", pS1), ("k1", pK1)],
    rooms := [("A", baseRoom), ("B", baseRoom)] }

def gW4d : Game :=
  { baseGame with
    phase := "killer_selection",
    players := [("s1", pS1), ("k1", pK1)],
    rooms := [("A", baseRoom), ("B", baseRoom)],
    pending_actions := [("k1", "A")] }

/-- C4 witness: the gates applied to concrete complete and incomplete
states. -/
theorem C4_phase_gates_witness :
    (check_power_selection_complete headOracle gW4).phase = "killer_selection" ∧
    check_power_selection_complete headOracle gW4c = gW4c ∧
    killerSelectionAdvance headOracle gW4b = gW4b ∧
    killerSelectionAdvance headOracle gW4d =
      process_turn headOracle { gW4d with phase := "processing" } ∧
    (killersSelectionComplete gW4d = true ↔
      ∀ kp ∈ aliveKillers gW4d, (lookupA kp.1 gW4d.pending_actions).isSome = true) := by
  refine ⟨C4_phase_gates.2.2.1 headOracle gW4 (by decide),
    C4_phase_gates.2.1 headOracle gW4c (by decide),
    C4_phase_gates.2.2.2.2.2.1 headOracle gW4b (by decide),
    C4_phase_gates.2.2.2.2.2.2.1 headOracle gW4d (by decide),
    C4_phase_gates.2.2.2.2.2.2.2 gW4d (by decide) (by decide) (by decide)⟩


/-! ### Claim C7 -/

def gC7 : Game :=
  { baseGame with
    phase := "processing",
    players := [("s1", pS1), ("k1", pK1)],
    rooms := [("A", rQMage), ("B", baseRoom), ("C", baseRoom)],
    pending_actions := [("s1", "B"), ("k1", "C")],
    quests := [{ qclass := "Mage", player_id := "s1", player_name := "s1" }],
    active_quest := some { qclass := "Mage", room := "A", player_id := "s1", player_name := "s1" },
    active_powers := { emptyActivePowers with secousse := some true } }

/-- C7: the relocate-on-miss power is dead code.  (1) whenever no room
carries the legacy has_key flag, the secousse stage of turn processing is
the identity; and the flag is unreachable: it is only ever set by
place_next_key, which runs only under should_place_next_key, which no code
path ever sets.  (2) concretely, a full processed turn with secousse active
and no objective obtained leaves the actual objective marker (the quest in
room A) untouched and emits no relocation event — turn processing never
relocates the pickup, contradicting the claimed behaviour. -/
theorem C7_secousse_dead :
    (∀ (o : Oracle) (g : Game), g.rooms.all (fun nr => nr.2.has_key = false) = true →
      stageSecousse o g = g) ∧
    ((lookupA ("A") (process_turn headOracle gC7).rooms).map
        (fun r => (r.has_quest, r.quest_class, r.has_key)) = some (true, some ("Mage"), false) ∧
      (process_turn headOracle gC7).events.count "key_relocated" = 0) := by
  constructor
  · intro o g h
    unfold stageSecousse
    split
    · have hf : g.rooms.find? (fun nr => nr.2.has_key) = none := by
        rw [List.find?_eq_none]
        intro x hx
        have h2 := List.all_eq_true.mp h x hx
        simp only [decide_eq_true_eq] at h2
        simp [h2]
      rw [hf]
      rfl
    · rfl
  · refine ⟨?_, ?_⟩ <;> decide

/-- C7 witness: on the concrete state the board carries no legacy key and
the secousse stage is indeed the identity. -/
theorem C7_secousse_dead_witness :
    gC7.rooms.all (fun nr => nr.2.has_key = false) = true ∧
    stageSecousse headOracle gC7 = gC7 :=
  ⟨by decide, C7_secousse_dead.1 headOracle gC7 (by decide)⟩


/-! ### Claim C8 -/

def gC8 : Game :=
  { baseGame with
    phase := "killer_power_selection",
    players := [("s1", pS1im), ("k1", pK1)],
    rooms := [("A", baseRoom)] }

/-- C8, counterexample: during killer_power_selection — a phase in which no
survivor room selection should be processed — the immobilized survivor s1
passes on their current room and the shared state mutates: the
immobilization flag is consumed and a pending action is recorded.  The
branch of lines 1727-1767 runs before any phase check, refuting the claim
that out-of-phase actions leave the shared state unchanged. -/
theorem C8_counterexample :
    gC8.phase = "killer_power_selection" ∧
    (lookupA ("s1") (handle_select_room headOracle ("s1") ("A") gC8).players).map
      Player.immobilized_next_turn = some false ∧
    lookupA ("s1") (handle_select_room headOracle ("s1") ("A") gC8).pending_actions =
      some ("A") ∧
    handle_select_room headOracle ("s1") ("A") gC8 ≠ gC8 := by
  decide

/-- C8 (amended): every rejection path of the four client-action handlers
leaves the shared state unchanged — select_room for an unknown player, an
immobilized survivor naming a room other than their own, a survivor out of
phase, a killer out of phase, an unknown or locked room named by an
in-phase survivor, by an in-phase killer, or by a rage-granted killer in
the rage sub-phase, or a rage selection without a second chance;
select_power and power_action for a non-killer, out of phase, without a
dealt selection, with an option not offered, or without a selected power;
use_medikit for a non-survivor, without the item, for an unknown,
non-eliminated or non-co-located target.  The correction: an immobilized
survivor PASSING on their own room is accepted in any phase and mutates
the state (the counterexample), so the claim holds only for the rejection
paths listed here. -/
theorem C8_amended :
    ((∀ (o : Oracle) (pid rn : String) (g : Game),
        lookupA pid g.players = none → handle_select_room o pid rn g = g) ∧
     (∀ (o : Oracle) (pid rn : String) (g : Game) (p : Player),
        lookupA pid g.players = some p → p.role = "survivor" →
        p.immobilized_next_turn = true → p.current_room ≠ some rn →
        handle_select_room o pid rn g = g) ∧
     (∀ (o : Oracle) (pid rn : String) (g : Game) (p : Player),
        lookupA pid g.players = some p → p.role = "survivor" →
        p.immobilized_next_turn = false → g.phase ≠ "survivor_selection" →
        handle_select_room o pid rn g = g) ∧
     (∀ (o : Oracle) (pid rn : String) (g : Game) (p : Player),
        lookupA pid g.players = some p → p.role = "killer" →
        g.phase ≠ "killer_selection" → g.phase ≠ "rage_second_selection" →
        handle_select_room o pid rn g = g) ∧
     (∀ (o : Oracle) (pid rn : String) (g : Game) (p : Player),
        lookupA pid g.players = some p → p.role = "survivor" →
        p.immobilized_next_turn = false → g.phase = "survivor_selection" →
        lookupA rn g.rooms = none → handle_select_room o pid rn g = g) ∧
     (∀ (o : Oracle) (pid rn : String) (g : Game) (p : Player) (room : Room),
        lookupA pid g.players = some p → p.role = "survivor" →
        p.immobilized_next_turn = false → g.phase = "survivor_selection" →
        lookupA rn g.rooms = some room → room.locked = true →
        handle_select_room o pid rn g = g) ∧
     (∀ (o : Oracle) (pid rn : String) (g : Game) (p : Player),
        lookupA pid g.players = some p → p.role = "killer" →
        g.phase = "rage_second_selection" → lookupA pid g.rage_second_chances = none →
        handle_select_room o pid rn g = g) ∧
     (∀ (o : Oracle) (pid rn : String) (g : Game) (p : Player),
        lookupA pid g.players = some p → p.role = "killer" →
        g.phase = "killer_selection" → lookupA rn g.rooms = none →
        handle_select_room o pid rn g = g) ∧
     (∀ (o : Oracle) (pid rn : String) (g : Game) (p : Player) (room : Room),
        lookupA pid g.players = some p → p.role = "killer" →
        g.phase = "killer_selection" → lookupA rn g.rooms = some room →
        room.locked = true → handle_select_room o pid rn g = g) ∧
     (∀ (o : Oracle) (pid rn : String) (g : Game) (p : Player) (rc : RageChance),
        lookupA pid g.players = some p → p.role = "killer" →
        g.phase = "rage_second_selection" → lookupA pid g.rage_second_chances = some rc →
        lookupA rn g.rooms = none → handle_select_room o pid rn g = g) ∧
     (∀ (o : Oracle) (pid rn : String) (g : Game) (p : Player) (rc : RageChance)
        (room : Room),
        lookupA pid g.players = some p → p.role = "killer" →
        g.phase = "rage_second_selection" → lookupA pid g.rage_second_chances = some rc →
        lookupA rn g.rooms = some room → room.locked = true →
        handle_select_room o pid rn g = g)) ∧
    ((∀ (o : Oracle) (pid pw : String) (g : Game),
        lookupA pid g.players = none → handle_select_power o pid pw g = g) ∧
     (∀ (o : Oracle) (pid pw : String) (g : Game) (player : Player),
        lookupA pid g.players = some player →
        (player.role ≠ "killer" ∨ g.phase ≠ "killer_power_selection") →
        handle_select_power o pid pw g = g) ∧
     (∀ (o : Oracle) (pid pw : String) (g : Game) (player : Player),
        lookupA pid g.players = some player →
        lookupA pid g.pending_power_selections = none →
        handle_select_power o pid pw g = g) ∧
     (∀ (o : Oracle) (pid pw : String) (g : Game) (player : Player) (sel : PowerSelection),
        lookupA pid g.players = some player →
        lookupA pid g.pending_power_selections = some sel → ¬ pw ∈ sel.options →
        handle_select_power o pid pw g = g)) ∧
    ((∀ (o : Oracle) (pid : String) (ad : ActionData) (g : Game),
        lookupA pid g.players = none → handle_power_action o pid ad g = g) ∧
     (∀ (o : Oracle) (pid : String) (ad : ActionData) (g : Game) (player : Player),
        lookupA pid g.players = some player →
        (player.role ≠ "killer" ∨ g.phase ≠ "killer_power_selection") →
        handle_power_action o pid ad g = g) ∧
     (∀ (o : Oracle) (pid : String) (ad : ActionData) (g : Game) (player : Player),
        lookupA pid g.players = some player →
        lookupA pid g.pending_power_selections = none →
        handle_power_action o pid ad g = g) ∧
     (∀ (o : Oracle) (pid : String) (ad : ActionData) (g : Game) (player : Player)
        (sel : PowerSelection),
        lookupA pid g.players = some player →
        lookupA pid g.pending_power_selections = some sel → sel.selected_power = none →
        handle_power_action o pid ad g = g)) ∧
    ((∀ (o : Oracle) (pid tid : String) (g : Game),
        lookupA pid g.players = none → handle_use_medikit o pid tid g = g) ∧
     (∀ (o : Oracle) (pid tid : String) (g : Game) (player : Player),
        lookupA pid g.players = some player → player.role ≠ "survivor" →
        handle_use_medikit o pid tid g = g) ∧
     (∀ (o : Oracle) (pid tid : String) (g : Game) (player : Player),
        lookupA pid g.players = some player → player.role = "survivor" →
        player.has_medikit = false → handle_use_medikit o pid tid g = g) ∧
     (∀ (o : Oracle) (pid tid : String) (g : Game) (player : Player),
        lookupA pid g.players = some player → player.role = "survivor" →
        player.has_medikit = true → lookupA tid g.players = none →
        handle_use_medikit o pid tid g = g) ∧
     (∀ (o : Oracle) (pid tid : String) (g : Game) (player target : Player),
        lookupA pid g.players = some player → player.role = "survivor" →
        player.has_medikit = true → lookupA tid g.players = some target →
        target.eliminated = false → handle_use_medikit o pid tid g = g) ∧
     (∀ (o : Oracle) (pid tid : String) (g : Game) (player target : Player),
        lookupA pid g.players = some player → player.role = "survivor" →
        player.has_medikit = true → lookupA tid g.players = some target →
        target.eliminated = true → target.current_room ≠ player.current_room →
        handle_use_medikit o pid tid g = g)) := by
  refine ⟨⟨?_, ?_, ?_, ?_, ?_, ?_, ?_, ?_, ?_, ?_, ?_⟩, ⟨?_, ?_, ?_, ?_⟩,
    ⟨?_, ?_, ?_, ?_⟩, ⟨?_, ?_, ?_, ?_, ?_, ?_⟩⟩
  · intro o pid rn g h
    unfold handle_select_room
    simp only [h]
  · intro o pid rn g p hp hrole him hcur
    unfold handle_select_room
    simp only [hp]
    rw [if_pos ⟨hrole, him⟩, if_pos hcur]
  · intro o pid rn g p hp hrole him hph
    unfold handle_select_room
    simp only [hp]
    rw [if_neg (by simp [him]), if_pos ⟨hrole, hph⟩]
  · intro o pid rn g p hp hrole hph1 hph2
    unfold handle_select_room
    simp only [hp]
    rw [if_neg (by simp [hrole]), if_neg (by simp [hrole]), if_pos ⟨hrole, hph1, hph2⟩]
  · intro o pid rn g p hp hrole him hph hr
    rw [handle_select_room_normalSurvivor o pid rn g p hp hrole him hph]
    unfold normalSelect
    simp only [hr]
  · intro o pid rn g p room hp hrole him hph hr hlock
    rw [handle_select_room_normalSurvivor o pid rn g p hp hrole him hph]
    unfold normalSelect
    simp only [hr]
    rw [if_pos hlock]
  · intro o pid rn g p hp hrole hph hrc
    unfold handle_select_room
    simp only [hp]
    rw [if_neg (by simp [hrole]), if_neg (by simp [hrole]),
      if_neg (by simp [hph]), if_pos hph]
    simp only [hrc]
  · intro o pid rn g p hp hrole hph hr
    unfold handle_select_room
    simp only [hp]
    rw [if_neg (by simp [hrole]), if_neg (by simp [hrole]),
      if_neg (by simp [hph]), if_neg (by rw [hph]; decide)]
    unfold normalSelect
    simp only [hr]
  · intro o pid rn g p room hp hrole hph hr hlock
    unfold handle_select_room
    simp only [hp]
    rw [if_neg (by simp [hrole]), if_neg (by simp [hrole]),
      if_neg (by simp [hph]), if_neg (by rw [hph]; decide)]
    unfold normalSelect
    simp only [hr]
    rw [if_pos hlock]
  · intro o pid rn g p rc hp hrole hph hrc hr
    unfold handle_select_room
    simp only [hp]
    rw [if_neg (by simp [hrole]), if_neg (by simp [hrole]),
      if_neg (by simp [hph]), if_pos hph]
    simp only [hrc]
    simp only [hr]
  · intro o pid rn g p rc room hp hrole hph hrc hr hlock
    unfold handle_select_room
    simp only [hp]
    rw [if_neg (by simp [hrole]), if_neg (by simp [hrole]),
      if_neg (by simp [hph]), if_pos hph]
    simp only [hrc]
    simp only [hr]
    rw [if_neg (by simp [hlock])]
  · intro o pid pw g h
    unfold handle_select_power
    simp only [h]
  · intro o pid pw g player hp hg
    unfold handle_select_power
    simp only [hp]
    rw [if_pos hg]
  · intro o pid pw g player hp hps
    unfold handle_select_power
    simp only [hp]
    split
    · rfl
    · simp only [hps]
  · intro o pid pw g player sel hp hps ho
    unfold handle_select_power
    simp only [hp]
    split
    · rfl
    · simp only [hps]
      rw [if_pos ho]
  · intro o pid ad g h
    unfold handle_power_action
    simp only [h]
  · intro o pid ad g player hp hg
    unfold handle_power_action
    simp only [hp]
    rw [if_pos hg]
  · intro o pid ad g player hp hps
    unfold handle_power_action
    simp only [hp]
    split
    · rfl
    · simp only [hps]
  · intro o pid ad g player sel hp hps hsp
    unfold handle_power_action
    simp only [hp]
    split
    · rfl
    · simp only [hps]
      rw [if_pos (by simp [hsp])]
  · intro o pid tid g h
    unfold handle_use_medikit
    simp only [h]
  · intro o pid tid g player hp hrole
    unfold handle_use_medikit
    simp only [hp]
    rw [if_pos hrole]
  · intro o pid tid g player hp hrole hmed
    unfold handle_use_medikit
    simp only [hp]
    rw [if_neg (by simp [hrole]), if_pos hmed]
  · intro o pid tid g player hp hrole hmed htid
    unfold handle_use_medikit
    simp only [hp]
    rw [if_neg (by simp [hrole]), if_neg (by simp [hmed])]
    simp only [htid]
  · intro o pid tid g player target hp hrole hmed htid helim
    unfold handle_use_medikit
    simp only [hp]
    rw [if_neg (by simp [hrole]), if_neg (by simp [hmed])]
    simp only [htid]
    rw [if_pos helim]
  · intro o pid tid g player target hp hrole hmed htid helim hroom
    unfold handle_use_medikit
    simp only [hp]
    rw [if_neg (by simp [hrole]), if_neg (by simp [hmed])]
    simp only [htid]
    rw [if_neg (by simp [helim]), if_pos hroom]

def gW8 : Game :=
  { baseGame with
    phase := "waiting",
    players := [("s1", pS1)],
    rooms := [("A", baseRoom)] }

def rLock : Room := { baseRoom with locked := true }

def gW8b : Game :=
  { baseGame with
    phase := "killer_selection",
    players := [("s1", pS1), ("k1", pK1)],
    rooms := [("A", baseRoom), ("L", rLock)] }

def gW8c : Game :=
  { baseGame with
    phase := "rage_second_selection",
    players := [("s1", pS1), ("k1", pK1)],
    rooms := [("A", baseRoom), ("L", rLock)],
    rage_second_chances := [("k1", { can_select := true, room_selected := none })] }

/-- C8 witness: rejection paths applied at concrete states — a survivor
selecting out of phase, a non-killer selecting a power, a survivor without
the item using it, the immobilized survivor naming a room other than their
own, and a killer (plain and rage-granted) naming an unknown or locked
room. -/
theorem C8_amended_witness :
    handle_select_room headOracle ("s1") ("A") gW8 = gW8 ∧
    handle_select_power headOracle ("s1") ("vision") gW8 = gW8 ∧
    handle_use_medikit headOracle ("s1") ("s1") gW8 = gW8 ∧
    handle_select_room headOracle ("s1") ("B") gC8 = gC8 ∧
    handle_select_room headOracle ("k1") ("X") gW8b = gW8b ∧
    handle_select_room headOracle ("k1") ("L") gW8b = gW8b ∧
    handle_select_room headOracle ("k1") ("X") gW8c = gW8c ∧
    handle_select_room headOracle ("k1") ("L") gW8c = gW8c := by
  refine ⟨C8_amended.1.2.2.1 headOracle ("s1") ("A") gW8 pS1 (by decide) (by decide)
      (by decide) (by decide),
    C8_amended.2.1.2.1 headOracle ("s1") ("vision") gW8 pS1 (by decide) (by decide),
    C8_amended.2.2.2.2.2.1 headOracle ("s1") ("s1") gW8 pS1 (by decide) (by decide)
      (by decide),
    C8_amended.1.2.1 headOracle ("s1") ("B") gC8 pS1im (by decide) (by decide) (by decide)
      (by decide),
    C8_amended.1.2.2.2.2.2.2.2.1 headOracle ("k1") ("X") gW8b pK1 (by decide) (by decide)
      (by decide) (by decide),
    C8_amended.1.2.2.2.2.2.2.2.2.1 headOracle ("k1") ("L") gW8b pK1 rLock (by decide)
      (by decide) (by decide) (by decide) (by decide),
    C8_amended.1.2.2.2.2.2.2.2.2.2.1 headOracle ("k1") ("X") gW8c pK1
      { can_select := true, room_selected := none } (by decide) (by decide) (by decide)
      (by decide) (by decide),
    C8_amended.1.2.2.2.2.2.2.2.2.2.2 headOracle ("k1") ("L") gW8c pK1
      { can_select := true, room_selected := none } rLock (by decide) (by decide)
      (by decide) (by decide) (by decide) (by decide)⟩


/-! ### Claim C10 -/

/-- The revival observation: a player's eliminated flag together with their
personal poison countdown. -/
def projEC (p : Player) : Bool × Nat := (p.eliminated, p.poisoned_countdown)

theorem respawn_medikit_players (o : Oracle) (g : Game) :
    (respawn_medikit o g).2.players = g.players := by
  unfold respawn_medikit
  dsimp only
  split
  · rfl
  · rfl

/-- The medikit-pickup prefix of the survivor interaction (lines 795-803). -/
def survPickup (pa : String × String) (room : Room) (g : Game) : Game :=
  if room.has_medikit then
    let g := updRoom pa.2 (fun r => { r with has_medikit := false }) g
    let g := updPlayer pa.1 (fun p => { p with has_medikit := true }) g
    { g with events := g.events ++ ["medikit_found"] }
  else g

/-- The revival tail of the survivor interaction (lines 805-824). -/
def survRevive (o : Oracle) (pa : String × String) (g : Game) : Game :=
  match lookupA pa.1 g.players, lookupA pa.2 g.rooms with
  | some p, some room =>
    if p.has_medikit = true ∧ room.eliminated_players ≠ [] then
      match room.eliminated_players with
      | [] => g
      | tid :: _ =>
        match lookupA tid g.players with
        | some tp =>
          if tp.eliminated then
            let g := updPlayer tid (fun q =>
              { q with eliminated := false, poisoned_countdown := 0 }) g
            let g := updPlayer pa.1 (fun q => { q with has_medikit := false }) g
            let g := updRoom pa.2 (fun r =>
              { r with eliminated_players := r.eliminated_players.erase tid }) g
            let g := { g with events := g.events ++ ["revival"] }
            let pr := respawn_medikit o g
            match pr.1 with
            | some _ => { pr.2 with events := pr.2.events ++ ["medikit_respawn"] }
            | none => pr.2
          else g
        | none => g
    else g
  | _, _ => g

theorem survInteractOne_decomp (o : Oracle) (g : Game) (pa : String × String) :
    survInteractOne o g pa =
      match lookupA pa.1 g.players, lookupA pa.2 g.rooms with
      | some _, some room => survRevive o pa (survPickup pa room g)
      | _, _ => g := rfl

theorem survPickup_projEC (pa : String × String) (room : Room) (g : Game) (y : String) :
    (lookupA y (survPickup pa room g).players).map projEC =
      (lookupA y g.players).map projEC := by
  unfold survPickup
  split
  · show (lookupA y (updPlayer pa.1 (fun p => { p with has_medikit := true })
        (updRoom pa.2 (fun r => { r with has_medikit := false }) g)).players).map projEC =
      (lookupA y g.players).map projEC
    rw [lookupA_updPlayer_proj projEC y pa.1 (fun p => { p with has_medikit := true })
      (fun p => rfl)]
    rfl
  · rfl

theorem survRevive_projEC (o : Oracle) (pa : String × String) (x : String) (g : Game) :
    (lookupA x (survRevive o pa g).players).map projEC =
      (lookupA x g.players).map projEC ∨
    (lookupA x (survRevive o pa g).players).map projEC = some (false, 0) := by
  unfold survRevive
  cases hp1 : lookupA pa.1 g.players with
  | none => exact Or.inl rfl
  | some p =>
    cases hr1 : lookupA pa.2 g.rooms with
    | none => exact Or.inl rfl
    | some room =>
      try dsimp only
      by_cases hguard : p.has_medikit = true ∧ room.eliminated_players ≠ []
      · rw [if_pos hguard]
        cases hel : room.eliminated_players with
        | nil => exact Or.inl rfl
        | cons tid rest =>
          try dsimp only
          cases htp : lookupA tid g.players with
          | none => exact Or.inl rfl
          | some tp =>
            try dsimp only
            by_cases helim : tp.eliminated = true
            · rw [if_pos helim]
              try dsimp only
              split
              · try dsimp only
                rw [respawn_medikit_players]
                simp only [updRoom, updPlayer]
                by_cases hx : x = tid
                · refine Or.inr ?_
                  by_cases hx1 : x = pa.1
                  · have h2 : pa.1 = tid := by rw [← hx1, hx]
                    simp [lookupA_updA, hx, h2, htp, projEC]
                  · have h3 : ¬ tid = pa.1 := fun he => hx1 (hx.trans he)
                    simp [lookupA_updA, hx, h3, htp, projEC]
                · refine Or.inl ?_
                  by_cases hx1 : x = pa.1
                  · have h3 : ¬ pa.1 = tid := fun he => hx (hx1.trans he)
                    simp [lookupA_updA, hx1, h3, hp1, projEC]
                  · simp [lookupA_updA, hx, hx1, projEC]
              · try dsimp only
                rw [respawn_medikit_players]
                simp only [updRoom, updPlayer]
                by_cases hx : x = tid
                · refine Or.inr ?_
                  by_cases hx1 : x = pa.1
                  · have h2 : pa.1 = tid := by rw [← hx1, hx]
                    simp [lookupA_updA, hx, h2, htp, projEC]
                  · have h3 : ¬ tid = pa.1 := fun he => hx1 (hx.trans he)
                    simp [lookupA_updA, hx, h3, htp, projEC]
                · refine Or.inl ?_
                  by_cases hx1 : x = pa.1
                  · have h3 : ¬ pa.1 = tid := fun he => hx (hx1.trans he)
                    simp [lookupA_updA, hx1, h3, hp1, projEC]
                  · simp [lookupA_updA, hx, hx1, projEC]
            · rw [if_neg helim]
              exact Or.inl rfl
      · rw [if_neg hguard]
        exact Or.inl rfl

theorem survInteractOne_projEC (o : Oracle) (g : Game) (pa : String × String) (x : String) :
    (lookupA x (survInteractOne o g pa).players).map projEC =
      (lookupA x g.players).map projEC ∨
    (lookupA x (survInteractOne o g pa).players).map projEC = some (false, 0) := by
  rw [survInteractOne_decomp]
  split
  · rename_i p room hp hr
    rcases survRevive_projEC o pa x (survPickup pa room g) with h | h
    · exact Or.inl (h.trans (survPickup_projEC pa room g x))
    · exact Or.inr h
  · exact Or.inl rfl

theorem stageSurvivorInteract_projEC (o : Oracle) (acts : List (String × String))
    (x : String) (g : Game) :
    (lookupA x (stageSurvivorInteract o acts g).players).map projEC =
      (lookupA x g.players).map projEC ∨
    (lookupA x (stageSurvivorInteract o acts g).players).map projEC = some (false, 0) := by
  induction acts generalizing g with
  | nil => exact Or.inl rfl
  | cons pa rest ih =>
    rcases ih (survInteractOne o g pa) with h2 | h2
    · rcases survInteractOne_projEC o g pa x with h1 | h1
      · exact Or.inl (h2.trans h1)
      · exact Or.inr (h2.trans h1)
    · exact Or.inr h2

theorem handle_use_medikit_projEC (o : Oracle) (pid tid x : String) (g : Game) :
    (lookupA x (handle_use_medikit o pid tid g).players).map projEC =
      (lookupA x g.players).map projEC ∨
    (lookupA x (handle_use_medikit o pid tid g).players).map projEC = some (false, 0) := by
  unfold handle_use_medikit
  cases hpl : lookupA pid g.players with
  | none => exact Or.inl rfl
  | some player =>
    try dsimp only
    by_cases h1 : player.role ≠ "survivor"
    · rw [if_pos h1]
      exact Or.inl rfl
    · rw [if_neg h1]
      by_cases h2 : player.has_medikit = false
      · rw [if_pos h2]
        exact Or.inl rfl
      · rw [if_neg h2]
        cases htl : lookupA tid g.players with
        | none => exact Or.inl rfl
        | some target =>
          try dsimp only
          by_cases h3 : target.eliminated = false
          · rw [if_pos h3]
            exact Or.inl rfl
          · rw [if_neg h3]
            by_cases h4 : target.current_room ≠ player.current_room
            · rw [if_pos h4]
              exact Or.inl rfl
            · rw [if_neg h4]
              try dsimp only
              cases htr : target.current_room with
              | some tr =>
                try dsimp only
                split
                · try dsimp only
                  rw [respawn_medikit_players]
                  simp only [updRoom, updPlayer]
                  by_cases hx : x = tid
                  · refine Or.inr ?_
                    by_cases hx1 : x = pid
                    · have h2 : pid = tid := by rw [← hx1, hx]
                      simp [lookupA_updA, hx, h2, htl, projEC]
                    · have h3 : ¬ tid = pid := fun he => hx1 (hx.trans he)
                      simp [lookupA_updA, hx, h3, htl, projEC]
                  · refine Or.inl ?_
                    by_cases hx1 : x = pid
                    · have h3 : ¬ pid = tid := fun he => hx (hx1.trans he)
                      simp [lookupA_updA, hx1, h3, hpl, projEC]
                    · simp [lookupA_updA, hx, hx1, projEC]
                · try dsimp only
                  rw [respawn_medikit_players]
                  simp only [updRoom, updPlayer]
                  by_cases hx : x = tid
                  · refine Or.inr ?_
                    by_cases hx1 : x = pid
                    · have h2 : pid = tid := by rw [← hx1, hx]
                      simp [lookupA_updA, hx, h2, htl, projEC]
                    · have h3 : ¬ tid = pid := fun he => hx1 (hx.trans he)
                      simp [lookupA_updA, hx, h3, htl, projEC]
                  · refine Or.inl ?_
                    by_cases hx1 : x = pid
                    · have h3 : ¬ pid = tid := fun he => hx (hx1.trans he)
                      simp [lookupA_updA, hx1, h3, hpl, projEC]
                    · simp [lookupA_updA, hx, hx1, projEC]
              | none =>
                try dsimp only
                split
                · try dsimp only
                  rw [respawn_medikit_players]
                  simp only [updPlayer]
                  by_cases hx : x = tid
                  · refine Or.inr ?_
                    by_cases hx1 : x = pid
                    · have h2 : pid = tid := by rw [← hx1, hx]
                      simp [lookupA_updA, hx, h2, htl, projEC]
                    · have h3 : ¬ tid = pid := fun he => hx1 (hx.trans he)
                      simp [lookupA_updA, hx, h3, htl, projEC]
                  · refine Or.inl ?_
                    by_cases hx1 : x = pid
                    · have h3 : ¬ pid = tid := fun he => hx (hx1.trans he)
                      simp [lookupA_updA, hx1, h3, hpl, projEC]
                    · simp [lookupA_updA, hx, hx1, projEC]
                · try dsimp only
                  rw [respawn_medikit_players]
                  simp only [updPlayer]
                  by_cases hx : x = tid
                  · refine Or.inr ?_
                    by_cases hx1 : x = pid
                    · have h2 : pid = tid := by rw [← hx1, hx]
                      simp [lookupA_updA, hx, h2, htl, projEC]
                    · have h3 : ¬ tid = pid := fun he => hx1 (hx.trans he)
                      simp [lookupA_updA, hx, h3, htl, projEC]
                  · refine Or.inl ?_
                    by_cases hx1 : x = pid
                    · have h3 : ¬ pid = tid := fun he => hx (hx1.trans he)
                      simp [lookupA_updA, hx1, h3, hpl, projEC]
                    · simp [lookupA_updA, hx, hx1, projEC]

/-- C10: both revival paths reset the revived player's poison countdown.
Any player who was eliminated before a use_medikit action, a survivor room
interaction of turn processing, or the whole survivor-interaction stage,
and is alive afterwards, has poisoned_countdown 0 — a player never
re-enters play poisoned. -/
theorem C10_revival_poison_reset :
    (∀ (o : Oracle) (pid tid x : String) (g : Game) (t q : Player),
      lookupA x g.players = some t → t.eliminated = true →
      lookupA x (handle_use_medikit o pid tid g).players = some q →
      q.eliminated = false → q.poisoned_countdown = 0) ∧
    (∀ (o : Oracle) (pa : String × String) (x : String) (g : Game) (t q : Player),
      lookupA x g.players = some t → t.eliminated = true →
      lookupA x (survInteractOne o g pa).players = some q →
      q.eliminated = false → q.poisoned_countdown = 0) ∧
    (∀ (o : Oracle) (acts : List (String × String)) (x : String) (g : Game) (t q : Player),
      lookupA x g.players = some t → t.eliminated = true →
      lookupA x (stageSurvivorInteract o acts g).players = some q →
      q.eliminated = false → q.poisoned_countdown = 0) := by
  have key : ∀ (F : Game → Game) (g : Game) (x : String) (t q : Player),
      ((lookupA x (F g).players).map projEC = (lookupA x g.players).map projEC ∨
        (lookupA x (F g).players).map projEC = some (false, 0)) →
      lookupA x g.players = some t → t.eliminated = true →
      lookupA x (F g).players = some q → q.eliminated = false →
      q.poisoned_countdown = 0 := by
    intro F g x t q hdisj ht helim hq helim2
    rcases hdisj with h | h
    · rw [hq, ht] at h
      simp only [Option.map_some', Option.some.injEq] at h
      have he : q.eliminated = t.eliminated := congrArg Prod.fst h
      rw [helim2, helim] at he
      exact absurd he (by decide)
    · rw [hq] at h
      simp only [Option.map_some', Option.some.injEq] at h
      exact congrArg Prod.snd h
  refine ⟨?_, ?_, ?_⟩
  · intro o pid tid x g t q ht helim hq helim2
    exact key (handle_use_medikit o pid tid) g x t q
      (handle_use_medikit_projEC o pid tid x g) ht helim hq helim2
  · intro o pa x g t q ht helim hq helim2
    exact key (fun g2 => survInteractOne o g2 pa) g x t q
      (survInteractOne_projEC o g pa x) ht helim hq helim2
  · intro o acts x g t q ht helim hq helim2
    exact key (stageSurvivorInteract o acts) g x t q
      (stageSurvivorInteract_projEC o acts x g) ht helim hq helim2

def pMedi : Player :=
  { pS1 with has_medikit := true, current_room := some ("A") }

def pS2e : Player :=
  { basePlayer with
    id := "s2", name := "s2", eliminated := true, poisoned_countdown := 5,
    current_room := some ("A") }

def pS2r : Player := { pS2e with eliminated := false, poisoned_countdown := 0 }

def gW10 : Game :=
  { baseGame with
    players := [("s1", pMedi), ("s2", pS2e), ("k1", pK1)],
    rooms := [("A", { baseRoom with eliminated_players := ["s2"] }), ("B", baseRoom)] }

/-- C10 witness: the poisoned eliminated survivor s2 is revived with a reset
countdown, by the explicit action and by the processing stage alike. -/
theorem C10_revival_poison_reset_witness :
    lookupA ("s2") (handle_use_medikit headOracle ("s1") ("s2") gW10).players = some pS2r ∧
    pS2r.poisoned_countdown = 0 ∧
    (∀ q : Player,
      lookupA ("s2") (stageSurvivorInteract headOracle [("s1", "A")] gW10).players = some q →
      q.eliminated = false → q.poisoned_countdown = 0) := by
  refine ⟨by decide, ?_, ?_⟩
  · exact C10_revival_poison_reset.1 headOracle ("s1") ("s2") ("s2") gW10 pS2e pS2r
      (by decide) (by decide) (by decide) (by decide)
  · intro q hq helim
    exact C10_revival_poison_reset.2.2 headOracle [("s1", "A")] ("s2") gW10 pS2e q
      (by decide) (by decide) hq helim


/-! ### Claim C3: scan-level lemmas -/

/-- The elimination observation: a player's eliminated flag and gold. -/
def projEG (p : Player) : Bool × Nat := (p.eliminated, p.gold)

/-- Room rn records y among its eliminated occupants. -/
def hasElim (g : Game) (rn y : String) : Prop :=
  ∃ r, lookupA rn g.rooms = some r ∧ y ∈ r.eliminated_players

theorem lookupA_updA_isSome {α : Type} (k k2 : String) (f : α → α) (l : List (String × α)) :
    (lookupA k2 (updA k f l)).isSome = (lookupA k2 l).isSome := by
  rw [lookupA_updA]
  split
  · cases lookupA k2 l <;> simp
  · rfl

theorem roomMem_of_projEq {g1 g2 : Game} {rn y : String}
    (h : (lookupA rn g2.rooms).map Room.eliminated_players =
         (lookupA rn g1.rooms).map Room.eliminated_players)
    (hm : hasElim g1 rn y) : hasElim g2 rn y := by
  obtain ⟨r, hr, hy⟩ := hm
  rw [hr] at h
  simp only [Option.map_some'] at h
  obtain ⟨r2, hr2, hr2e⟩ := Option.map_eq_some'.mp h
  refine ⟨r2, hr2, ?_⟩
  rw [show r2.eliminated_players = r.eliminated_players from hr2e]
  exact hy

theorem respawn_medikit_roomElim (o : Oracle) (g : Game) (rn : String) :
    (lookupA rn (respawn_medikit o g).2.rooms).map Room.eliminated_players =
      (lookupA rn g.rooms).map Room.eliminated_players := by
  unfold respawn_medikit
  dsimp only
  split
  · rfl
  · exact lookupA_updRoom_proj Room.eliminated_players rn (o.pick (availForMedikit g))
      (fun r => { r with has_medikit := true }) (fun r => rfl) g

theorem respawn_medikit_rooms_isSome (o : Oracle) (g : Game) (rn : String) :
    (lookupA rn (respawn_medikit o g).2.rooms).isSome = (lookupA rn g.rooms).isSome := by
  unfold respawn_medikit
  dsimp only
  split
  · rfl
  · exact lookupA_updA_isSome (o.pick (availForMedikit g)) rn
      (fun r => { r with has_medikit := true }) g.rooms

theorem hasElim_updRoom_append (g : Game) (kr rn y sid2 : String)
    (hm : hasElim g rn y) :
    hasElim (updRoom kr (fun r =>
      { r with eliminated_players := r.eliminated_players ++ [sid2] }) g) rn y := by
  obtain ⟨r, hr, hy⟩ := hm
  show ∃ r2, lookupA rn (updA kr (fun r =>
    { r with eliminated_players := r.eliminated_players ++ [sid2] }) g.rooms) = some r2 ∧
    y ∈ r2.eliminated_players
  rw [lookupA_updA]
  by_cases hk : rn = kr
  · rw [if_pos hk, hr]
    exact ⟨_, rfl, by simp [hy]⟩
  · rw [if_neg hk]
    exact ⟨r, hr, hy⟩

/-- Effect of one elimination-scan step on one player record: either it is
untouched or the scanned player was a living survivor in the killer's room
and is now eliminated with zero gold (the medikit variant also drops the
item). -/
theorem elimScanOne_lookup (o : Oracle) (kr : String) (acc : Game × Bool) (a y : String) :
    lookupA y (elimScanOne o kr acc a).1.players = lookupA y acc.1.players ∨
    (y = a ∧ ∃ s, lookupA a acc.1.players = some s ∧
      (s.role = "survivor" ∧ s.eliminated = false ∧ s.current_room = some kr) ∧
      (lookupA y (elimScanOne o kr acc a).1.players =
          some { s with eliminated := true, gold := 0 } ∨
        lookupA y (elimScanOne o kr acc a).1.players =
          some { s with eliminated := true, gold := 0, has_medikit := false })) := by
  unfold elimScanOne
  cases hsa : lookupA a acc.1.players with
  | none => exact Or.inl rfl
  | some s =>
    try dsimp only
    by_cases hcond : s.role = "survivor" ∧ s.eliminated = false ∧ s.current_room = some kr
    · rw [if_pos hcond]
      try dsimp only
      by_cases hmed : s.has_medikit = true
      · rw [if_pos hmed]
        try dsimp only
        by_cases hy : y = a
        · refine Or.inr ⟨hy, s, rfl, hcond, Or.inr ?_⟩
          subst hy
          split <;> (try dsimp only) <;> rw [respawn_medikit_players] <;>
            simp only [updRoom, updPlayer] <;> simp [lookupA_updA, hsa]
        · refine Or.inl ?_
          split <;> (try dsimp only) <;> rw [respawn_medikit_players] <;>
            simp only [updRoom, updPlayer] <;> simp [lookupA_updA, hy]
      · rw [if_neg hmed]
        by_cases hy : y = a
        · refine Or.inr ⟨hy, s, rfl, hcond, Or.inl ?_⟩
          subst hy
          simp only [updRoom, updPlayer]
          simp [lookupA_updA, hsa]
        · refine Or.inl ?_
          simp only [updRoom, updPlayer]
          simp [lookupA_updA, hy]
    · rw [if_neg hcond]
      exact Or.inl rfl

theorem elimScanOne_fires_lookup (o : Oracle) (kr : String) (acc : Game × Bool)
    (sid : String) (s : Player) (hsa : lookupA sid acc.1.players = some s)
    (hcond : s.role = "survivor" ∧ s.eliminated = false ∧ s.current_room = some kr) :
    lookupA sid (elimScanOne o kr acc sid).1.players =
        some { s with eliminated := true, gold := 0 } ∨
    lookupA sid (elimScanOne o kr acc sid).1.players =
        some { s with eliminated := true, gold := 0, has_medikit := false } := by
  unfold elimScanOne
  simp only [hsa]
  rw [if_pos hcond]
  try dsimp only
  by_cases hmed : s.has_medikit = true
  · rw [if_pos hmed]
    refine Or.inr ?_
    try dsimp only
    split <;> (try dsimp only) <;> rw [respawn_medikit_players] <;>
      simp only [updRoom, updPlayer] <;> simp [lookupA_updA, hsa]
  · rw [if_neg hmed]
    refine Or.inl ?_
    simp only [updRoom, updPlayer]
    simp [lookupA_updA, hsa]

theorem elimScanOne_flag_fires (o : Oracle) (kr : String) (acc : Game × Bool)
    (sid : String) (s : Player) (hsa : lookupA sid acc.1.players = some s)
    (hcond : s.role = "survivor" ∧ s.eliminated = false ∧ s.current_room = some kr) :
    (elimScanOne o kr acc sid).2 = true := by
  unfold elimScanOne
  simp only [hsa]
  rw [if_pos hcond]

theorem elimScanOne_flag_mono (o : Oracle) (kr : String) (acc : Game × Bool) (a : String)
    (h : acc.2 = true) : (elimScanOne o kr acc a).2 = true := by
  unfold elimScanOne
  cases hsa : lookupA a acc.1.players with
  | none => exact h
  | some s =>
    try dsimp only
    by_cases hcond : s.role = "survivor" ∧ s.eliminated = false ∧ s.current_room = some kr
    · rw [if_pos hcond]
    · rw [if_neg hcond]
      exact h

theorem elimScanOne_roomElim (o : Oracle) (kr : String) (acc : Game × Bool) (a rn y : String)
    (hm : hasElim acc.1 rn y) : hasElim (elimScanOne o kr acc a).1 rn y := by
  unfold elimScanOne
  cases hsa : lookupA a acc.1.players with
  | none => exact hm
  | some s =>
    try dsimp only
    by_cases hcond : s.role = "survivor" ∧ s.eliminated = false ∧ s.current_room = some kr
    · rw [if_pos hcond]
      try dsimp only
      have hbase : hasElim (updRoom kr (fun r =>
          { r with eliminated_players := r.eliminated_players ++ [a] })
          (updPlayer a (fun q => { q with eliminated := true, gold := 0 }) acc.1)) rn y :=
        hasElim_updRoom_append _ kr rn y a
          (show hasElim (updPlayer a (fun q => { q with eliminated := true, gold := 0 }) acc.1)
            rn y from hm)
      by_cases hmed : s.has_medikit = true
      · rw [if_pos hmed]
        split <;> (try dsimp only) <;>
          exact roomMem_of_projEq (respawn_medikit_roomElim o _ rn) hbase
      · rw [if_neg hmed]
        exact hbase
    · rw [if_neg hcond]
      exact hm

theorem elimScanOne_roomElim_fires (o : Oracle) (kr : String) (acc : Game × Bool)
    (sid : String) (s : Player) (r0 : Room)
    (hsa : lookupA sid acc.1.players = some s)
    (hcond : s.role = "survivor" ∧ s.eliminated = false ∧ s.current_room = some kr)
    (hr0 : lookupA kr acc.1.rooms = some r0) :
    hasElim (elimScanOne o kr acc sid).1 kr sid := by
  unfold elimScanOne
  simp only [hsa]
  rw [if_pos hcond]
  try dsimp only
  have hbase : hasElim (updRoom kr (fun r =>
      { r with eliminated_players := r.eliminated_players ++ [sid] })
      (updPlayer sid (fun q => { q with eliminated := true, gold := 0 }) acc.1)) kr sid := by
    show ∃ r2, lookupA kr (updA kr (fun r =>
      { r with eliminated_players := r.eliminated_players ++ [sid] })
      (updPlayer sid (fun q => { q with eliminated := true, gold := 0 }) acc.1).rooms) =
        some r2 ∧ sid ∈ r2.eliminated_players
    rw [lookupA_updA, if_pos rfl]
    rw [show lookupA kr (updPlayer sid (fun q =>
      { q with eliminated := true, gold := 0 }) acc.1).rooms = some r0 from hr0]
    exact ⟨_, rfl, by simp⟩
  by_cases hmed : s.has_medikit = true
  · rw [if_pos hmed]
    split <;> (try dsimp only) <;>
      exact roomMem_of_projEq (respawn_medikit_roomElim o _ kr) hbase
  · rw [if_neg hmed]
    exact hbase

theorem elimScanOne_rooms_isSome (o : Oracle) (kr : String) (acc : Game × Bool) (a rn : String) :
    (lookupA rn (elimScanOne o kr acc a).1.rooms).isSome =
      (lookupA rn acc.1.rooms).isSome := by
  unfold elimScanOne
  cases hsa : lookupA a acc.1.players with
  | none => rfl
  | some s =>
    try dsimp only
    by_cases hcond : s.role = "survivor" ∧ s.eliminated = false ∧ s.current_room = some kr
    · rw [if_pos hcond]
      try dsimp only
      by_cases hmed : s.has_medikit = true
      · rw [if_pos hmed]
        split <;> (try dsimp only) <;>
          rw [respawn_medikit_rooms_isSome] <;>
          exact lookupA_updA_isSome kr rn (fun r =>
            { r with eliminated_players := r.eliminated_players ++ [a] }) acc.1.rooms
      · rw [if_neg hmed]
        exact lookupA_updA_isSome kr rn (fun r =>
          { r with eliminated_players := r.eliminated_players ++ [a] }) acc.1.rooms
    · rw [if_neg hcond]


/-! ### Claim C3: scan-fold lemmas -/

theorem elimScanOne_EG_true (o : Oracle) (kr : String) (acc : Game × Bool) (a sid : String)
    (h : (lookupA sid acc.1.players).map projEG = some (true, 0)) :
    (lookupA sid (elimScanOne o kr acc a).1.players).map projEG = some (true, 0) := by
  rcases elimScanOne_lookup o kr acc a sid with hl | ⟨hy, s2, hsa2, hcond2, _⟩
  · rw [hl]
    exact h
  · exfalso
    subst hy
    rw [hsa2] at h
    simp only [Option.map_some', Option.some.injEq] at h
    have h2 : s2.eliminated = true := congrArg Prod.fst h
    rw [hcond2.2.1] at h2
    exact Bool.noConfusion h2

theorem elimScanFold_EG_true (o : Oracle) (kr : String) (pids : List String)
    (acc : Game × Bool) (sid : String)
    (h : (lookupA sid acc.1.players).map projEG = some (true, 0)) :
    (lookupA sid (pids.foldl (elimScanOne o kr) acc).1.players).map projEG =
      some (true, 0) := by
  induction pids generalizing acc with
  | nil => exact h
  | cons a rest ih => exact ih (elimScanOne o kr acc a) (elimScanOne_EG_true o kr acc a sid h)

theorem elimScanOne_keep (o : Oracle) (kr : String) (acc : Game × Bool) (a sid : String)
    (s : Player) (hs : lookupA sid acc.1.players = some s)
    (hviol : ¬(s.role = "survivor" ∧ s.eliminated = false ∧ s.current_room = some kr)) :
    lookupA sid (elimScanOne o kr acc a).1.players = some s := by
  rcases elimScanOne_lookup o kr acc a sid with hl | ⟨hy, s2, hsa2, hcond2, _⟩
  · rw [hl]
    exact hs
  · exfalso
    subst hy
    have h2 := hs.symm.trans hsa2
    cases Option.some.inj h2
    exact hviol hcond2

theorem elimScanFold_keep (o : Oracle) (kr : String) (pids : List String) (acc : Game × Bool)
    (sid : String) (s : Player) (hs : lookupA sid acc.1.players = some s)
    (hviol : ¬(s.role = "survivor" ∧ s.eliminated = false ∧ s.current_room = some kr)) :
    lookupA sid (pids.foldl (elimScanOne o kr) acc).1.players = some s := by
  induction pids generalizing acc with
  | nil => exact hs
  | cons a rest ih => exact ih _ (elimScanOne_keep o kr acc a sid s hs hviol)

theorem elimScanFold_flag_mono (o : Oracle) (kr : String) (pids : List String)
    (acc : Game × Bool) (h : acc.2 = true) :
    (pids.foldl (elimScanOne o kr) acc).2 = true := by
  induction pids generalizing acc with
  | nil => exact h
  | cons a rest ih => exact ih _ (elimScanOne_flag_mono o kr acc a h)

theorem elimScanFold_roomElim (o : Oracle) (kr : String) (pids : List String)
    (acc : Game × Bool) (rn y : String) (hm : hasElim acc.1 rn y) :
    hasElim (pids.foldl (elimScanOne o kr) acc).1 rn y := by
  induction pids generalizing acc with
  | nil => exact hm
  | cons a rest ih => exact ih _ (elimScanOne_roomElim o kr acc a rn y hm)

theorem elimScanFold_rooms_isSome (o : Oracle) (kr : String) (pids : List String)
    (acc : Game × Bool) (rn : String) :
    (lookupA rn (pids.foldl (elimScanOne o kr) acc).1.rooms).isSome =
      (lookupA rn acc.1.rooms).isSome := by
  induction pids generalizing acc with
  | nil => rfl
  | cons a rest ih => exact (ih _).trans (elimScanOne_rooms_isSome o kr acc a rn)

/-- The elimination scan over all player ids eliminates a living survivor
standing in the killer's room: flag set, gold zeroed, the scan reports a
find and the survivor is recorded in the room's eliminated list. -/
theorem elimScanFold_hits (o : Oracle) (kr : String) (pids : List String) (acc : Game × Bool)
    (sid : String) (s : Player)
    (hs : lookupA sid acc.1.players = some s)
    (hrole : s.role = "survivor") (helim : s.eliminated = false)
    (hroom : s.current_room = some kr)
    (hkr : (lookupA kr acc.1.rooms).isSome = true)
    (hmem : sid ∈ pids) :
    (lookupA sid (pids.foldl (elimScanOne o kr) acc).1.players).map projEG =
      some (true, 0) ∧
    (pids.foldl (elimScanOne o kr) acc).2 = true ∧
    hasElim (pids.foldl (elimScanOne o kr) acc).1 kr sid := by
  revert hmem
  induction pids generalizing acc with
  | nil =>
    intro hmem
    exact absurd hmem (List.not_mem_nil sid)
  | cons a rest ih =>
    intro hmem
    by_cases hay : sid = a
    · subst hay
      have hfl := elimScanOne_fires_lookup o kr acc sid s hs ⟨hrole, helim, hroom⟩
      have hEG : (lookupA sid (elimScanOne o kr acc sid).1.players).map projEG =
          some (true, 0) := by
        rcases hfl with h | h <;> rw [h] <;> rfl
      have hflag := elimScanOne_flag_fires o kr acc sid s hs ⟨hrole, helim, hroom⟩
      obtain ⟨r0, hr0⟩ := Option.isSome_iff_exists.mp hkr
      have hre := elimScanOne_roomElim_fires o kr acc sid s r0 hs ⟨hrole, helim, hroom⟩ hr0
      exact ⟨elimScanFold_EG_true o kr rest _ sid hEG,
        elimScanFold_flag_mono o kr rest _ hflag,
        elimScanFold_roomElim o kr rest _ kr sid hre⟩
    · have hkeep : lookupA sid (elimScanOne o kr acc a).1.players = some s := by
        rcases elimScanOne_lookup o kr acc a sid with hl | ⟨hy, h2, h3, h4, h5⟩
        · rw [hl]
          exact hs
        · exact absurd hy hay
      have hkr2 : (lookupA kr (elimScanOne o kr acc a).1.rooms).isSome = true := by
        rw [elimScanOne_rooms_isSome]
        exact hkr
      have hmem2 : sid ∈ rest := by
        rcases List.mem_cons.mp hmem with h | h
        · exact absurd h hay
        · exact h
      exact ih _ hkeep hkr2 hmem2


/-! ### Claim C3: killer-level lemmas -/

theorem elimOneKiller_noPlayer (o : Oracle) (acc : Game × List String × List String)
    (ka : String × String) (h : lookupA ka.1 acc.1.players = none) :
    elimOneKiller o acc ka = acc := by
  unfold elimOneKiller
  simp only [h]

theorem elimOneKiller_noRoom (o : Oracle) (acc : Game × List String × List String)
    (ka : String × String) (killer : Player)
    (hk : lookupA ka.1 acc.1.players = some killer) (hkr : killer.current_room = none) :
    elimOneKiller o acc ka = acc := by
  unfold elimOneKiller
  simp only [hk, hkr]

theorem elimOneKiller_shape (o : Oracle) (acc : Game × List String × List String)
    (ka : String × String) (killer : Player) (kr : String)
    (hk : lookupA ka.1 acc.1.players = some killer) (hkr : killer.current_room = some kr) :
    (elimOneKiller o acc ka).1.players =
      ((acc.1.players.map Prod.fst).foldl (elimScanOne o kr) (acc.1, false)).1.players ∧
    (elimOneKiller o acc ka).1.rooms =
      ((acc.1.players.map Prod.fst).foldl (elimScanOne o kr) (acc.1, false)).1.rooms ∧
    (elimOneKiller o acc ka).2.1 =
      (if ((acc.1.players.map Prod.fst).foldl (elimScanOne o kr) (acc.1, false)).2 = true
        then acc.2.1 ++ [kr] else acc.2.1) := by
  unfold elimOneKiller
  simp only [hk, hkr]
  try dsimp only
  split
  · split
    · split
      · exact ⟨rfl, rfl, rfl⟩
      · exact ⟨rfl, rfl, rfl⟩
    · exact ⟨rfl, rfl, rfl⟩
  · exact ⟨rfl, rfl, rfl⟩

theorem elimOneKiller_EG_true (o : Oracle) (acc : Game × List String × List String)
    (ka : String × String) (sid : String)
    (h : (lookupA sid acc.1.players).map projEG = some (true, 0)) :
    (lookupA sid (elimOneKiller o acc ka).1.players).map projEG = some (true, 0) := by
  cases hk : lookupA ka.1 acc.1.players with
  | none =>
    rw [elimOneKiller_noPlayer o acc ka hk]
    exact h
  | some killer =>
    cases hkr : killer.current_room with
    | none =>
      rw [elimOneKiller_noRoom o acc ka killer hk hkr]
      exact h
    | some kr =>
      rw [(elimOneKiller_shape o acc ka killer kr hk hkr).1]
      exact elimScanFold_EG_true o kr _ (acc.1, false) sid h

theorem elimOneKiller_keep (o : Oracle) (acc : Game × List String × List String)
    (ka : String × String) (sid : String) (s : Player)
    (hs : lookupA sid acc.1.players = some s)
    (hviolf : ∀ (killer : Player) (kr2 : String), lookupA ka.1 acc.1.players = some killer →
      killer.current_room = some kr2 →
      ¬(s.role = "survivor" ∧ s.eliminated = false ∧ s.current_room = some kr2)) :
    lookupA sid (elimOneKiller o acc ka).1.players = some s := by
  cases hk : lookupA ka.1 acc.1.players with
  | none =>
    rw [elimOneKiller_noPlayer o acc ka hk]
    exact hs
  | some killer =>
    cases hkr : killer.current_room with
    | none =>
      rw [elimOneKiller_noRoom o acc ka killer hk hkr]
      exact hs
    | some kr =>
      rw [(elimOneKiller_shape o acc ka killer kr hk hkr).1]
      exact elimScanFold_keep o kr _ (acc.1, false) sid s hs (hviolf killer kr hk hkr)

theorem elimOneKiller_roomMem (o : Oracle) (acc : Game × List String × List String)
    (ka : String × String) (rn y : String) (hm : hasElim acc.1 rn y) :
    hasElim (elimOneKiller o acc ka).1 rn y := by
  cases hk : lookupA ka.1 acc.1.players with
  | none =>
    rw [elimOneKiller_noPlayer o acc ka hk]
    exact hm
  | some killer =>
    cases hkr : killer.current_room with
    | none =>
      rw [elimOneKiller_noRoom o acc ka killer hk hkr]
      exact hm
    | some kr =>
      obtain ⟨r, hr2, hy2⟩ := elimScanFold_roomElim o kr _ (acc.1, false) rn y hm
      refine ⟨r, ?_, hy2⟩
      rw [(elimOneKiller_shape o acc ka killer kr hk hkr).2.1]
      exact hr2

theorem elimOneKiller_rooms_isSome (o : Oracle) (acc : Game × List String × List String)
    (ka : String × String) (rn : String) :
    (lookupA rn (elimOneKiller o acc ka).1.rooms).isSome =
      (lookupA rn acc.1.rooms).isSome := by
  cases hk : lookupA ka.1 acc.1.players with
  | none =>
    rw [elimOneKiller_noPlayer o acc ka hk]
  | some killer =>
    cases hkr : killer.current_room with
    | none =>
      rw [elimOneKiller_noRoom o acc ka killer hk hkr]
    | some kr =>
      rw [(elimOneKiller_shape o acc ka killer kr hk hkr).2.1]
      exact elimScanFold_rooms_isSome o kr _ (acc.1, false) rn

theorem elimOneKiller_er_grows (o : Oracle) (acc : Game × List String × List String)
    (ka : String × String) (y : String) (h : y ∈ acc.2.1) :
    y ∈ (elimOneKiller o acc ka).2.1 := by
  cases hk : lookupA ka.1 acc.1.players with
  | none =>
    rw [elimOneKiller_noPlayer o acc ka hk]
    exact h
  | some killer =>
    cases hkr : killer.current_room with
    | none =>
      rw [elimOneKiller_noRoom o acc ka killer hk hkr]
      exact h
    | some kr =>
      rw [(elimOneKiller_shape o acc ka killer kr hk hkr).2.2]
      split
      · exact List.mem_append_left _ h
      · exact h

/-- One killer's elimination pass hits: the living survivor standing in the
killer's room is eliminated with zero gold, the room joins the lock list and
the survivor joins the room's eliminated occupants. -/
theorem elimOneKiller_hits (o : Oracle) (acc : Game × List String × List String)
    (ka : String × String) (killer : Player) (kr sid : String) (s : Player)
    (hk : lookupA ka.1 acc.1.players = some killer) (hkr : killer.current_room = some kr)
    (hs : lookupA sid acc.1.players = some s) (hrole : s.role = "survivor")
    (helim : s.eliminated = false) (hroom : s.current_room = some kr)
    (hkroom : (lookupA kr acc.1.rooms).isSome = true) :
    (lookupA sid (elimOneKiller o acc ka).1.players).map projEG = some (true, 0) ∧
    kr ∈ (elimOneKiller o acc ka).2.1 ∧
    hasElim (elimOneKiller o acc ka).1 kr sid := by
  obtain ⟨hp, hr, he⟩ := elimOneKiller_shape o acc ka killer kr hk hkr
  have hsm : sid ∈ acc.1.players.map Prod.fst := lookupA_mem_keys sid acc.1.players s hs
  have hh := elimScanFold_hits o kr (acc.1.players.map Prod.fst) (acc.1, false) sid s hs
    hrole helim hroom hkroom hsm
  refine ⟨?_, ?_, ?_⟩
  · rw [hp]
    exact hh.1
  · rw [he, if_pos hh.2.1]
    simp
  · obtain ⟨r, hr2, hy2⟩ := hh.2.2
    refine ⟨r, ?_, hy2⟩
    rw [hr]
    exact hr2

theorem elimKillerFold_EG_true (o : Oracle) (kacts : List (String × String))
    (acc : Game × List String × List String) (sid : String)
    (h : (lookupA sid acc.1.players).map projEG = some (true, 0)) :
    (lookupA sid (kacts.foldl (elimOneKiller o) acc).1.players).map projEG =
      some (true, 0) := by
  induction kacts generalizing acc with
  | nil => exact h
  | cons kb rest ih => exact ih _ (elimOneKiller_EG_true o acc kb sid h)

theorem elimKillerFold_roomMem (o : Oracle) (kacts : List (String × String))
    (acc : Game × List String × List String) (rn y : String) (hm : hasElim acc.1 rn y) :
    hasElim (kacts.foldl (elimOneKiller o) acc).1 rn y := by
  induction kacts generalizing acc with
  | nil => exact hm
  | cons kb rest ih => exact ih _ (elimOneKiller_roomMem o acc kb rn y hm)

theorem elimKillerFold_er_mem (o : Oracle) (kacts : List (String × String))
    (acc : Game × List String × List String) (y : String) (h : y ∈ acc.2.1) :
    y ∈ (kacts.foldl (elimOneKiller o) acc).2.1 := by
  induction kacts generalizing acc with
  | nil => exact h
  | cons kb rest ih => exact ih _ (elimOneKiller_er_grows o acc kb y h)


/-! ### Claim C3: fold over killer actions, locking and victory -/

/-- The whole killer elimination fold: every living survivor standing in the
room of any acting killer is eliminated with zeroed gold, recorded in the
room's eliminated list, and the room joins the lock set. -/
theorem elimFold_hits (o : Oracle) (kacts : List (String × String))
    (acc : Game × List String × List String) (ka : String × String) (killer : Player)
    (kr sid : String) (s : Player)
    (hk : lookupA ka.1 acc.1.players = some killer) (hkrole : killer.role = "killer")
    (hkr : killer.current_room = some kr)
    (hs : lookupA sid acc.1.players = some s) (hrole : s.role = "survivor")
    (helim : s.eliminated = false) (hroom : s.current_room = some kr)
    (hkroom : (lookupA kr acc.1.rooms).isSome = true)
    (hmem : ka ∈ kacts) :
    (lookupA sid (kacts.foldl (elimOneKiller o) acc).1.players).map projEG =
      some (true, 0) ∧
    kr ∈ (kacts.foldl (elimOneKiller o) acc).2.1 ∧
    hasElim (kacts.foldl (elimOneKiller o) acc).1 kr sid := by
  revert hmem
  induction kacts generalizing acc with
  | nil =>
    intro hmem
    exact absurd hmem (List.not_mem_nil ka)
  | cons kb rest ih =>
    intro hmem
    by_cases hkb : kb = ka
    · subst hkb
      have hh := elimOneKiller_hits o acc kb killer kr sid s hk hkr hs hrole helim hroom hkroom
      exact ⟨elimKillerFold_EG_true o rest _ sid hh.1,
        elimKillerFold_er_mem o rest _ kr hh.2.1,
        elimKillerFold_roomMem o rest _ kr sid hh.2.2⟩
    · have hk2 : lookupA ka.1 (elimOneKiller o acc kb).1.players = some killer := by
        apply elimOneKiller_keep o acc kb ka.1 killer hk
        intro k2 r2 hkk hrr
        rintro ⟨hc, h2, h3⟩
        rw [hkrole] at hc
        exact absurd hc (by decide)
      have hkroom2 : (lookupA kr (elimOneKiller o acc kb).1.rooms).isSome = true := by
        rw [elimOneKiller_rooms_isSome]
        exact hkroom
      have hmem2 : ka ∈ rest := by
        rcases List.mem_cons.mp hmem with h | h
        · exact absurd h.symm hkb
        · exact h
      cases hkbl : lookupA kb.1 acc.1.players with
      | none =>
        have hs2 : lookupA sid (elimOneKiller o acc kb).1.players = some s := by
          rw [elimOneKiller_noPlayer o acc kb hkbl]
          exact hs
        exact ih _ hk2 hs2 hkroom2 hmem2
      | some killer2 =>
        cases hkblr : killer2.current_room with
        | none =>
          have hs2 : lookupA sid (elimOneKiller o acc kb).1.players = some s := by
            rw [elimOneKiller_noRoom o acc kb killer2 hkbl hkblr]
            exact hs
          exact ih _ hk2 hs2 hkroom2 hmem2
        | some kr2 =>
          by_cases hkr2 : kr2 = kr
          · subst hkr2
            have hh := elimOneKiller_hits o acc kb killer2 kr2 sid s hkbl hkblr hs hrole
              helim hroom hkroom
            exact ⟨elimKillerFold_EG_true o rest _ sid hh.1,
              elimKillerFold_er_mem o rest _ kr2 hh.2.1,
              elimKillerFold_roomMem o rest _ kr2 sid hh.2.2⟩
          · have hs2 : lookupA sid (elimOneKiller o acc kb).1.players = some s := by
              apply elimOneKiller_keep o acc kb sid s hs
              intro k2 r2 hkk hrr
              have e1 := hkbl.symm.trans hkk
              cases Option.some.inj e1
              have e2 := hkblr.symm.trans hrr
              cases Option.some.inj e2
              rintro ⟨h1, h2, hc⟩
              rw [hroom] at hc
              exact hkr2 (Option.some.inj hc).symm
            exact ih _ hk2 hs2 hkroom2 hmem2

theorem lockElimRoom_locked_true (g : Game) (rn rn2 : String)
    (h : (lookupA rn g.rooms).map Room.locked = some true) :
    (lookupA rn (lockElimRoom g rn2).rooms).map Room.locked = some true := by
  unfold lockElimRoom
  dsimp only
  show (lookupA rn (updA rn2 (fun r => { r with locked := true }) g.rooms)).map
    Room.locked = some true
  rw [lookupA_updA]
  by_cases he : rn = rn2
  · rw [if_pos he]
    obtain ⟨r, hr, h2⟩ := Option.map_eq_some'.mp h
    rw [hr]
    rfl
  · rw [if_neg he]
    exact h

theorem lockElimRoom_sets (g : Game) (rn : String)
    (h : (lookupA rn g.rooms).isSome = true) :
    (lookupA rn (lockElimRoom g rn).rooms).map Room.locked = some true := by
  unfold lockElimRoom
  dsimp only
  show (lookupA rn (updA rn (fun r => { r with locked := true }) g.rooms)).map
    Room.locked = some true
  rw [lookupA_updA, if_pos rfl]
  obtain ⟨r, hr⟩ := Option.isSome_iff_exists.mp h
  rw [hr]
  rfl

theorem lockElimRoom_rooms_isSome (g : Game) (rn rn2 : String) :
    (lookupA rn (lockElimRoom g rn2).rooms).isSome = (lookupA rn g.rooms).isSome := by
  unfold lockElimRoom
  dsimp only
  show (lookupA rn (updA rn2 (fun r => { r with locked := true }) g.rooms)).isSome = _
  exact lookupA_updA_isSome rn2 rn (fun r => { r with locked := true }) g.rooms

theorem lockFold_locked_true (l : List String) (g : Game) (rn : String)
    (h : (lookupA rn g.rooms).map Room.locked = some true) :
    (lookupA rn (l.foldl lockElimRoom g).rooms).map Room.locked = some true := by
  induction l generalizing g with
  | nil => exact h
  | cons a rest ih => exact ih _ (lockElimRoom_locked_true g rn a h)

theorem lockFold_sets (l : List String) (g : Game) (rn : String)
    (h : (lookupA rn g.rooms).isSome = true) (hmem : rn ∈ l) :
    (lookupA rn (l.foldl lockElimRoom g).rooms).map Room.locked = some true := by
  revert hmem
  induction l generalizing g with
  | nil =>
    intro hmem
    exact absurd hmem (List.not_mem_nil rn)
  | cons a rest ih =>
    intro hmem
    by_cases ha : rn = a
    · subst ha
      exact lockFold_locked_true rest _ rn (lockElimRoom_sets g rn h)
    · have h2 : (lookupA rn (lockElimRoom g a).rooms).isSome = true := by
        rw [lockElimRoom_rooms_isSome]
        exact h
      have hmem2 : rn ∈ rest := by
        rcases List.mem_cons.mp hmem with hx | hx
        · exact absurd hx ha
        · exact hx
      exact ih _ h2 hmem2

/-- Every room of the elimination set is locked by the locking stage. -/
theorem stageLockElim_locks (er : List String) (g : Game) (rn : String)
    (hmem : rn ∈ er) (h : (lookupA rn g.rooms).isSome = true) :
    (lookupA rn (stageLockElim er g).rooms).map Room.locked = some true := by
  unfold stageLockElim
  exact lockFold_sets (dedupFirst er) g rn h ((mem_dedupFirst er rn).mpr hmem)


/-- C3: killer eliminations during turn processing.  (1) For every acting
killer standing in room kr, every living survivor whose current room is kr
is eliminated by the elimination fold: flag set, gold zeroed, appended to
kr's eliminated occupants, and kr joins the lock set; (2) the locking stage
locks every room of that set; (3) when no living survivor remains, the
resolution tail ends the game with the killers as winner. -/
theorem C3_killer_elimination :
    (∀ (o : Oracle) (kacts : List (String × String))
        (acc : Game × List String × List String) (ka : String × String) (killer : Player)
        (kr sid : String) (s : Player),
      lookupA ka.1 acc.1.players = some killer → killer.role = "killer" →
      killer.current_room = some kr →
      lookupA sid acc.1.players = some s → s.role = "survivor" →
      s.eliminated = false → s.current_room = some kr →
      (lookupA kr acc.1.rooms).isSome = true → ka ∈ kacts →
      (lookupA sid (kacts.foldl (elimOneKiller o) acc).1.players).map projEG =
        some (true, 0) ∧
      kr ∈ (kacts.foldl (elimOneKiller o) acc).2.1 ∧
      hasElim (kacts.foldl (elimOneKiller o) acc).1 kr sid) ∧
    (∀ (er : List String) (g : Game) (rn : String), rn ∈ er →
      (lookupA rn g.rooms).isSome = true →
      (lookupA rn (stageLockElim er g).rooms).map Room.locked = some true) ∧
    (∀ (o : Oracle) (g : Game), (aliveSurvivors g).length = 0 →
      (resolutionTail o g).phase = "game_over" ∧
      (resolutionTail o g).winner = some ("killers")) := by
  refine ⟨?_, ?_, ?_⟩
  · intro o kacts acc ka killer kr sid s hk hkrole hkr hs hrole helim hroom hkroom hmem
    exact elimFold_hits o kacts acc ka killer kr sid s hk hkrole hkr hs hrole helim
      hroom hkroom hmem
  · intro er g rn hmem h
    exact stageLockElim_locks er g rn hmem h
  · intro o g h
    unfold resolutionTail
    dsimp only
    rw [h]
    rw [if_neg (by simp)]
    rw [if_pos rfl]
    exact ⟨rfl, rfl⟩

def pK1A : Player := { pK1 with current_room := some ("A") }

def pS1A : Player := { pS1 with current_room := some ("A") }

def gW3 : Game :=
  { baseGame with
    phase := "processing",
    players := [("s1", pS1A), ("k1", pK1A)],
    rooms := [("A", baseRoom), ("B", baseRoom)] }

def gW3b : Game :=
  { baseGame with
    phase := "processing",
    players := [("k1", pK1)],
    rooms := [("A", baseRoom)] }

def kactsW3 : List (String × String) := [("k1", "A")]

def accW3 : Game × List String × List String := (gW3, [], [])

/-- C3 witness: a concrete killer in room A eliminates the survivor there,
the room is locked, and an empty survivor roster ends the game for the
killers. -/
theorem C3_killer_elimination_witness :
    ((lookupA ("s1") (kactsW3.foldl (elimOneKiller headOracle) accW3).1.players).map projEG =
      some (true, 0) ∧
     ("A" : String) ∈ (kactsW3.foldl (elimOneKiller headOracle) accW3).2.1 ∧
     hasElim (kactsW3.foldl (elimOneKiller headOracle) accW3).1 ("A") ("s1")) ∧
    (lookupA ("A") (stageLockElim ["A"] gW3).rooms).map Room.locked = some true ∧
    ((resolutionTail headOracle gW3b).phase = "game_over" ∧
     (resolutionTail headOracle gW3b).winner = some ("killers")) := by
  refine ⟨?_, ?_, ?_⟩
  · exact C3_killer_elimination.1 headOracle kactsW3 accW3 ("k1", "A") pK1A ("A") ("s1") pS1A
      (by decide) (by decide) (by decide) (by decide) (by decide) (by decide) (by decide)
      (by decide) (by decide)
  · exact C3_killer_elimination.2.1 ["A"] gW3 ("A") (by decide) (by decide)
  · exact C3_killer_elimination.2.2 headOracle gW3b (by decide)

end YK
